import Mathlib

/-!
# PlanarPlanet: sphere tessellation and random-plane terrain synthesis

A shallow embedding of the synthesis core of `planet.c`.  The C `double`
is read as an ordered field `R` together with a square-root function
`sqrt : R → R`; the theorems about lengths instantiate `R` with the real
numbers and `sqrt` with `Real.sqrt`.  The face buffer `TF *f` is a map from
indices to faces, and `int` counters are mathematical integers.
-/

set_option autoImplicit false
set_option linter.unusedSectionVars false

namespace PlanarPlanet

/-! ## Data model (`planet.h`) -/

/-- The C struct `XYZ`: a point or vector in 3-space. -/
structure XYZ (R : Type) where
  x : R
  y : R
  z : R

/-- The C struct `TF`: a triangular facet with vertices `p[3]` and height counts `c[3]`. -/
@[ext]
structure TF (R : Type) where
  p : Fin 3 → XYZ R
  c : Fin 3 → Int

section Vector

variable {R : Type} [LinearOrderedField R]

/-- The C function `DotProduct`. -/
def DotProduct (p1 p2 : XYZ R) : R :=
  p1.x * p2.x + p1.y * p2.y + p1.z * p2.z

/-- The C function `Modulus`: the length of a vector. -/
def Modulus (sqrt : R → R) (p : XYZ R) : R :=
  sqrt (p.x * p.x + p.y * p.y + p.z * p.z)

/-- The C function `Normalise`, returning the vector it leaves in `*p`. -/
def Normalise (sqrt : R → R) (p : XYZ R) : XYZ R :=
  let length := sqrt (p.x * p.x + p.y * p.y + p.z * p.z)
  if length ≠ 0 then
    ⟨p.x / length, p.y / length, p.z / length⟩
  else
    ⟨0, 0, 0⟩

/-- The C function `MidPoint`. -/
def MidPoint (p1 p2 : XYZ R) : XYZ R :=
  ⟨(p1.x + p2.x) / 2, (p1.y + p2.y) / 2, (p1.z + p2.z) / 2⟩

/-- The C macro `MIN(x,y)`. -/
def MIN (x y : R) : R := if x < y then x else y

/-- The C macro `MAX(x,y)`. -/
def MAX (x y : R) : R := if x > y then x else y

end Vector

/-! ## The face buffer -/

section Buffer

variable {R : Type}

/-- The assignment `f[j].p[k] = v`. -/
def setP (f : Nat → TF R) (j : Nat) (k : Fin 3) (v : XYZ R) : Nat → TF R :=
  Function.update f j { f j with p := Function.update (f j).p k v }

/-- The assignment `f[j].c[k] = v`. -/
def setC (f : Nat → TF R) (j : Nat) (k : Fin 3) (v : Int) : Nat → TF R :=
  Function.update f j { f j with c := Function.update (f j).c k v }

end Buffer

/-! ## Tessellation (`MakeNSphere`, `FormSphere`) -/

section Sphere

variable {R : Type} [LinearOrderedField R]

/-- The six vertices `p[6]` of the level 0 octahedron after the `x` and `y`
components are multiplied by `a = 1 / sqrt(2.0)`. -/
def octaVertex (sqrt : R → R) (i : Fin 6) : XYZ R :=
  let a : R := 1 / sqrt 2
  match i with
  | 0 => ⟨0 * a, 0 * a, 1⟩
  | 1 => ⟨0 * a, 0 * a, -1⟩
  | 2 => ⟨-1 * a, -1 * a, 0⟩
  | 3 => ⟨1 * a, -1 * a, 0⟩
  | 4 => ⟨1 * a, 1 * a, 0⟩
  | 5 => ⟨-1 * a, 1 * a, 0⟩

/-- The assignment `f[j].p[0] = a; f[j].p[1] = b; f[j].p[2] = c`. -/
def setFace (f : Nat → TF R) (j : Nat) (a b c : XYZ R) : Nat → TF R :=
  setP (setP (setP f j 0 a) j 1 b) j 2 c

/-- The level 0 object of `MakeNSphere`: the eight faces `f[0..7]` of the octahedron. -/
def levelZero (sqrt : R → R) (f : Nat → TF R) : Nat → TF R :=
  let p := octaVertex sqrt
  let f := setFace f 0 (p 0) (p 3) (p 4)
  let f := setFace f 1 (p 0) (p 4) (p 5)
  let f := setFace f 2 (p 0) (p 5) (p 2)
  let f := setFace f 3 (p 0) (p 2) (p 3)
  let f := setFace f 4 (p 1) (p 4) (p 3)
  let f := setFace f 5 (p 1) (p 5) (p 4)
  let f := setFace f 6 (p 1) (p 2) (p 5)
  let f := setFace f 7 (p 1) (p 3) (p 2)
  f

/-- The body of the inner loop of `MakeNSphere` at index `i`: bisect the
edges of `f[i]`, write three new faces at `f[nt]`, `f[nt+1]`, `f[nt+2]` and
overwrite `f[i]` with the inner triangle.  The state is `(f, nt)`. -/
def splitFace (sqrt : R → R) (s : (Nat → TF R) × Nat) (i : Nat) : (Nat → TF R) × Nat :=
  let f := s.1
  let nt := s.2
  let pa := Normalise sqrt (MidPoint ((f i).p 0) ((f i).p 1))
  let pb := Normalise sqrt (MidPoint ((f i).p 1) ((f i).p 2))
  let pc := Normalise sqrt (MidPoint ((f i).p 2) ((f i).p 0))
  let f := setP f nt 0 ((f i).p 0)
  let f := setP f nt 1 pa
  let f := setP f nt 2 pc
  let nt := nt + 1
  let f := setP f nt 0 pa
  let f := setP f nt 1 ((f i).p 1)
  let f := setP f nt 2 pb
  let nt := nt + 1
  let f := setP f nt 0 pb
  let f := setP f nt 1 ((f i).p 2)
  let f := setP f nt 2 pc
  let nt := nt + 1
  let f := setP f i 0 pa
  let f := setP f i 1 pb
  let f := setP f i 2 pc
  (f, nt)

/-- One round of the outer loop of `MakeNSphere`: `ntold = nt`, then
`splitFace` for `i = 0 .. ntold - 1`. -/
def splitRound (sqrt : R → R) (s : (Nat → TF R) × Nat) : (Nat → TF R) × Nat :=
  let ntold := s.2
  (List.range ntold).foldl (splitFace sqrt) s

/-- The C function `MakeNSphere`: the buffer it leaves and the facet count it returns. -/
def MakeNSphere (sqrt : R → R) (f : Nat → TF R) (iterations : Int) : (Nat → TF R) × Nat :=
  let f := levelZero sqrt f
  let nt := 8
  if iterations < 1 then
    (f, nt)
  else
    (List.range iterations.toNat).foldl (fun s _ => splitRound sqrt s) (f, nt)

/-! ### Descriptions of the tessellation used in the proofs -/

/-- The three corners `a, b, c` as a corner array. -/
def tri (a b c : XYZ R) : Fin 3 → XYZ R :=
  fun k => if k = 0 then a else if k = 1 then b else c

/-- The four faces that `splitFace` makes of a face with corners `q`:
children 0, 1, 2 are the appended ones, child 3 is the inner triangle. -/
def childFace (sqrt : R → R) (q : Fin 3 → XYZ R) (m : Fin 4) : Fin 3 → XYZ R :=
  let pa := Normalise sqrt (MidPoint (q 0) (q 1))
  let pb := Normalise sqrt (MidPoint (q 1) (q 2))
  let pc := Normalise sqrt (MidPoint (q 2) (q 0))
  match m with
  | 0 => tri (q 0) pa pc
  | 1 => tri pa (q 1) pb
  | 2 => tri pb (q 2) pc
  | 3 => tri pa pb pc

/-- Corner array of face `k` after `splitFace` has run for `i = 0 .. m - 1`
in a round that started with `n` faces in buffer `f`. -/
def roundP (sqrt : R → R) (f : Nat → TF R) (n m k : Nat) : Fin 3 → XYZ R :=
  if k < m then childFace sqrt (f k).p 3
  else if n ≤ k ∧ k < n + 3 * m then
    (if (k - n) % 3 = 0 then childFace sqrt (f ((k - n) / 3)).p 0
     else if (k - n) % 3 = 1 then childFace sqrt (f ((k - n) / 3)).p 1
     else childFace sqrt (f ((k - n) / 3)).p 2)
  else (f k).p

/-- The state of `MakeNSphere` after `N` rounds of its outer loop. -/
def rounds (sqrt : R → R) (f : Nat → TF R) (N : Nat) : (Nat → TF R) × Nat :=
  (List.range N).foldl (fun s _ => splitRound sqrt s) (levelZero sqrt f, 8)

/-- Squared length of a vector, the argument of `sqrt` in `Modulus` and `Normalise`. -/
def normSq (p : XYZ R) : R := p.x * p.x + p.y * p.y + p.z * p.z

/-- A vector `v` is a combination of the corners `q` with non-negative weights. -/
def InCone (q : Fin 3 → XYZ R) (v : XYZ R) : Prop :=
  ∃ α β γ : R, 0 ≤ α ∧ 0 ≤ β ∧ 0 ≤ γ ∧
    v.x = α * (q 0).x + β * (q 1).x + γ * (q 2).x ∧
    v.y = α * (q 0).y + β * (q 1).y + γ * (q 2).y ∧
    v.z = α * (q 0).z + β * (q 1).z + γ * (q 2).z

/-- Invariant of the tessellation: the corners of a face are unit vectors
and no two of them make an obtuse angle (so no two are antipodal). -/
def GoodFace (q : Fin 3 → XYZ R) : Prop :=
  (∀ i, normSq (q i) = 1) ∧ ∀ i j, 0 ≤ DotProduct (q i) (q j)

/-- A buffer whose faces all sit at the origin with count zero. -/
def zeroBuffer : Nat → TF R := fun _ => ⟨fun _ => ⟨0, 0, 0⟩, fun _ => 0⟩

end Sphere

/-- What `FormSphere` leaves behind: the number of faces its `realloc`
made room for, the buffer, and the facet count it returns. -/
structure Formed (R : Type) where
  allocated : Nat
  faces : Nat → TF R
  n : Nat

section FormSphereDef

variable {R : Type} [LinearOrderedField R]

/-- The C function `FormSphere(depth)`, run with the global `faces` and the
global `spheredepth` (the `realloc` is taken to succeed). -/
def FormSphere (sqrt : R → R) (faces : Nat → TF R) (spheredepth : Int) (depth : Int) :
    Formed R :=
  let n := (List.range depth.toNat).foldl (fun n _ => n * 4) 8
  let r := MakeNSphere sqrt faces spheredepth
  ⟨n, r.1, r.2⟩

end FormSphereDef

/-! ## Terrain synthesis (`MakeGeometry`) -/

/-- The value `NOTDIRTY` of `geometrydirty`. -/
def NOTDIRTY : Int := 0
/-- The value `SLIGHTLYDIRTY` of `geometrydirty`. -/
def SLIGHTLYDIRTY : Int := 1
/-- The value `REALDIRTY` of `geometrydirty`. -/
def REALDIRTY : Int := 2
/-- The value `ADDONE` of `geometrydirty`. -/
def ADDONE : Int := 3

/-- The library generator: `srand48` turns a seed into a generator state and
`drand48` returns the next value together with the next state. -/
structure Rand48 (R G : Type) where
  srand48 : Int → G
  drand48 : G → R × G

/-- The globals of `planet.c` that `MakeGeometry` and the handlers use,
together with the state of the random generator. -/
structure Planet (R G : Type) where
  geometrydirty : Int
  faces : Nat → TF R
  nface : Nat
  spheredepth : Int
  iterationdepth : Int
  radiusmin : R
  radiusmax : R
  colourmap : Int
  showocean : Bool
  deltaheight : R
  seedvalue : Int
  whichmethod : Int
  uselights : Bool
  drawwireframe : Bool
  showconstruct : Bool
  dosmooth : Bool
  windowdump : Bool
  record : Bool
  debug : Bool
  demomode : Bool
  rng : G

section Geometry

variable {R G : Type} [LinearOrderedField R]

/-- The corner indices `0, 1, 2` of a `for (k=0;k<3;k++)` loop. -/
def corners : List (Fin 3) := [0, 1, 2]

/-- The loop "zero the planet" of `MakeGeometry`. -/
def zeroPlanet (sqrt : R → R) (nface : Nat) (faces : Nat → TF R) : Nat → TF R :=
  corners.foldl (fun fs i =>
    (List.range nface).foldl (fun fs j =>
      setC (setP fs j i (Normalise sqrt ((fs j).p i))) j i 0) fs) faces

/-- The block "Choose a random normal": the normal `n`, the `offset` and the generator state
after the four calls of `drand48`. -/
def chooseNormal (gen : Rand48 R G) (sqrt : R → R) (g : G) : (XYZ R × R) × G :=
  let d1 := gen.drand48 g
  let d2 := gen.drand48 d1.2
  let d3 := gen.drand48 d2.2
  let n := Normalise sqrt ⟨d1.1 - 1 / 2, d2.1 - 1 / 2, d3.1 - 1 / 2⟩
  let d4 := gen.drand48 d3.2
  ((n, d4.1 - 1 / 2), d4.2)

/-- The point `p` that is tested against the plane: the corner itself when
`whichmethod == 1`, otherwise the corner shifted by `- offset * n`. -/
def testPoint (whichmethod : Int) (pl : XYZ R × R) (q : XYZ R) : XYZ R :=
  if whichmethod = 1 then q
  else ⟨q.x - pl.2 * pl.1.x, q.y - pl.2 * pl.1.y, q.z - pl.2 * pl.1.z⟩

/-- The loop "Purturb the points": one pass over all corners with the plane `pl = (n, offset)`. -/
def perturb (whichmethod : Int) (pl : XYZ R × R) (nface : Nat) (faces : Nat → TF R) :
    Nat → TF R :=
  (List.range nface).foldl (fun fs j =>
    corners.foldl (fun fs k =>
      if DotProduct pl.1 (testPoint whichmethod pl ((fs j).p k)) > 0 then
        setC fs j k ((fs j).c k + 1)
      else
        setC fs j k ((fs j).c k - 1)) fs) faces

/-- The loop "Form the new surface": `niter` passes, each with a freshly drawn plane. -/
def formSurface (gen : Rand48 R G) (sqrt : R → R) (whichmethod : Int) (nface : Nat)
    (niter : Int) (s : (Nat → TF R) × G) : (Nat → TF R) × G :=
  (List.range niter.toNat).foldl (fun s _ =>
    (perturb whichmethod (chooseNormal gen sqrt s.2).1 nface s.1,
      (chooseNormal gen sqrt s.2).2)) s

/-- The loop "Adjust the heights": renormalise every corner and scale it by
`1 + deltaheight * c`. -/
def adjustHeights (sqrt : R → R) (deltaheight : R) (nface : Nat) (faces : Nat → TF R) :
    Nat → TF R :=
  (List.range nface).foldl (fun fs j =>
    corners.foldl (fun fs k =>
      let fs := setP fs j k (Normalise sqrt ((fs j).p k))
      let scale := 1 + deltaheight * ((fs j).c k : R)
      setP fs j k ⟨((fs j).p k).x * scale, ((fs j).p k).y * scale, ((fs j).p k).z * scale⟩)
      fs) faces

/-- The loop of "Find the range": `radiusmin` and `radiusmax` start at 1 and
take in the `Modulus` of every corner. -/
def rangeLoop (sqrt : R → R) (nface : Nat) (faces : Nat → TF R) : R × R :=
  (List.range nface).foldl (fun r i =>
    corners.foldl (fun r k =>
      (MIN r.1 (Modulus sqrt ((faces i).p k)), MAX r.2 (Modulus sqrt ((faces i).p k)))) r)
    ((1 : R), (1 : R))

/-- The block "Find the range": the pair `(radiusmin, radiusmax)` after the loop and the
widening by `deltaheight`. -/
def findRange (sqrt : R → R) (deltaheight : R) (nface : Nat) (faces : Nat → TF R) : R × R :=
  let r := rangeLoop sqrt nface faces
  (r.1 - deltaheight, r.2 + deltaheight)

/-- The faces and generator state after the "zero the planet" block of
`MakeGeometry`, together with `niter`. -/
def afterZero (gen : Rand48 R G) (sqrt : R → R) (s : Planet R G) :
    (Nat → TF R) × G × Int :=
  if s.geometrydirty = REALDIRTY then
    (zeroPlanet sqrt s.nface s.faces, gen.srand48 s.seedvalue, s.iterationdepth)
  else
    (s.faces, s.rng, 1)

/-- The faces and generator state after the surface has been formed and the
heights adjusted. -/
def afterSurface (gen : Rand48 R G) (sqrt : R → R) (s : Planet R G) : (Nat → TF R) × G :=
  let z := afterZero gen sqrt s
  if s.geometrydirty = REALDIRTY ∨ s.geometrydirty = ADDONE then
    let t := formSurface gen sqrt s.whichmethod s.nface z.2.2 (z.1, z.2.1)
    (adjustHeights sqrt s.deltaheight s.nface t.1, t.2)
  else
    (z.1, z.2.1)

/-- The value of `sealevel` in `MakeGeometry`, given the range just found. -/
def seaLevel (showocean : Bool) (r : R × R) : R :=
  if showocean then r.1 + (r.2 - r.1) / 2 else 0

/-- The C function `MakeGeometry`, as far as the globals go: the faces, the
generator and `radiusmin`, `radiusmax` (the display list is not part of the state). -/
def MakeGeometry (gen : Rand48 R G) (sqrt : R → R) (s : Planet R G) : Planet R G :=
  let a := afterSurface gen sqrt s
  let r := findRange sqrt s.deltaheight s.nface a.1
  let radiusmin := if s.showocean then seaLevel s.showocean r else r.1
  { s with faces := a.1, rng := a.2, radiusmin := radiusmin, radiusmax := r.2 }

end Geometry

/-! ### Per-corner descriptions of the synthesis used in the proofs -/

section GeometrySpec

variable {R G : Type} [LinearOrderedField R]

/-- A loop body that only touches corner `k` of face `j`, writing there a
position and a count computed from the position and count it finds there. -/
def LocalBody (body : (Nat → TF R) → Nat → Fin 3 → (Nat → TF R))
    (gp : XYZ R → Int → XYZ R) (gc : XYZ R → Int → Int) : Prop :=
  ∀ fs j k j' k',
    ((body fs j k) j').p k' =
      (if j' = j ∧ k' = k then gp ((fs j).p k) ((fs j).c k) else (fs j').p k') ∧
    ((body fs j k) j').c k' =
      (if j' = j ∧ k' = k then gc ((fs j).p k) ((fs j).c k) else (fs j').c k')

/-- The count of a corner at position `q` after one pass with the plane `pl`. -/
def passCount (whichmethod : Int) (pl : XYZ R × R) (q : XYZ R) (c : Int) : Int :=
  if DotProduct pl.1 (testPoint whichmethod pl q) > 0 then c + 1 else c - 1

/-- The count of a corner at position `q` after the passes with the planes `planes`. -/
def passesCount (whichmethod : Int) (planes : List (XYZ R × R)) (q : XYZ R) (c : Int) : Int :=
  planes.foldl (fun c pl => passCount whichmethod pl q c) c

/-- The first `N` planes that `chooseNormal` draws from generator state `g`. -/
def planesOf (gen : Rand48 R G) (sqrt : R → R) : Nat → G → List (XYZ R × R)
  | 0, _ => []
  | N + 1, g => (chooseNormal gen sqrt g).1 :: planesOf gen sqrt N (chooseNormal gen sqrt g).2

/-- The generator state after `N` planes have been drawn from state `g`. -/
def genAfter (gen : Rand48 R G) (sqrt : R → R) : Nat → G → G
  | 0, g => g
  | N + 1, g => genAfter gen sqrt N (chooseNormal gen sqrt g).2

/-- The vector `u` with each component multiplied by `1 + deltaheight * c`. -/
def scaled (deltaheight : R) (u : XYZ R) (c : Int) : XYZ R :=
  ⟨u.x * (1 + deltaheight * (c : R)), u.y * (1 + deltaheight * (c : R)),
    u.z * (1 + deltaheight * (c : R))⟩

end GeometrySpec

/-! ### Successive calls of `MakeGeometry` -/

/-- What the handlers have left in the globals when `Display` next calls
`MakeGeometry`: the dirty state and the synthesis parameters. -/
structure Request (R : Type) where
  dirty : Int
  iterationdepth : Int
  deltaheight : R
  whichmethod : Int
  seedvalue : Int
  showocean : Bool

section Requests

variable {R G : Type} [LinearOrderedField R]

/-- The globals of `t` overwritten with the request `r`, then `MakeGeometry`. -/
def redisplay (gen : Rand48 R G) (sqrt : R → R) (t : Planet R G) (r : Request R) :
    Planet R G :=
  MakeGeometry gen sqrt
    { t with geometrydirty := r.dirty, iterationdepth := r.iterationdepth,
             deltaheight := r.deltaheight, whichmethod := r.whichmethod,
             seedvalue := r.seedvalue, showocean := r.showocean }

/-- Two corner slots hold the same position and the same count. -/
def SameCorner (t : Planet R G) (j1 : Nat) (k1 : Fin 3) (j2 : Nat) (k2 : Fin 3) : Prop :=
  (t.faces j1).p k1 = (t.faces j2).p k2 ∧ (t.faces j1).c k1 = (t.faces j2).c k2

end Requests

/-! ### Runs in which every scale stays positive -/

section Positive

variable {R G : Type} [LinearOrderedField R]

end Positive

/-! ### The true extremes of the corner radii -/

section Extremes

variable {R : Type} [LinearOrderedField R]

/-- The number `m` is the least corner radius of the mesh. -/
def IsMinRadius (sqrt : R → R) (nface : Nat) (faces : Nat → TF R) (m : R) : Prop :=
  (∃ j, j < nface ∧ ∃ k, Modulus sqrt ((faces j).p k) = m) ∧
  ∀ j, j < nface → ∀ k, m ≤ Modulus sqrt ((faces j).p k)

/-- The number `M` is the greatest corner radius of the mesh. -/
def IsMaxRadius (sqrt : R → R) (nface : Nat) (faces : Nat → TF R) (M : R) : Prop :=
  (∃ j, j < nface ∧ ∃ k, Modulus sqrt ((faces j).p k) = M) ∧
  ∀ j, j < nface → ∀ k, Modulus sqrt ((faces j).p k) ≤ M

end Extremes

/-! ### Concrete inputs -/

section Inputs

variable {R : Type} [LinearOrderedField R]

/-- A generator whose `drand48` always returns `v`. -/
def constGen (v : R) : Rand48 R Unit := ⟨fun _ => (), fun _ => (v, ())⟩

/-- The globals as `planet.c` initialises them, with the mesh that
`FormSphere` builds at depth `d` in an all-zero buffer. -/
def freshPlanet (sqrt : R → R) (d : Int) : Planet R Unit where
  geometrydirty := REALDIRTY
  faces := (MakeNSphere sqrt zeroBuffer d).1
  nface := (MakeNSphere sqrt zeroBuffer d).2
  spheredepth := d
  iterationdepth := 0
  radiusmin := 1
  radiusmax := 1
  colourmap := 12
  showocean := false
  deltaheight := 1 / 100000
  seedvalue := 12345
  whichmethod := 1
  uselights := true
  drawwireframe := false
  showconstruct := false
  dosmooth := true
  windowdump := false
  record := false
  debug := false
  demomode := false
  rng := ()

end Inputs

/-! ## The colour ramps (`GetColour`) -/

/-- The C struct `COLOUR`. -/
structure COLOUR (R : Type) where
  r : R
  g : R
  b : R

section Colour

variable {R : Type} [LinearOrderedField R]

/-- The quotient `x / y` of two doubles: it has no value when `y` is zero
(where the machine gives an infinity or a NaN). -/
def fdiv (x y : R) : Option R := if y = 0 then none else some (x / y)

/-- The body of `case 1:` of `GetColour`: blue, cyan, green, magenta, red. -/
def ramp1 (v vmin dv : R) : Option (COLOUR R) :=
  if v < vmin + 0.25 * dv then do
    let g ← fdiv (4 * (v - vmin)) dv
    pure ⟨0, g, 1⟩
  else if v < vmin + 0.5 * dv then do
    let q ← fdiv (4 * (vmin + 0.25 * dv - v)) dv
    pure ⟨0, 1, 1 + q⟩
  else if v < vmin + 0.75 * dv then do
    let r ← fdiv (4 * (v - vmin - 0.5 * dv)) dv
    pure ⟨r, 1, 0⟩
  else do
    let q ← fdiv (4 * (vmin + 0.75 * dv - v)) dv
    pure ⟨1, 1 + q, 0⟩

/-- The body of `case 2:`: blue to red. -/
def ramp2 (v vmin vmax dv : R) : Option (COLOUR R) := do
  let r ← fdiv (v - vmin) dv
  let b ← fdiv (vmax - v) dv
  pure ⟨r, 0, b⟩

/-- The body of `case 3:`: grey scale. -/
def ramp3 (v vmin dv : R) : Option (COLOUR R) := do
  let r ← fdiv (v - vmin) dv
  pure ⟨r, r, r⟩

/-- The body of `case 4:`: red, yellow, green, cyan, blue, magenta, red. -/
def ramp4 (v vmin dv : R) : Option (COLOUR R) :=
  if v < vmin + dv / 6.0 then do
    let g ← fdiv (6 * (v - vmin)) dv
    pure ⟨1, g, 0⟩
  else if v < vmin + 2.0 * dv / 6.0 then do
    let q ← fdiv (6 * (vmin + dv / 6.0 - v)) dv
    pure ⟨1 + q, 1, 0⟩
  else if v < vmin + 3.0 * dv / 6.0 then do
    let b ← fdiv (6 * (v - vmin - 2.0 * dv / 6.0)) dv
    pure ⟨0, 1, b⟩
  else if v < vmin + 4.0 * dv / 6.0 then do
    let q ← fdiv (6 * (vmin + 3.0 * dv / 6.0 - v)) dv
    pure ⟨0, 1 + q, 1⟩
  else if v < vmin + 5.0 * dv / 6.0 then do
    let r ← fdiv (6 * (v - vmin - 4.0 * dv / 6.0)) dv
    pure ⟨r, 0, 1⟩
  else do
    let q ← fdiv (6 * (vmin + 5.0 * dv / 6.0 - v)) dv
    pure ⟨1, 0, 1 + q⟩

/-- The body of `case 5:`: green to yellow. -/
def ramp5 (v vmin vmax : R) : Option (COLOUR R) := do
  let r ← fdiv (v - vmin) (vmax - vmin)
  pure ⟨r, 1, 0⟩

/-- The body of `case 6:`: green to magenta. -/
def ramp6 (v vmin vmax : R) : Option (COLOUR R) := do
  let r ← fdiv (v - vmin) (vmax - vmin)
  let g ← fdiv (vmax - v) (vmax - vmin)
  pure ⟨r, g, r⟩

/-- The body of `case 7:`: blue, green, red, green, blue. -/
def ramp7 (v vmin dv : R) : Option (COLOUR R) :=
  if v < vmin + 0.25 * dv then do
    let g ← fdiv (4 * (v - vmin)) dv
    pure ⟨0, g, 1 - g⟩
  else if v < vmin + 0.5 * dv then do
    let r ← fdiv (4 * (v - vmin - 0.25 * dv)) dv
    pure ⟨r, 1 - r, 0⟩
  else if v < vmin + 0.75 * dv then do
    let g ← fdiv (4 * (v - vmin - 0.5 * dv)) dv
    pure ⟨1 - g, g, 0⟩
  else do
    let b ← fdiv (4 * (v - vmin - 0.75 * dv)) dv
    pure ⟨0, 1 - b, b⟩

/-- The body of `case 8:`: white, black, white. -/
def ramp8 (v vmin dv : R) : Option (COLOUR R) :=
  if v < vmin + 0.5 * dv then do
    let r ← fdiv (2 * (v - vmin)) dv
    pure ⟨r, r, r⟩
  else do
    let q ← fdiv (2 * (v - vmin - 0.5 * dv)) dv
    pure ⟨1 - q, 1 - q, 1 - q⟩

/-- The body of `case 9:`: red, blue, cyan, magenta. -/
def ramp9 (v vmin dv : R) : Option (COLOUR R) :=
  if v < vmin + dv / 3 then do
    let b ← fdiv (3 * (v - vmin)) dv
    pure ⟨1 - b, 0, b⟩
  else if v < vmin + 2 * dv / 3 then do
    let g ← fdiv (3 * (v - vmin - dv / 3)) dv
    pure ⟨0, g, 1⟩
  else do
    let r ← fdiv (3 * (v - vmin - 2 * dv / 3)) dv
    pure ⟨r, 1 - r, 1⟩

/-- The body of `case 10:`: blue, cyan, green, yellow, red, white. -/
def ramp10 (v vmin dv : R) : Option (COLOUR R) :=
  if v < vmin + 0.2 * dv then do
    let g ← fdiv (5 * (v - vmin)) dv
    pure ⟨0, g, 1⟩
  else if v < vmin + 0.4 * dv then do
    let q ← fdiv (5 * (vmin + 0.2 * dv - v)) dv
    pure ⟨0, 1, 1 + q⟩
  else if v < vmin + 0.6 * dv then do
    let r ← fdiv (5 * (v - vmin - 0.4 * dv)) dv
    pure ⟨r, 1, 0⟩
  else if v < vmin + 0.8 * dv then do
    let q ← fdiv (5 * (v - vmin - 0.6 * dv)) dv
    pure ⟨1, 1 - q, 0⟩
  else do
    let g ← fdiv (5 * (v - vmin - 0.8 * dv)) dv
    let b ← fdiv (5 * (v - vmin - 0.8 * dv)) dv
    pure ⟨1, g, b⟩

/-- The C statements `c.r = (c2.r - c1.r) * (v - v0) / d + c1.r` and the same
for `g` and `b`: the colour between `c1` and `c2`. -/
def blend (c1 c2 : COLOUR R) (v v0 d : R) : Option (COLOUR R) := do
  let r ← fdiv ((c2.r - c1.r) * (v - v0)) d
  let g ← fdiv ((c2.g - c1.g) * (v - v0)) d
  let b ← fdiv ((c2.b - c1.b) * (v - v0)) d
  pure ⟨r + c1.r, g + c1.g, b + c1.b⟩

/-- The body of `case 11:`: two Mars colours. -/
def ramp11 (v vmin dv : R) : Option (COLOUR R) :=
  let c1 : COLOUR R := ⟨200 / 255.0, 60 / 255.0, 0 / 255.0⟩
  let c2 : COLOUR R := ⟨250 / 255.0, 160 / 255.0, 110 / 255.0⟩
  blend c1 c2 v vmin dv

/-- The body of `case 12:`: three Mars colours. -/
def ramp12 (v vmin dv : R) : Option (COLOUR R) :=
  let c1 : COLOUR R := ⟨55 / 255.0, 55 / 255.0, 45 / 255.0⟩
  let c2 : COLOUR R := ⟨235 / 255.0, 90 / 255.0, 30 / 255.0⟩
  let c3 : COLOUR R := ⟨250 / 255.0, 160 / 255.0, 110 / 255.0⟩
  let ratio : R := 0.4
  let vmid := vmin + ratio * dv
  if v < vmid then blend c1 c2 v vmin (ratio * dv)
  else blend c2 c3 v vmid ((1 - ratio) * dv)

/-- The body of `case 13:`: landscape colours. -/
def ramp13 (v vmin dv : R) : Option (COLOUR R) :=
  let c1 : COLOUR R := ⟨0 / 255.0, 255 / 255.0, 0 / 255.0⟩
  let c2 : COLOUR R := ⟨255 / 255.0, 150 / 255.0, 0 / 255.0⟩
  let c3 : COLOUR R := ⟨255 / 255.0, 250 / 255.0, 240 / 255.0⟩
  let ratio : R := 0.3
  let vmid := vmin + ratio * dv
  if v < vmid then blend c1 c2 v vmin (ratio * dv)
  else blend c2 c3 v vmid ((1 - ratio) * dv)

/-- The body of `case 14:`: yellow to red. -/
def ramp14 (v vmin dv : R) : Option (COLOUR R) := do
  let g ← fdiv (v - vmin) dv
  pure ⟨1, g, 0⟩

/-- The body of `case 15:`: blue, cyan, green, yellow, brown, white. -/
def ramp15 (v vmin dv : R) : Option (COLOUR R) :=
  if v < vmin + 0.25 * dv then do
    let g ← fdiv (4 * (v - vmin)) dv
    pure ⟨0, g, 1⟩
  else if v < vmin + 0.5 * dv then do
    let q ← fdiv (4 * (v - vmin - 0.25 * dv)) dv
    pure ⟨0, 1, 1 - q⟩
  else if v < vmin + 0.75 * dv then do
    let r ← fdiv (4 * (v - vmin - 0.5 * dv)) dv
    pure ⟨r, 1, 0⟩
  else do
    let b ← fdiv (4 * (v - vmin - 0.75 * dv)) dv
    pure ⟨1, 1, b⟩

/-- The clipping of `v` at the head of `GetColour`. -/
def clip (v vmin vmax : R) : R :=
  let v := if v < vmin then vmin else v
  if v > vmax then vmax else v

/-- The C function `GetColour`: the colour of `v` on the ramp `type`, with no
value when a quotient on the path taken has divisor zero. -/
def GetColour (v vmin vmax : R) (type : Int) : Option (COLOUR R) :=
  let v := clip v vmin vmax
  let dv := vmax - vmin
  if type = 1 then ramp1 v vmin dv
  else if type = 2 then ramp2 v vmin vmax dv
  else if type = 3 then ramp3 v vmin dv
  else if type = 4 then ramp4 v vmin dv
  else if type = 5 then ramp5 v vmin vmax
  else if type = 6 then ramp6 v vmin vmax
  else if type = 7 then ramp7 v vmin dv
  else if type = 8 then ramp8 v vmin dv
  else if type = 9 then ramp9 v vmin dv
  else if type = 10 then ramp10 v vmin dv
  else if type = 11 then ramp11 v vmin dv
  else if type = 12 then ramp12 v vmin dv
  else if type = 13 then ramp13 v vmin dv
  else if type = 14 then ramp14 v vmin dv
  else if type = 15 then ramp15 v vmin dv
  else some ⟨1.0, 1.0, 1.0⟩

/-- Each component of the colour lies between 0 and 1. -/
def InUnit (c : COLOUR R) : Prop :=
  0 ≤ c.r ∧ c.r ≤ 1 ∧ 0 ≤ c.g ∧ c.g ≤ 1 ∧ 0 ≤ c.b ∧ c.b ≤ 1

end Colour

/-! ## The display list (`MakeGeometry`, "Create the opengl data") -/

/-- One vertex of the display list: the colour set by `glColor4f` (what
`GetColour` returned) and the position given to `glNormal3f` and `glVertex3f`. -/
structure GLVertex (R : Type) where
  colour : Option (COLOUR R)
  p : XYZ R

/-- One triangle of the display list. -/
structure GLTriangle (R : Type) where
  v1 : GLVertex R
  v2 : GLVertex R
  v3 : GLVertex R

section DisplayList

variable {R G : Type} [LinearOrderedField R]

/-- The loop between `glBegin(GL_TRIANGLES)` and `glEnd()` of `MakeGeometry`:
the triangles it emits, in order.  A face whose three corners are all below
`sealevel` is skipped (`continue`). -/
def triangleLoop (sqrt : R → R) (colourmap : Int) (radiusmin radiusmax sealevel : R)
    (nface : Nat) (faces : Nat → TF R) : List (GLTriangle R) :=
  (List.range nface).foldl (fun out i =>
    let p1 := (faces i).p 0
    let r1 := Modulus sqrt p1
    let p2 := (faces i).p 1
    let r2 := Modulus sqrt p2
    let p3 := (faces i).p 2
    let r3 := Modulus sqrt p3
    if r1 < sealevel ∧ r2 < sealevel ∧ r3 < sealevel then out
    else out ++ [⟨⟨GetColour r1 radiusmin radiusmax colourmap, p1⟩,
                  ⟨GetColour r2 radiusmin radiusmax colourmap, p2⟩,
                  ⟨GetColour r3 radiusmin radiusmax colourmap, p3⟩⟩]) []

/-- The triangles that `MakeGeometry` puts in display list 1. -/
def displayList (gen : Rand48 R G) (sqrt : R → R) (s : Planet R G) : List (GLTriangle R) :=
  let a := afterSurface gen sqrt s
  let r := findRange sqrt s.deltaheight s.nface a.1
  let sealevel := seaLevel s.showocean r
  let radiusmin := if s.showocean then sealevel else r.1
  triangleLoop sqrt s.colourmap radiusmin r.2 sealevel s.nface a.1

/-- The three corner positions of a triangle of the display list. -/
def GLTriangle.corners (t : GLTriangle R) : XYZ R × XYZ R × XYZ R := (t.v1.p, t.v2.p, t.v3.p)

/-- The three corner positions of face `i` of the mesh. -/
def faceCorners (faces : Nat → TF R) (i : Nat) : XYZ R × XYZ R × XYZ R :=
  ((faces i).p 0, (faces i).p 1, (faces i).p 2)

/-- Face `i` has a corner whose radius is at least `sealevel`. -/
def aboveSea (sqrt : R → R) (sealevel : R) (faces : Nat → TF R) (i : Nat) : Prop :=
  sealevel ≤ Modulus sqrt ((faces i).p 0) ∨ sealevel ≤ Modulus sqrt ((faces i).p 1) ∨
    sealevel ≤ Modulus sqrt ((faces i).p 2)

instance (sqrt : R → R) (sealevel : R) (faces : Nat → TF R) (i : Nat) :
    Decidable (aboveSea sqrt sealevel faces i) := by
  unfold aboveSea; infer_instance

/-- The triangle that the loop emits for face `i`. -/
def drawnFace (sqrt : R → R) (colourmap : Int) (radiusmin radiusmax : R)
    (faces : Nat → TF R) (i : Nat) : GLTriangle R :=
  ⟨⟨GetColour (Modulus sqrt ((faces i).p 0)) radiusmin radiusmax colourmap, (faces i).p 0⟩,
   ⟨GetColour (Modulus sqrt ((faces i).p 1)) radiusmin radiusmax colourmap, (faces i).p 1⟩,
   ⟨GetColour (Modulus sqrt ((faces i).p 2)) radiusmin radiusmax colourmap, (faces i).p 2⟩⟩

end DisplayList

/-! ## The handlers and `Display` -/

/-- A call of one of the keyboard or menu callbacks, with its argument.  For
the main menu `randValue` is what `rand()` returns if the entry asks for it. -/
inductive Event where
  | keyboard (key : Char)
  | specialKeyboard (key : Int)
  | mainMenu (whichone : Int) (randValue : Int)
  | iterMenu (whichone : Int)
  | methodMenu (whichone : Int)
  | resolMenu (whichone : Int)
  | heightMenu (whichone : Int)
  | colourMenu (whichone : Int)

section Handlers

variable {R G : Type} [LinearOrderedField R]

/-- The C function `HandleKeyboard`, as far as the globals of `Planet` go (the
camera is not part of them); `none` is `exit(0)`. -/
def HandleKeyboard (key : Char) (s : Planet R G) : Option (Planet R G) :=
  if key = Char.ofNat 27 ∨ key = 'Q' ∨ key = 'q' then none
  else if key = 'w' ∨ key = 'W' then some { s with windowdump := !s.windowdump }
  else if key = 'r' ∨ key = 'R' then some { s with record := !s.record }
  else if key = '<' ∨ key = ',' then
    let iterationdepth := s.iterationdepth - 1
    let iterationdepth := if iterationdepth < 0 then 0 else iterationdepth
    some { s with iterationdepth := iterationdepth, geometrydirty := REALDIRTY }
  else if key = '>' ∨ key = '.' then
    some { s with iterationdepth := s.iterationdepth + 1, geometrydirty := REALDIRTY }
  else some s

/-- The C function `HandleSpecialKeyboard`: it only turns the camera, which is
not part of `Planet`. -/
def HandleSpecialKeyboard (_key : Int) (s : Planet R G) : Option (Planet R G) := some s

/-- The C function `HandleMainMenu`; `none` is `exit(-1)`. -/
def HandleMainMenu (whichone : Int) (randValue : Int) (s : Planet R G) :
    Option (Planet R G) :=
  if whichone = 1 then
    some { s with uselights := !s.uselights, geometrydirty := SLIGHTLYDIRTY }
  else if whichone = 2 then
    some { s with drawwireframe := !s.drawwireframe, geometrydirty := SLIGHTLYDIRTY }
  else if whichone = 3 then
    some { s with showconstruct := !s.showconstruct, geometrydirty := SLIGHTLYDIRTY }
  else if whichone = 4 then
    some { s with dosmooth := !s.dosmooth, geometrydirty := SLIGHTLYDIRTY }
  else if whichone = 5 then
    some { s with showocean := !s.showocean, geometrydirty := SLIGHTLYDIRTY }
  else if whichone = 9 then
    some { s with seedvalue := randValue, geometrydirty := REALDIRTY }
  else if whichone = 10 then none
  else some s

/-- The C function `HandleColourMenu`. -/
def HandleColourMenu (whichone : Int) (s : Planet R G) : Option (Planet R G) :=
  some { s with colourmap := whichone, geometrydirty := SLIGHTLYDIRTY }

/-- The C function `HandleMethodMenu`. -/
def HandleMethodMenu (whichone : Int) (s : Planet R G) : Option (Planet R G) :=
  some { s with whichmethod := whichone, geometrydirty := REALDIRTY }

/-- The C function `HandleResolMenu`: `spheredepth = whichone`, then
`nface = FormSphere(spheredepth)`. -/
def HandleResolMenu (sqrt : R → R) (whichone : Int) (s : Planet R G) : Option (Planet R G) :=
  some { s with spheredepth := whichone,
                faces := (FormSphere sqrt s.faces whichone whichone).faces,
                nface := (FormSphere sqrt s.faces whichone whichone).n,
                geometrydirty := REALDIRTY }

/-- The C function `HandleHeightMenu`. -/
def HandleHeightMenu (whichone : Int) (s : Planet R G) : Option (Planet R G) :=
  let deltaheight : R :=
    if whichone = 1 then 0.00001
    else if whichone = 2 then 0.0001
    else if whichone = 3 then 0.001
    else s.deltaheight
  some { s with deltaheight := deltaheight, geometrydirty := REALDIRTY }

/-- The C function `HandleIterMenu`. -/
def HandleIterMenu (whichone : Int) (s : Planet R G) : Option (Planet R G) :=
  if whichone = 1 then
    let iterationdepth := s.iterationdepth - 1
    let iterationdepth := if iterationdepth < 0 then 0 else iterationdepth
    some { s with iterationdepth := iterationdepth, geometrydirty := REALDIRTY }
  else if whichone = 2 then
    some { s with iterationdepth := s.iterationdepth + 1, geometrydirty := ADDONE }
  else if whichone = 3 then
    some { s with iterationdepth := s.iterationdepth + 100, geometrydirty := REALDIRTY }
  else if whichone = 4 then
    some { s with iterationdepth := s.iterationdepth + 1000, geometrydirty := REALDIRTY }
  else if whichone = 5 then
    some { s with iterationdepth := 0, geometrydirty := REALDIRTY }
  else some s

/-- The callback that GLUT runs for the event `e`. -/
def handle (sqrt : R → R) (e : Event) (s : Planet R G) : Option (Planet R G) :=
  match e with
  | .keyboard key => HandleKeyboard key s
  | .specialKeyboard key => HandleSpecialKeyboard key s
  | .mainMenu whichone randValue => HandleMainMenu whichone randValue s
  | .iterMenu whichone => HandleIterMenu whichone s
  | .methodMenu whichone => HandleMethodMenu whichone s
  | .resolMenu whichone => HandleResolMenu sqrt whichone s
  | .heightMenu whichone => HandleHeightMenu whichone s
  | .colourMenu whichone => HandleColourMenu whichone s

/-- The C function `Display`, as far as the globals go: rebuild the display
list if the geometry is dirty, clear `windowdump` after a dump, and in demo mode
ask for one more pass. -/
def Display (gen : Rand48 R G) (sqrt : R → R) (s : Planet R G) : Planet R G :=
  let s := if s.geometrydirty ≠ NOTDIRTY then
      { MakeGeometry gen sqrt s with geometrydirty := NOTDIRTY }
    else s
  let s := if s.record = true ∨ s.windowdump = true then { s with windowdump := false } else s
  if s.demomode = true ∧ s.iterationdepth < 1000 then
    { s with iterationdepth := s.iterationdepth + 1, geometrydirty := ADDONE }
  else s

end Handlers

section Runs

variable {R G : Type} [LinearOrderedField R]

/-- One step of the program: a call of `Display` (`none`) or the callback of an
event. -/
def step (gen : Rand48 R G) (sqrt : R → R) : Option Event → Planet R G → Option (Planet R G)
  | none, s => some (Display gen sqrt s)
  | some e, s => handle sqrt e s

/-- A run of the program: `Display` calls and callbacks in any order. -/
def run (gen : Rand48 R G) (sqrt : R → R) : List (Option Event) → Planet R G →
    Option (Planet R G)
  | [], s => some s
  | x :: xs, s => (step gen sqrt x s).bind (run gen sqrt xs)

end Runs

/-! ### The spread of the radius range -/

section Spread

variable {R G : Type} [LinearOrderedField R]

/-- The spread `radiusmax - radiusmin` of the globals. -/
def spread (t : Planet R G) : R := t.radiusmax - t.radiusmin

/-- A generator whose `drand48` reads its values from the table `tbl`: the
state is the index of the next value and `srand48` rewinds to index 0. -/
def tableGen (tbl : List R) : Rand48 R Nat := ⟨fun _ => 0, fun g => (tbl.getD g 0, g + 1)⟩

/-- Eight values of `drand48`: the second plane they give is the first with
its normal reversed, both through the origin. -/
def cancelTable : List R := [9 / 10, 4 / 5, 7 / 10, 1 / 2, 1 / 10, 1 / 5, 3 / 10, 1 / 2]

/-- The globals as `planet.c` initialises them, depth `d` mesh, with the
generator state of `tableGen`. -/
def tablePlanet (sqrt : R → R) (d : Int) : Planet R Nat :=
  { freshPlanet sqrt d with rng := 0 }

end Spread

/-! ## Buffer lemmas -/

section BufferLemmas

variable {R : Type}

theorem setP_p (f : Nat → TF R) (j : Nat) (k : Fin 3) (v : XYZ R) (j' : Nat) (k' : Fin 3) :
    ((setP f j k v) j').p k' = if j' = j ∧ k' = k then v else (f j').p k' := by
  unfold setP
  by_cases hj : j' = j
  · subst hj
    by_cases hk : k' = k
    · subst hk; simp
    · simp [hk]
  · simp [hj]

theorem setP_c (f : Nat → TF R) (j : Nat) (k : Fin 3) (v : XYZ R) (j' : Nat) :
    ((setP f j k v) j').c = (f j').c := by
  unfold setP
  by_cases hj : j' = j
  · subst hj; simp
  · simp [hj]

theorem setC_c (f : Nat → TF R) (j : Nat) (k : Fin 3) (v : Int) (j' : Nat) (k' : Fin 3) :
    ((setC f j k v) j').c k' = if j' = j ∧ k' = k then v else (f j').c k' := by
  unfold setC
  by_cases hj : j' = j
  · subst hj
    by_cases hk : k' = k
    · subst hk; simp
    · simp [hk]
  · simp [hj]

theorem setC_p (f : Nat → TF R) (j : Nat) (k : Fin 3) (v : Int) (j' : Nat) :
    ((setC f j k v) j').p = (f j').p := by
  unfold setC
  by_cases hj : j' = j
  · subst hj; simp
  · simp [hj]

end BufferLemmas

section SphereLemmas

variable {R : Type} [LinearOrderedField R]

theorem splitFace_snd (sqrt : R → R) (s : (Nat → TF R) × Nat) (i : Nat) :
    (splitFace sqrt s i).2 = s.2 + 3 := rfl

theorem splitFace_c (sqrt : R → R) (s : (Nat → TF R) × Nat) (i k : Nat) :
    ((splitFace sqrt s i).1 k).c = (s.1 k).c := by
  simp [splitFace, setP_c]

theorem splitFace_p (sqrt : R → R) (f : Nat → TF R) (nt i : Nat) (hi : i < nt) (k : Nat) :
    ((splitFace sqrt (f, nt) i).1 k).p =
      if k = i then childFace sqrt (f i).p 3
      else if k = nt then childFace sqrt (f i).p 0
      else if k = nt + 1 then childFace sqrt (f i).p 1
      else if k = nt + 2 then childFace sqrt (f i).p 2
      else (f k).p := by
  have h1 : i ≠ nt := by omega
  have h2 : i ≠ nt + 1 := by omega
  have h3 : nt ≠ i := by omega
  have h4 : nt + 1 ≠ i := by omega
  have h5 : nt + 1 + 1 ≠ i := by omega
  have h6 : nt + 2 ≠ i := by omega
  have h7 : nt ≠ nt + 1 + 1 := by omega
  funext k'
  by_cases e0 : k = i
  · fin_cases k' <;> simp [splitFace, setP_p, childFace, tri, e0]
  · by_cases e1 : k = nt
    · fin_cases k' <;> simp [splitFace, setP_p, childFace, tri, e1, h1, h2, h3, h4, h5, h6, h7]
    · by_cases e2 : k = nt + 1
      · fin_cases k' <;> simp [splitFace, setP_p, childFace, tri, e2, h1, h2, h3, h4, h5, h6, h7]
      · by_cases e3 : k = nt + 2
        · fin_cases k' <;> simp [splitFace, setP_p, childFace, tri, e3, h1, h2, h3, h4, h5, h6, h7]
        · have e3' : k ≠ nt + 1 + 1 := by omega
          simp [splitFace, setP_p, e0, e1, e2, e3, e3']

theorem fold_splitFace (sqrt : R → R) (f : Nat → TF R) (n : Nat) :
    ∀ m, m ≤ n →
      ((List.range m).foldl (splitFace sqrt) (f, n)).2 = n + 3 * m ∧
      ∀ k, (((List.range m).foldl (splitFace sqrt) (f, n)).1 k).p = roundP sqrt f n m k ∧
           (((List.range m).foldl (splitFace sqrt) (f, n)).1 k).c = (f k).c := by
  intro m
  induction m with
  | zero =>
    intro _
    refine ⟨rfl, fun k => ⟨?_, rfl⟩⟩
    have a1 : ¬ k < 0 := by omega
    have a2 : ¬ (n ≤ k ∧ k < n + 3 * 0) := by omega
    show (f k).p = roundP sqrt f n 0 k
    unfold roundP
    rw [if_neg a1, if_neg a2]
  | succ m ih =>
    intro hm
    obtain ⟨h2, hk⟩ := ih (by omega)
    rw [List.range_succ, List.foldl_append]
    simp only [List.foldl_cons, List.foldl_nil]
    generalize (List.range m).foldl (splitFace sqrt) (f, n) = s at h2 hk ⊢
    obtain ⟨g, nt⟩ := s
    simp only at h2 hk
    subst h2
    refine ⟨by simp [splitFace_snd]; ring, fun k => ⟨?_, ?_⟩⟩
    · rw [splitFace_p sqrt g (n + 3 * m) m (by omega) k]
      have hm0 : (g m).p = (f m).p := by
        have a1 : ¬ m < m := by omega
        have a2 : ¬ (n ≤ m ∧ m < n + 3 * m) := by omega
        rw [(hk m).1]; unfold roundP
        rw [if_neg a1, if_neg a2]
      by_cases e0 : k = m
      · have a1 : k < m + 1 := by omega
        rw [if_pos e0, hm0]; unfold roundP; rw [if_pos a1, e0]
      · have hrange : ∀ r, r < 3 → k = n + 3 * m + r →
            roundP sqrt f n (m + 1) k =
              (if r = 0 then childFace sqrt (f m).p 0
               else if r = 1 then childFace sqrt (f m).p 1
               else childFace sqrt (f m).p 2) := by
          intro r hr hkr
          have a1 : ¬ k < m + 1 := by omega
          have a2 : n ≤ k ∧ k < n + 3 * (m + 1) := by omega
          have a3 : (k - n) / 3 = m := by omega
          have a4 : (k - n) % 3 = r := by omega
          unfold roundP
          rw [if_neg a1, if_pos a2, a3, a4]
        rw [if_neg e0]
        by_cases e1 : k = n + 3 * m
        · rw [if_pos e1, hm0, hrange 0 (by omega) (by omega)]; simp
        · rw [if_neg e1]
          by_cases e2 : k = n + 3 * m + 1
          · rw [if_pos e2, hm0, hrange 1 (by omega) (by omega)]; simp
          · rw [if_neg e2]
            by_cases e3 : k = n + 3 * m + 2
            · rw [if_pos e3, hm0, hrange 2 (by omega) (by omega)]; simp
            · rw [if_neg e3, (hk k).1]; unfold roundP
              by_cases c1 : k < m
              · have a1 : k < m + 1 := by omega
                rw [if_pos c1, if_pos a1]
              · have a1 : ¬ k < m + 1 := by omega
                rw [if_neg c1, if_neg a1]
                by_cases c2 : n ≤ k ∧ k < n + 3 * m
                · have a2 : n ≤ k ∧ k < n + 3 * (m + 1) := by omega
                  rw [if_pos c2, if_pos a2]
                · have a2 : ¬ (n ≤ k ∧ k < n + 3 * (m + 1)) := by omega
                  rw [if_neg c2, if_neg a2]
    · rw [splitFace_c]; exact (hk k).2

theorem splitRound_snd (sqrt : R → R) (f : Nat → TF R) (n : Nat) :
    (splitRound sqrt (f, n)).2 = 4 * n := by
  have h := (fold_splitFace sqrt f n n le_rfl).1
  simp only [splitRound]
  rw [h]; ring

theorem splitRound_p (sqrt : R → R) (f : Nat → TF R) (n k : Nat) :
    ((splitRound sqrt (f, n)).1 k).p = roundP sqrt f n n k :=
  ((fold_splitFace sqrt f n n le_rfl).2 k).1

theorem setFace_p (f : Nat → TF R) (j : Nat) (a b c : XYZ R) (k : Nat) :
    ((setFace f j a b c) k).p = if k = j then tri a b c else (f k).p := by
  funext k'
  by_cases e : k = j
  · fin_cases k' <;> simp [setFace, setP_p, tri, e]
  · simp [setFace, setP_p, e]

theorem rounds_succ (sqrt : R → R) (f : Nat → TF R) (N : Nat) :
    rounds sqrt f (N + 1) = splitRound sqrt (rounds sqrt f N) := by
  simp [rounds, List.range_succ, List.foldl_append]

theorem MakeNSphere_eq_rounds (sqrt : R → R) (f : Nat → TF R) (d : Int) :
    MakeNSphere sqrt f d = rounds sqrt f d.toNat := by
  unfold MakeNSphere rounds
  by_cases h : d < 1
  · have : d.toNat = 0 := by omega
    simp [h, this]
  · simp [h]

theorem rounds_snd (sqrt : R → R) (f : Nat → TF R) (N : Nat) :
    (rounds sqrt f N).2 = 8 * 4 ^ N := by
  induction N with
  | zero => rfl
  | succ N ih =>
    rw [rounds_succ]
    have h := splitRound_snd sqrt (rounds sqrt f N).1 (rounds sqrt f N).2
    simp only [Prod.mk.eta] at h
    rw [h, ih]; ring

theorem Normalise_of_pos (p : XYZ ℝ) (h : 0 < normSq p) :
    Normalise Real.sqrt p =
      ⟨p.x / Real.sqrt (normSq p), p.y / Real.sqrt (normSq p), p.z / Real.sqrt (normSq p)⟩ := by
  have hs : Real.sqrt (normSq p) ≠ 0 := (Real.sqrt_pos.mpr h).ne'
  unfold Normalise
  simp only [normSq] at hs ⊢
  rw [if_pos hs]

theorem Normalise_zero (p : XYZ ℝ) (h : normSq p = 0) :
    Normalise Real.sqrt p = ⟨0, 0, 0⟩ := by
  have hs : Real.sqrt (normSq p) = 0 := by rw [h, Real.sqrt_zero]
  unfold Normalise
  simp only []
  rw [if_neg (by simpa using hs)]

theorem normSq_nonneg (p : XYZ ℝ) : 0 ≤ normSq p := by
  unfold normSq
  nlinarith [mul_self_nonneg p.x, mul_self_nonneg p.y, mul_self_nonneg p.z]

theorem normSq_Normalise (p : XYZ ℝ) (h : 0 < normSq p) :
    normSq (Normalise Real.sqrt p) = 1 := by
  have hs : 0 < Real.sqrt (normSq p) := Real.sqrt_pos.mpr h
  have hsq : Real.sqrt (normSq p) * Real.sqrt (normSq p) = normSq p :=
    Real.mul_self_sqrt h.le
  rw [Normalise_of_pos p h]
  simp only [normSq] at hsq hs ⊢
  have hne := hs.ne'
  field_simp
  linarith [hsq]

theorem InCone_Normalise (q : Fin 3 → XYZ ℝ) (v : XYZ ℝ) (hv : InCone q v) :
    InCone q (Normalise Real.sqrt v) := by
  obtain ⟨α, β, γ, hα, hβ, hγ, hx, hy, hz⟩ := hv
  rcases (normSq_nonneg v).eq_or_lt with h0 | hpos
  · rw [Normalise_zero v h0.symm]
    exact ⟨0, 0, 0, le_rfl, le_rfl, le_rfl, by simp, by simp, by simp⟩
  · have hs : 0 < Real.sqrt (normSq v) := Real.sqrt_pos.mpr hpos
    rw [Normalise_of_pos v hpos]
    refine ⟨α / Real.sqrt (normSq v), β / Real.sqrt (normSq v), γ / Real.sqrt (normSq v),
      div_nonneg hα hs.le, div_nonneg hβ hs.le, div_nonneg hγ hs.le, ?_, ?_, ?_⟩
    · simp only [hx]; field_simp
    · simp only [hy]; field_simp
    · simp only [hz]; field_simp

theorem InCone_MidPoint (q : Fin 3 → XYZ ℝ) (u v : XYZ ℝ) (hu : InCone q u) (hv : InCone q v) :
    InCone q (MidPoint u v) := by
  obtain ⟨a1, b1, c1, ha1, hb1, hc1, hx1, hy1, hz1⟩ := hu
  obtain ⟨a2, b2, c2, ha2, hb2, hc2, hx2, hy2, hz2⟩ := hv
  refine ⟨(a1 + a2) / 2, (b1 + b2) / 2, (c1 + c2) / 2, by positivity, by positivity,
    by positivity, ?_, ?_, ?_⟩
  · simp only [MidPoint, hx1, hx2]; ring
  · simp only [MidPoint, hy1, hy2]; ring
  · simp only [MidPoint, hz1, hz2]; ring

theorem InCone_corner (q : Fin 3 → XYZ ℝ) (i : Fin 3) : InCone q (q i) := by
  fin_cases i
  · exact ⟨1, 0, 0, by norm_num, le_rfl, le_rfl, by simp, by simp, by simp⟩
  · exact ⟨0, 1, 0, le_rfl, by norm_num, le_rfl, by simp, by simp, by simp⟩
  · exact ⟨0, 0, 1, le_rfl, le_rfl, by norm_num, by simp, by simp, by simp⟩

theorem DotProduct_InCone (q : Fin 3 → XYZ ℝ) (hq : ∀ i j, 0 ≤ DotProduct (q i) (q j))
    (u v : XYZ ℝ) (hu : InCone q u) (hv : InCone q v) : 0 ≤ DotProduct u v := by
  obtain ⟨a1, b1, c1, ha1, hb1, hc1, hx1, hy1, hz1⟩ := hu
  obtain ⟨a2, b2, c2, ha2, hb2, hc2, hx2, hy2, hz2⟩ := hv
  have e : DotProduct u v =
      a1 * a2 * DotProduct (q 0) (q 0) + a1 * b2 * DotProduct (q 0) (q 1)
      + a1 * c2 * DotProduct (q 0) (q 2) + b1 * a2 * DotProduct (q 1) (q 0)
      + b1 * b2 * DotProduct (q 1) (q 1) + b1 * c2 * DotProduct (q 1) (q 2)
      + c1 * a2 * DotProduct (q 2) (q 0) + c1 * b2 * DotProduct (q 2) (q 1)
      + c1 * c2 * DotProduct (q 2) (q 2) := by
    simp only [DotProduct, hx1, hy1, hz1, hx2, hy2, hz2]; ring
  rw [e]
  have t := fun (s t : ℝ) (hs : 0 ≤ s) (ht : 0 ≤ t) (i j : Fin 3) =>
    mul_nonneg (mul_nonneg hs ht) (hq i j)
  have := t a1 a2 ha1 ha2 0 0
  have := t a1 b2 ha1 hb2 0 1
  have := t a1 c2 ha1 hc2 0 2
  have := t b1 a2 hb1 ha2 1 0
  have := t b1 b2 hb1 hb2 1 1
  have := t b1 c2 hb1 hc2 1 2
  have := t c1 a2 hc1 ha2 2 0
  have := t c1 b2 hc1 hb2 2 1
  have := t c1 c2 hc1 hc2 2 2
  linarith

theorem normSq_MidPoint_pos (a b : XYZ ℝ) (ha : normSq a = 1) (hb : normSq b = 1)
    (hab : 0 ≤ DotProduct a b) : 0 < normSq (MidPoint a b) := by
  simp only [normSq, MidPoint, DotProduct] at *
  nlinarith

theorem DotProduct_comm (u v : XYZ ℝ) : DotProduct u v = DotProduct v u := by
  simp only [DotProduct]; ring

theorem GoodFace_tri (u v w : XYZ ℝ) (hu : normSq u = 1) (hv : normSq v = 1)
    (hw : normSq w = 1) (huv : 0 ≤ DotProduct u v) (hvw : 0 ≤ DotProduct v w)
    (hwu : 0 ≤ DotProduct w u) : GoodFace (tri u v w) := by
  have self : ∀ t : XYZ ℝ, normSq t = 1 → 0 ≤ DotProduct t t := by
    intro t ht
    have : DotProduct t t = normSq t := rfl
    rw [this, ht]; norm_num
  have hvu : 0 ≤ DotProduct v u := by rw [DotProduct_comm]; exact huv
  have hwv : 0 ≤ DotProduct w v := by rw [DotProduct_comm]; exact hvw
  have huw : 0 ≤ DotProduct u w := by rw [DotProduct_comm]; exact hwu
  refine ⟨fun i => ?_, fun i j => ?_⟩
  · fin_cases i <;> simp [tri] <;> assumption
  · fin_cases i <;> fin_cases j <;> simp [tri] <;> first | assumption | exact self _ ‹_›

theorem GoodFace_child (q : Fin 3 → XYZ ℝ) (hq : GoodFace q) (m : Fin 4) :
    GoodFace (childFace Real.sqrt q m) := by
  obtain ⟨hunit, hdot⟩ := hq
  have mid_unit : ∀ i j, normSq (Normalise Real.sqrt (MidPoint (q i) (q j))) = 1 :=
    fun i j => normSq_Normalise _ (normSq_MidPoint_pos _ _ (hunit i) (hunit j) (hdot i j))
  have mid_cone : ∀ i j, InCone q (Normalise Real.sqrt (MidPoint (q i) (q j))) :=
    fun i j => InCone_Normalise q _ (InCone_MidPoint q _ _ (InCone_corner q i) (InCone_corner q j))
  have dd := DotProduct_InCone q hdot
  fin_cases m
  · exact GoodFace_tri _ _ _ (hunit 0) (mid_unit 0 1) (mid_unit 2 0)
      (dd _ _ (InCone_corner q 0) (mid_cone 0 1)) (dd _ _ (mid_cone 0 1) (mid_cone 2 0))
      (dd _ _ (mid_cone 2 0) (InCone_corner q 0))
  · exact GoodFace_tri _ _ _ (mid_unit 0 1) (hunit 1) (mid_unit 1 2)
      (dd _ _ (mid_cone 0 1) (InCone_corner q 1)) (dd _ _ (InCone_corner q 1) (mid_cone 1 2))
      (dd _ _ (mid_cone 1 2) (mid_cone 0 1))
  · exact GoodFace_tri _ _ _ (mid_unit 1 2) (hunit 2) (mid_unit 2 0)
      (dd _ _ (mid_cone 1 2) (InCone_corner q 2)) (dd _ _ (InCone_corner q 2) (mid_cone 2 0))
      (dd _ _ (mid_cone 2 0) (mid_cone 1 2))
  · exact GoodFace_tri _ _ _ (mid_unit 0 1) (mid_unit 1 2) (mid_unit 2 0)
      (dd _ _ (mid_cone 0 1) (mid_cone 1 2)) (dd _ _ (mid_cone 1 2) (mid_cone 2 0))
      (dd _ _ (mid_cone 2 0) (mid_cone 0 1))

theorem octa_half : (1 / Real.sqrt 2) * (1 / Real.sqrt 2) = 1 / 2 := by
  have h : Real.sqrt 2 * Real.sqrt 2 = 2 := Real.mul_self_sqrt (by norm_num)
  have h0 : Real.sqrt 2 ≠ 0 := by
    intro h0; rw [h0] at h; norm_num at h
  field_simp

theorem octa_normSq (i : Fin 6) : normSq (octaVertex Real.sqrt i) = 1 := by
  have h := octa_half
  fin_cases i <;> simp only [octaVertex, normSq] <;> nlinarith

theorem octa_dot (i j : Fin 6) (h : (i.val, j.val) ∉
    [(0, 1), (1, 0), (2, 4), (4, 2), (3, 5), (5, 3)]) :
    0 ≤ DotProduct (octaVertex Real.sqrt i) (octaVertex Real.sqrt j) := by
  have ha := octa_half
  fin_cases i <;> fin_cases j <;> simp at h <;> simp only [octaVertex, DotProduct] <;> nlinarith

theorem levelZero_good (f : Nat → TF ℝ) (k : Nat) (hk : k < 8) :
    GoodFace ((levelZero Real.sqrt f) k).p := by
  interval_cases k <;> simp only [levelZero, setFace_p] <;> norm_num <;>
    exact GoodFace_tri _ _ _ (octa_normSq _) (octa_normSq _) (octa_normSq _)
      (octa_dot _ _ (by decide)) (octa_dot _ _ (by decide)) (octa_dot _ _ (by decide))

theorem rounds_good (f : Nat → TF ℝ) (N : Nat) :
    ∀ k, k < 8 * 4 ^ N → GoodFace ((rounds Real.sqrt f N).1 k).p := by
  induction N with
  | zero => intro k hk; exact levelZero_good f k (by simpa using hk)
  | succ N ih =>
    intro k hk
    have h4 : 8 * 4 ^ (N + 1) = 4 * (8 * 4 ^ N) := by ring
    rw [rounds_succ]
    have h := splitRound_p Real.sqrt (rounds Real.sqrt f N).1 (rounds Real.sqrt f N).2 k
    simp only [Prod.mk.eta] at h
    rw [h, rounds_snd]
    unfold roundP
    by_cases c1 : k < 8 * 4 ^ N
    · rw [if_pos c1]
      exact GoodFace_child _ (ih k c1) 3
    · have c2 : 8 * 4 ^ N ≤ k ∧ k < 8 * 4 ^ N + 3 * (8 * 4 ^ N) := by omega
      have hg := ih ((k - 8 * 4 ^ N) / 3) (by omega)
      rw [if_neg c1, if_pos c2]
      split_ifs
      · exact GoodFace_child _ hg 0
      · exact GoodFace_child _ hg 1
      · exact GoodFace_child _ hg 2

/-- C2: over the reals, every corner of every face produced by
`MakeNSphere(f, d)` has `x^2 + y^2 + z^2 = 1`.  The six octahedron vertices
are unit vectors, and on every produced face (the faces a further round
would split) the midpoint of any two corners is not the zero vector, so
`Normalise` sends it to a unit vector. -/
theorem MakeNSphere_unit (f : Nat → TF ℝ) (d : Int) (k : Nat)
    (hk : k < (MakeNSphere Real.sqrt f d).2) :
    (∀ i, (((MakeNSphere Real.sqrt f d).1 k).p i).x ^ 2
        + (((MakeNSphere Real.sqrt f d).1 k).p i).y ^ 2
        + (((MakeNSphere Real.sqrt f d).1 k).p i).z ^ 2 = 1) ∧
    (∀ i : Fin 6, (octaVertex Real.sqrt i).x ^ 2 + (octaVertex Real.sqrt i).y ^ 2
        + (octaVertex Real.sqrt i).z ^ 2 = 1) ∧
    (∀ i j, MidPoint (((MakeNSphere Real.sqrt f d).1 k).p i)
        (((MakeNSphere Real.sqrt f d).1 k).p j) ≠ ⟨0, 0, 0⟩ ∧
      normSq (Normalise Real.sqrt (MidPoint (((MakeNSphere Real.sqrt f d).1 k).p i)
        (((MakeNSphere Real.sqrt f d).1 k).p j))) = 1) := by
  rw [MakeNSphere_eq_rounds] at hk ⊢
  rw [rounds_snd] at hk
  obtain ⟨hunit, hdot⟩ := rounds_good f d.toNat k hk
  refine ⟨fun i => ?_, fun i => ?_, fun i j => ⟨?_, ?_⟩⟩
  · have h := hunit i
    simp only [normSq] at h
    rw [← h]; ring
  · have h := octa_normSq i
    simp only [normSq] at h
    rw [← h]; ring
  · intro h0
    have hpos := normSq_MidPoint_pos _ _ (hunit i) (hunit j) (hdot i j)
    rw [h0] at hpos
    simp [normSq] at hpos
  · exact normSq_Normalise _ (normSq_MidPoint_pos _ _ (hunit i) (hunit j) (hdot i j))

/-- Witness for C2: face 0 of the depth 1 tessellation of an all-zero buffer. -/
theorem MakeNSphere_unit_witness :
    (0 < (MakeNSphere Real.sqrt (zeroBuffer : Nat → TF ℝ) 1).2) ∧
    (∀ i, (((MakeNSphere Real.sqrt (zeroBuffer : Nat → TF ℝ) 1).1 0).p i).x ^ 2
        + (((MakeNSphere Real.sqrt (zeroBuffer : Nat → TF ℝ) 1).1 0).p i).y ^ 2
        + (((MakeNSphere Real.sqrt (zeroBuffer : Nat → TF ℝ) 1).1 0).p i).z ^ 2 = 1) :=
  have h : 0 < (MakeNSphere Real.sqrt (zeroBuffer : Nat → TF ℝ) 1).2 := by
    rw [MakeNSphere_eq_rounds, rounds_snd]; norm_num
  ⟨h, (MakeNSphere_unit zeroBuffer 1 0 h).1⟩

end SphereLemmas

section FormSphereLemmas

variable {R : Type} [LinearOrderedField R]

end FormSphereLemmas

section GeometryLemmas

variable {R G : Type} [LinearOrderedField R]

theorem LocalBody_corners (body : (Nat → TF R) → Nat → Fin 3 → (Nat → TF R))
    (gp : XYZ R → Int → XYZ R) (gc : XYZ R → Int → Int) (h : LocalBody body gp gc)
    (fs : Nat → TF R) (j j' : Nat) (k' : Fin 3) :
    ((corners.foldl (fun fs k => body fs j k) fs) j').p k' =
      (if j' = j then gp ((fs j).p k') ((fs j).c k') else (fs j').p k') ∧
    ((corners.foldl (fun fs k => body fs j k) fs) j').c k' =
      (if j' = j then gc ((fs j).p k') ((fs j).c k') else (fs j').c k') := by
  have hp := fun fs j k j' k' => (h fs j k j' k').1
  have hc := fun fs j k j' k' => (h fs j k j' k').2
  simp only [corners, List.foldl_cons, List.foldl_nil]
  by_cases e : j' = j
  · subst e
    fin_cases k' <;> simp [hp, hc]
  · simp [hp, hc, e]

theorem LocalBody_faces (body : (Nat → TF R) → Nat → Fin 3 → (Nat → TF R))
    (gp : XYZ R → Int → XYZ R) (gc : XYZ R → Int → Int) (h : LocalBody body gp gc)
    (k : Fin 3) (fs : Nat → TF R) (n j' : Nat) (k' : Fin 3) :
    (((List.range n).foldl (fun fs j => body fs j k) fs) j').p k' =
      (if j' < n ∧ k' = k then gp ((fs j').p k') ((fs j').c k') else (fs j').p k') ∧
    (((List.range n).foldl (fun fs j => body fs j k) fs) j').c k' =
      (if j' < n ∧ k' = k then gc ((fs j').p k') ((fs j').c k') else (fs j').c k') := by
  induction n with
  | zero => simp
  | succ n ih =>
    rw [List.range_succ, List.foldl_append]
    simp only [List.foldl_cons, List.foldl_nil]
    generalize (List.range n).foldl (fun fs j => body fs j k) fs = t at ih ⊢
    have hn := h t n k
    have ihn := fun k' => (h t n k n k')
    rw [(hn j' k').1, (hn j' k').2]
    by_cases e : j' = n
    · subst e
      by_cases ek : k' = k
      · subst ek
        have a : ¬ (j' < j' ∧ k' = k') := by omega
        have ih' := ih
        rw [if_neg a, if_neg a] at ih'
        simp [ih'.1, ih'.2]
      · have a : ¬ (j' < j' ∧ k' = k) := by omega
        rw [if_neg a, if_neg a] at ih
        simp [ek, ih.1, ih.2]
    · have a : (j' < n + 1 ∧ k' = k) ↔ (j' < n ∧ k' = k) := by
        constructor
        · rintro ⟨h1, h2⟩; exact ⟨by omega, h2⟩
        · rintro ⟨h1, h2⟩; exact ⟨by omega, h2⟩
      simp only [e, false_and, if_false, a]
      exact ih

theorem LocalBody_faces_corners (body : (Nat → TF R) → Nat → Fin 3 → (Nat → TF R))
    (gp : XYZ R → Int → XYZ R) (gc : XYZ R → Int → Int) (h : LocalBody body gp gc)
    (fs : Nat → TF R) (n j' : Nat) (k' : Fin 3) :
    (((List.range n).foldl (fun fs j => corners.foldl (fun fs k => body fs j k) fs) fs) j').p k' =
      (if j' < n then gp ((fs j').p k') ((fs j').c k') else (fs j').p k') ∧
    (((List.range n).foldl (fun fs j => corners.foldl (fun fs k => body fs j k) fs) fs) j').c k' =
      (if j' < n then gc ((fs j').p k') ((fs j').c k') else (fs j').c k') := by
  induction n with
  | zero => simp
  | succ n ih =>
    rw [List.range_succ, List.foldl_append]
    simp only [List.foldl_cons, List.foldl_nil]
    generalize (List.range n).foldl
      (fun fs j => corners.foldl (fun fs k => body fs j k) fs) fs = t at ih ⊢
    have hn := LocalBody_corners body gp gc h t n j' k'
    rw [hn.1, hn.2]
    by_cases e : j' = n
    · subst e
      have a : ¬ j' < j' := by omega
      have b : j' < j' + 1 := by omega
      rw [if_neg a, if_neg a] at ih
      simp [ih.1, ih.2, b]
    · have a : j' < n + 1 ↔ j' < n := by omega
      simp only [e, if_false, a]
      exact ih

theorem LocalBody_corners_faces (body : (Nat → TF R) → Nat → Fin 3 → (Nat → TF R))
    (gp : XYZ R → Int → XYZ R) (gc : XYZ R → Int → Int) (h : LocalBody body gp gc)
    (fs : Nat → TF R) (n j' : Nat) (k' : Fin 3) :
    ((corners.foldl (fun fs i => (List.range n).foldl (fun fs j => body fs j i) fs) fs) j').p k' =
      (if j' < n then gp ((fs j').p k') ((fs j').c k') else (fs j').p k') ∧
    ((corners.foldl (fun fs i => (List.range n).foldl (fun fs j => body fs j i) fs) fs) j').c k' =
      (if j' < n then gc ((fs j').p k') ((fs j').c k') else (fs j').c k') := by
  have hp := fun i fs j' k' => (LocalBody_faces body gp gc h i fs n j' k').1
  have hc := fun i fs j' k' => (LocalBody_faces body gp gc h i fs n j' k').2
  simp only [corners, List.foldl_cons, List.foldl_nil]
  by_cases e : j' < n
  · fin_cases k' <;> simp [hp, hc, e]
  · simp [hp, hc, e]

theorem zeroPlanet_spec (sqrt : R → R) (n : Nat) (fs : Nat → TF R) (j : Nat) (k : Fin 3) :
    ((zeroPlanet sqrt n fs) j).p k =
      (if j < n then Normalise sqrt ((fs j).p k) else (fs j).p k) ∧
    ((zeroPlanet sqrt n fs) j).c k = (if j < n then 0 else (fs j).c k) := by
  have h : LocalBody
      (fun fs j i => setC (setP fs j i (Normalise sqrt ((fs j).p i))) j i 0)
      (fun q _ => Normalise sqrt q) (fun _ _ => 0) := by
    intro fs j k j' k'
    simp only [setC_p, setC_c, setP_p, setP_c, and_self]
  exact LocalBody_corners_faces _ _ _ h fs n j k

theorem perturb_spec (whichmethod : Int) (pl : XYZ R × R) (n : Nat) (fs : Nat → TF R)
    (j : Nat) (k : Fin 3) :
    ((perturb whichmethod pl n fs) j).p k = (fs j).p k ∧
    ((perturb whichmethod pl n fs) j).c k =
      (if j < n then passCount whichmethod pl ((fs j).p k) ((fs j).c k) else (fs j).c k) := by
  have h : LocalBody
      (fun fs j k =>
        if DotProduct pl.1 (testPoint whichmethod pl ((fs j).p k)) > 0 then
          setC fs j k ((fs j).c k + 1)
        else
          setC fs j k ((fs j).c k - 1))
      (fun q _ => q) (fun q c => passCount whichmethod pl q c) := by
    intro fs j k j' k'
    unfold passCount
    by_cases hd : DotProduct pl.1 (testPoint whichmethod pl ((fs j).p k)) > 0
    · simp only [hd, if_true, setC_p, setC_c, and_true]
      by_cases e : j' = j ∧ k' = k
      · rw [if_pos e, e.1, e.2]
      · rw [if_neg e]
    · simp only [hd, if_false, setC_p, setC_c, and_true]
      by_cases e : j' = j ∧ k' = k
      · rw [if_pos e, e.1, e.2]
      · rw [if_neg e]
  have := LocalBody_faces_corners _ _ _ h fs n j k
  refine ⟨?_, this.2⟩
  have h1 := this.1
  simp only [ite_self] at h1
  exact h1

theorem adjustHeights_spec (sqrt : R → R) (deltaheight : R) (n : Nat) (fs : Nat → TF R)
    (j : Nat) (k : Fin 3) :
    ((adjustHeights sqrt deltaheight n fs) j).p k =
      (if j < n then scaled deltaheight (Normalise sqrt ((fs j).p k)) ((fs j).c k)
       else (fs j).p k) ∧
    ((adjustHeights sqrt deltaheight n fs) j).c k = (fs j).c k := by
  have h : LocalBody
      (fun fs j k =>
        let fs := setP fs j k (Normalise sqrt ((fs j).p k))
        let scale := 1 + deltaheight * ((fs j).c k : R)
        setP fs j k ⟨((fs j).p k).x * scale, ((fs j).p k).y * scale, ((fs j).p k).z * scale⟩)
      (fun q c => scaled deltaheight (Normalise sqrt q) c) (fun _ c => c) := by
    intro fs j k j' k'
    simp only [setP_p, setP_c, scaled, and_self, if_true]
    refine ⟨?_, ?_⟩
    · by_cases e : j' = j ∧ k' = k
      · rw [if_pos e, if_pos e]
      · rw [if_neg e, if_neg e, if_neg e]
    · by_cases e : j' = j ∧ k' = k
      · rw [if_pos e, e.1, e.2]
      · rw [if_neg e]
  have := LocalBody_faces_corners _ _ _ h fs n j k
  refine ⟨this.1, ?_⟩
  have h2 := this.2
  simp only [ite_self] at h2
  exact h2

theorem formSurface_iterate (gen : Rand48 R G) (sqrt : R → R) (whichmethod : Int)
    (nface : Nat) (N : Nat) (fs : Nat → TF R) (g : G) (j : Nat) (k : Fin 3) :
    ((((fun s : (Nat → TF R) × G =>
        (perturb whichmethod (chooseNormal gen sqrt s.2).1 nface s.1,
          (chooseNormal gen sqrt s.2).2))^[N] (fs, g)).1 j).p k = (fs j).p k) ∧
    ((((fun s : (Nat → TF R) × G =>
        (perturb whichmethod (chooseNormal gen sqrt s.2).1 nface s.1,
          (chooseNormal gen sqrt s.2).2))^[N] (fs, g)).1 j).c k =
      (if j < nface then
        passesCount whichmethod (planesOf gen sqrt N g) ((fs j).p k) ((fs j).c k)
       else (fs j).c k)) ∧
    ((fun s : (Nat → TF R) × G =>
        (perturb whichmethod (chooseNormal gen sqrt s.2).1 nface s.1,
          (chooseNormal gen sqrt s.2).2))^[N] (fs, g)).2 = genAfter gen sqrt N g := by
  induction N generalizing fs g with
  | zero => simp [planesOf, genAfter, passesCount]
  | succ N ih =>
    rw [Function.iterate_succ_apply]
    have h := ih (perturb whichmethod (chooseNormal gen sqrt g).1 nface fs)
      (chooseNormal gen sqrt g).2
    have hp := perturb_spec whichmethod (chooseNormal gen sqrt g).1 nface fs j k
    refine ⟨by rw [h.1, hp.1], ?_, by rw [h.2.2]; rfl⟩
    rw [h.2.1, hp.1, hp.2]
    by_cases e : j < nface
    · simp only [e, if_true, planesOf, passesCount, List.foldl_cons]
    · simp only [e, if_false]

theorem formSurface_spec (gen : Rand48 R G) (sqrt : R → R) (whichmethod : Int)
    (nface : Nat) (niter : Int) (fs : Nat → TF R) (g : G) (j : Nat) (k : Fin 3) :
    (((formSurface gen sqrt whichmethod nface niter (fs, g)).1 j).p k = (fs j).p k) ∧
    (((formSurface gen sqrt whichmethod nface niter (fs, g)).1 j).c k =
      (if j < nface then
        passesCount whichmethod (planesOf gen sqrt niter.toNat g) ((fs j).p k) ((fs j).c k)
       else (fs j).c k)) ∧
    (formSurface gen sqrt whichmethod nface niter (fs, g)).2 =
      genAfter gen sqrt niter.toNat g := by
  unfold formSurface
  rw [List.foldl_const, List.length_range]
  exact formSurface_iterate gen sqrt whichmethod nface niter.toNat fs g j k

/-- The corner `(j, k)` after `MakeGeometry` in the `REALDIRTY` state. -/
theorem MakeGeometry_realdirty (gen : Rand48 R G) (sqrt : R → R) (s : Planet R G)
    (hs : s.geometrydirty = REALDIRTY) (j : Nat) (k : Fin 3) (hj : j < s.nface) :
    (((MakeGeometry gen sqrt s).faces j).c k =
      passesCount s.whichmethod
        (planesOf gen sqrt s.iterationdepth.toNat (gen.srand48 s.seedvalue))
        (Normalise sqrt ((s.faces j).p k)) 0) ∧
    (((MakeGeometry gen sqrt s).faces j).p k =
      scaled s.deltaheight (Normalise sqrt (Normalise sqrt ((s.faces j).p k)))
        (((MakeGeometry gen sqrt s).faces j).c k)) ∧
    (MakeGeometry gen sqrt s).rng =
      genAfter gen sqrt s.iterationdepth.toNat (gen.srand48 s.seedvalue) := by
  have hz := zeroPlanet_spec sqrt s.nface s.faces j k
  rw [if_pos hj, if_pos hj] at hz
  have hf := formSurface_spec gen sqrt s.whichmethod s.nface s.iterationdepth
    (zeroPlanet sqrt s.nface s.faces) (gen.srand48 s.seedvalue) j k
  rw [if_pos hj, hz.1, hz.2] at hf
  have ha := adjustHeights_spec sqrt s.deltaheight s.nface
    (formSurface gen sqrt s.whichmethod s.nface s.iterationdepth
      (zeroPlanet sqrt s.nface s.faces, gen.srand48 s.seedvalue)).1 j k
  rw [if_pos hj, hf.1, hf.2.1] at ha
  have e : afterSurface gen sqrt s =
      (adjustHeights sqrt s.deltaheight s.nface
        (formSurface gen sqrt s.whichmethod s.nface s.iterationdepth
          (zeroPlanet sqrt s.nface s.faces, gen.srand48 s.seedvalue)).1,
       (formSurface gen sqrt s.whichmethod s.nface s.iterationdepth
          (zeroPlanet sqrt s.nface s.faces, gen.srand48 s.seedvalue)).2) := by
    simp [afterSurface, afterZero, hs]
  have ec : ((MakeGeometry gen sqrt s).faces j).c k =
      passesCount s.whichmethod
        (planesOf gen sqrt s.iterationdepth.toNat (gen.srand48 s.seedvalue))
        (Normalise sqrt ((s.faces j).p k)) 0 := by
    show ((afterSurface gen sqrt s).1 j).c k = _
    rw [e]; exact ha.2
  refine ⟨ec, ?_, ?_⟩
  · rw [ec]
    show ((afterSurface gen sqrt s).1 j).p k = _
    rw [e]; exact ha.1
  · show (afterSurface gen sqrt s).2 = _
    rw [e]; exact hf.2.2

/-- The corner `(j, k)` after `MakeGeometry` in the `ADDONE` state. -/
theorem MakeGeometry_addone (gen : Rand48 R G) (sqrt : R → R) (s : Planet R G)
    (hs : s.geometrydirty = ADDONE) (j : Nat) (k : Fin 3) (hj : j < s.nface) :
    (((MakeGeometry gen sqrt s).faces j).c k =
      passCount s.whichmethod (chooseNormal gen sqrt s.rng).1 ((s.faces j).p k)
        ((s.faces j).c k)) ∧
    (((MakeGeometry gen sqrt s).faces j).p k =
      scaled s.deltaheight (Normalise sqrt ((s.faces j).p k))
        (((MakeGeometry gen sqrt s).faces j).c k)) ∧
    (MakeGeometry gen sqrt s).rng = (chooseNormal gen sqrt s.rng).2 := by
  have hne : ¬ (ADDONE = REALDIRTY) := by decide
  have hf := formSurface_spec gen sqrt s.whichmethod s.nface 1 s.faces s.rng j k
  rw [if_pos hj] at hf
  have h1 : (1 : Int).toNat = 1 := rfl
  rw [h1] at hf
  simp only [planesOf, genAfter, passesCount, List.foldl_cons, List.foldl_nil] at hf
  have ha := adjustHeights_spec sqrt s.deltaheight s.nface
    (formSurface gen sqrt s.whichmethod s.nface 1 (s.faces, s.rng)).1 j k
  rw [if_pos hj, hf.1, hf.2.1] at ha
  have e : afterSurface gen sqrt s =
      (adjustHeights sqrt s.deltaheight s.nface
        (formSurface gen sqrt s.whichmethod s.nface 1 (s.faces, s.rng)).1,
       (formSurface gen sqrt s.whichmethod s.nface 1 (s.faces, s.rng)).2) := by
    simp [afterSurface, afterZero, hs, hne]
  have ec : ((MakeGeometry gen sqrt s).faces j).c k =
      passCount s.whichmethod (chooseNormal gen sqrt s.rng).1 ((s.faces j).p k)
        ((s.faces j).c k) := by
    show ((afterSurface gen sqrt s).1 j).c k = _
    rw [e]; exact ha.2
  refine ⟨ec, ?_, ?_⟩
  · rw [ec]
    show ((afterSurface gen sqrt s).1 j).p k = _
    rw [e]; exact ha.1
  · show (afterSurface gen sqrt s).2 = _
    rw [e]; exact hf.2.2

theorem planesOf_length (gen : Rand48 R G) (sqrt : R → R) (N : Nat) (g : G) :
    (planesOf gen sqrt N g).length = N := by
  induction N generalizing g with
  | zero => rfl
  | succ N ih => simp [planesOf, ih]

theorem passesCount_filter (whichmethod : Int) (planes : List (XYZ R × R)) (q : XYZ R)
    (c : Int) :
    passesCount whichmethod planes q c =
      c + ((planes.filter (fun pl => DotProduct pl.1 (testPoint whichmethod pl q) > 0)).length
            : Int)
        - ((planes.filter (fun pl => DotProduct pl.1 (testPoint whichmethod pl q) ≤ 0)).length
            : Int) := by
  induction planes generalizing c with
  | nil => simp [passesCount]
  | cons pl rest ih =>
    have e : passesCount whichmethod (pl :: rest) q c =
        passesCount whichmethod rest q (passCount whichmethod pl q c) := rfl
    rw [e, ih]
    unfold passCount
    by_cases hd : DotProduct pl.1 (testPoint whichmethod pl q) > 0
    · have hn : ¬ DotProduct pl.1 (testPoint whichmethod pl q) ≤ 0 := not_le.mpr hd
      simp only [hd, hn, if_true, List.filter_cons, decide_True, decide_False,
        List.length_cons]
      push_cast; ring
    · have hn : DotProduct pl.1 (testPoint whichmethod pl q) ≤ 0 := not_lt.mp hd
      simp only [hd, hn, if_false, if_true, List.filter_cons, decide_True, decide_False,
        List.length_cons, Bool.false_eq_true]
      push_cast; ring

theorem filter_split (planes : List (XYZ R × R)) (whichmethod : Int) (q : XYZ R) :
    (planes.filter (fun pl => DotProduct pl.1 (testPoint whichmethod pl q) > 0)).length
      + (planes.filter (fun pl => DotProduct pl.1 (testPoint whichmethod pl q) ≤ 0)).length
      = planes.length := by
  induction planes with
  | nil => rfl
  | cons pl rest ih =>
    by_cases hd : DotProduct pl.1 (testPoint whichmethod pl q) > 0
    · have hn : ¬ DotProduct pl.1 (testPoint whichmethod pl q) ≤ 0 := not_le.mpr hd
      simp only [hd, hn, List.filter_cons, decide_True, decide_False, List.length_cons,
        if_true, if_false, Bool.false_eq_true]
      omega
    · have hn : DotProduct pl.1 (testPoint whichmethod pl q) ≤ 0 := not_lt.mp hd
      simp only [hd, hn, List.filter_cons, decide_True, decide_False, List.length_cons,
        if_true, if_false, Bool.false_eq_true]
      omega

/-- C4: after `MakeGeometry` in the `REALDIRTY` state with
`N = iterationdepth >= 0`, exactly `N` planes have been drawn and the count of
every corner is the number of those planes with `n . p > 0` minus the number
with `n . p <= 0`, where `p` is the renormalised corner (shifted by
`- offset * n` when `whichmethod != 1`); a corner on the plane is decremented.
So `|c| <= N`, `c` and `N` have the same parity, `N = 0` gives 0 and `N = 1`
gives -1 or 1. -/
theorem MakeGeometry_count (gen : Rand48 R G) (sqrt : R → R) (s : Planet R G)
    (hs : s.geometrydirty = REALDIRTY) (hN : 0 ≤ s.iterationdepth) (j : Nat) (k : Fin 3)
    (hj : j < s.nface) :
    ((planesOf gen sqrt s.iterationdepth.toNat (gen.srand48 s.seedvalue)).length : Int)
      = s.iterationdepth ∧
    ((MakeGeometry gen sqrt s).faces j).c k =
      (((planesOf gen sqrt s.iterationdepth.toNat (gen.srand48 s.seedvalue)).filter
          (fun pl => DotProduct pl.1
            (testPoint s.whichmethod pl (Normalise sqrt ((s.faces j).p k))) > 0)).length : Int)
      - (((planesOf gen sqrt s.iterationdepth.toNat (gen.srand48 s.seedvalue)).filter
          (fun pl => DotProduct pl.1
            (testPoint s.whichmethod pl (Normalise sqrt ((s.faces j).p k))) ≤ 0)).length : Int) ∧
    (∀ (pl : XYZ R × R) (q : XYZ R) (c : Int),
      DotProduct pl.1 (testPoint s.whichmethod pl q) = 0 →
        passCount s.whichmethod pl q c = c - 1) ∧
    |((MakeGeometry gen sqrt s).faces j).c k| ≤ s.iterationdepth ∧
    ((MakeGeometry gen sqrt s).faces j).c k % 2 = s.iterationdepth % 2 ∧
    (s.iterationdepth = 0 → ((MakeGeometry gen sqrt s).faces j).c k = 0) ∧
    (s.iterationdepth = 1 → ((MakeGeometry gen sqrt s).faces j).c k = -1 ∨
      ((MakeGeometry gen sqrt s).faces j).c k = 1) := by
  have hc := (MakeGeometry_realdirty gen sqrt s hs j k hj).1
  rw [passesCount_filter] at hc
  have hlen := planesOf_length gen sqrt s.iterationdepth.toNat (gen.srand48 s.seedvalue)
  have hsplit := filter_split
    (planesOf gen sqrt s.iterationdepth.toNat (gen.srand48 s.seedvalue)) s.whichmethod
    (Normalise sqrt ((s.faces j).p k))
  have hN' : (s.iterationdepth.toNat : Int) = s.iterationdepth := Int.toNat_of_nonneg hN
  rw [hlen] at hsplit
  generalize ((planesOf gen sqrt s.iterationdepth.toNat (gen.srand48 s.seedvalue)).filter
    (fun pl => DotProduct pl.1
      (testPoint s.whichmethod pl (Normalise sqrt ((s.faces j).p k))) > 0)).length = a
    at hc hsplit ⊢
  generalize ((planesOf gen sqrt s.iterationdepth.toNat (gen.srand48 s.seedvalue)).filter
    (fun pl => DotProduct pl.1
      (testPoint s.whichmethod pl (Normalise sqrt ((s.faces j).p k))) ≤ 0)).length = b
    at hc hsplit ⊢
  generalize ((MakeGeometry gen sqrt s).faces j).c k = c at hc ⊢
  refine ⟨by rw [hlen]; exact hN', by omega, ?_, ?_, by omega, by omega, by omega⟩
  · intro pl q c0 h0
    unfold passCount
    rw [if_neg (by rw [h0]; exact lt_irrefl _)]
  · rw [abs_le]; constructor <;> omega

/-- Witness for C4: the depth 0 mesh, one pass, corner 0 of face 0. -/
theorem MakeGeometry_count_witness :
    ({ freshPlanet Real.sqrt 0 with iterationdepth := 1 } : Planet ℝ Unit).geometrydirty
      = REALDIRTY ∧
    (((MakeGeometry (constGen (0 : ℝ)) Real.sqrt
        { freshPlanet Real.sqrt 0 with iterationdepth := 1 }).faces 0).c 0 = -1 ∨
     ((MakeGeometry (constGen (0 : ℝ)) Real.sqrt
        { freshPlanet Real.sqrt 0 with iterationdepth := 1 }).faces 0).c 0 = 1) :=
  ⟨rfl, (MakeGeometry_count (constGen (0 : ℝ)) Real.sqrt
    { freshPlanet Real.sqrt 0 with iterationdepth := 1 } rfl (by decide) 0 0
    (by decide)).2.2.2.2.2.2 rfl⟩

/-! ### Positions over the reals -/

theorem Normalise_unit (q : XYZ ℝ) (h : normSq q = 1) : Normalise Real.sqrt q = q := by
  rw [Normalise_of_pos q (by rw [h]; norm_num), h, Real.sqrt_one]
  cases q
  simp

theorem Normalise_idem (q : XYZ ℝ) :
    Normalise Real.sqrt (Normalise Real.sqrt q) = Normalise Real.sqrt q := by
  rcases (normSq_nonneg q).eq_or_lt with h0 | hpos
  · rw [Normalise_zero q h0.symm]
    exact Normalise_zero _ (by simp [normSq])
  · exact Normalise_unit _ (normSq_Normalise q hpos)

theorem Modulus_scaled (deltaheight : ℝ) (u : XYZ ℝ) (c : Int) (hu : normSq u = 1) :
    Modulus Real.sqrt (scaled deltaheight u c) = |1 + deltaheight * (c : ℝ)| := by
  simp only [normSq] at hu
  have e : (scaled deltaheight u c).x * (scaled deltaheight u c).x
      + (scaled deltaheight u c).y * (scaled deltaheight u c).y
      + (scaled deltaheight u c).z * (scaled deltaheight u c).z
      = (1 + deltaheight * (c : ℝ)) * (1 + deltaheight * (c : ℝ)) := by
    simp only [scaled]
    linear_combination ((1 + deltaheight * (c : ℝ)) * (1 + deltaheight * (c : ℝ))) * hu
  unfold Modulus
  rw [e, Real.sqrt_mul_self_eq_abs]

theorem position_after_call (gen : Rand48 ℝ G) (s : Planet ℝ G)
    (hs : s.geometrydirty = REALDIRTY ∨ s.geometrydirty = ADDONE) (j : Nat) (k : Fin 3)
    (hj : j < s.nface) :
    ((MakeGeometry gen Real.sqrt s).faces j).p k =
      scaled s.deltaheight (Normalise Real.sqrt ((s.faces j).p k))
        (((MakeGeometry gen Real.sqrt s).faces j).c k) := by
  rcases hs with hs | hs
  · rw [(MakeGeometry_realdirty gen Real.sqrt s hs j k hj).2.1, Normalise_idem]
  · exact (MakeGeometry_addone gen Real.sqrt s hs j k hj).2.1

theorem passCount_cases (whichmethod : Int) (pl : XYZ R × R) (q : XYZ R) (c : Int) :
    passCount whichmethod pl q c = c + 1 ∨ passCount whichmethod pl q c = c - 1 := by
  unfold passCount
  split_ifs
  · exact Or.inl rfl
  · exact Or.inr rfl

theorem MakeGeometry_nface (gen : Rand48 R G) (sqrt : R → R) (s : Planet R G) :
    (MakeGeometry gen sqrt s).nface = s.nface := rfl

theorem MakeGeometry_other (gen : Rand48 R G) (sqrt : R → R) (s : Planet R G)
    (h1 : s.geometrydirty ≠ REALDIRTY) (h2 : s.geometrydirty ≠ ADDONE) :
    (MakeGeometry gen sqrt s).faces = s.faces ∧ (MakeGeometry gen sqrt s).rng = s.rng := by
  have e : afterSurface gen sqrt s = (s.faces, s.rng) := by
    simp [afterSurface, afterZero, h1, h2]
  constructor
  · show (afterSurface gen sqrt s).1 = _
    rw [e]
  · show (afterSurface gen sqrt s).2 = _
    rw [e]

theorem SameCorner_realdirty (gen : Rand48 R G) (sqrt : R → R) (s : Planet R G)
    (hs : s.geometrydirty = REALDIRTY) (j1 : Nat) (k1 : Fin 3) (j2 : Nat) (k2 : Fin 3)
    (hj1 : j1 < s.nface) (hj2 : j2 < s.nface)
    (hp : (s.faces j1).p k1 = (s.faces j2).p k2) :
    SameCorner (MakeGeometry gen sqrt s) j1 k1 j2 k2 := by
  have a := MakeGeometry_realdirty gen sqrt s hs j1 k1 hj1
  have b := MakeGeometry_realdirty gen sqrt s hs j2 k2 hj2
  have hc : ((MakeGeometry gen sqrt s).faces j1).c k1 =
      ((MakeGeometry gen sqrt s).faces j2).c k2 := by
    rw [a.1, b.1, hp]
  exact ⟨by rw [a.2.1, b.2.1, hc, hp], hc⟩

theorem SameCorner_addone (gen : Rand48 R G) (sqrt : R → R) (s : Planet R G)
    (hs : s.geometrydirty = ADDONE) (j1 : Nat) (k1 : Fin 3) (j2 : Nat) (k2 : Fin 3)
    (hj1 : j1 < s.nface) (hj2 : j2 < s.nface) (h : SameCorner s j1 k1 j2 k2) :
    SameCorner (MakeGeometry gen sqrt s) j1 k1 j2 k2 := by
  have a := MakeGeometry_addone gen sqrt s hs j1 k1 hj1
  have b := MakeGeometry_addone gen sqrt s hs j2 k2 hj2
  have hc : ((MakeGeometry gen sqrt s).faces j1).c k1 =
      ((MakeGeometry gen sqrt s).faces j2).c k2 := by
    rw [a.1, b.1, h.1, h.2]
  exact ⟨by rw [a.2.1, b.2.1, hc, h.1], hc⟩

theorem SameCorner_step (gen : Rand48 R G) (sqrt : R → R) (s : Planet R G)
    (j1 : Nat) (k1 : Fin 3) (j2 : Nat) (k2 : Fin 3)
    (hj1 : j1 < s.nface) (hj2 : j2 < s.nface) (h : SameCorner s j1 k1 j2 k2) :
    SameCorner (MakeGeometry gen sqrt s) j1 k1 j2 k2 := by
  by_cases h1 : s.geometrydirty = REALDIRTY
  · exact SameCorner_realdirty gen sqrt s h1 j1 k1 j2 k2 hj1 hj2 h.1
  · by_cases h2 : s.geometrydirty = ADDONE
    · exact SameCorner_addone gen sqrt s h2 j1 k1 j2 k2 hj1 hj2 h
    · unfold SameCorner
      rw [(MakeGeometry_other gen sqrt s h1 h2).1]
      exact h

theorem SameCorner_run (gen : Rand48 R G) (sqrt : R → R) (rs : List (Request R))
    (t : Planet R G) (j1 : Nat) (k1 : Fin 3) (j2 : Nat) (k2 : Fin 3)
    (hj1 : j1 < t.nface) (hj2 : j2 < t.nface) (h : SameCorner t j1 k1 j2 k2) :
    SameCorner (rs.foldl (redisplay gen sqrt) t) j1 k1 j2 k2 := by
  induction rs generalizing t with
  | nil => exact h
  | cons r rest ih =>
    rw [List.foldl_cons]
    exact ih (redisplay gen sqrt t r) hj1 hj2
      (SameCorner_step gen sqrt _ j1 k1 j2 k2 hj1 hj2 h)

/-- C6: if two corner slots of the mesh hold equal positions and equal counts
before `MakeGeometry` runs in the `REALDIRTY` or `ADDONE` state, they hold equal
counts and equal positions after it; in the `REALDIRTY` state equal positions
are enough.  So two slots with equal positions after tessellation still
agree after a full rebuild followed by any further calls of `MakeGeometry`,
incremental steps included, whatever the handlers put in the globals. -/
theorem MakeGeometry_crack_free (gen : Rand48 R G) (sqrt : R → R) (s : Planet R G)
    (j1 : Nat) (k1 : Fin 3) (j2 : Nat) (k2 : Fin 3)
    (hj1 : j1 < s.nface) (hj2 : j2 < s.nface)
    (hp : (s.faces j1).p k1 = (s.faces j2).p k2) :
    (s.geometrydirty = REALDIRTY →
      ((MakeGeometry gen sqrt s).faces j1).c k1 = ((MakeGeometry gen sqrt s).faces j2).c k2 ∧
      ((MakeGeometry gen sqrt s).faces j1).p k1 = ((MakeGeometry gen sqrt s).faces j2).p k2) ∧
    (s.geometrydirty = ADDONE → (s.faces j1).c k1 = (s.faces j2).c k2 →
      ((MakeGeometry gen sqrt s).faces j1).c k1 = ((MakeGeometry gen sqrt s).faces j2).c k2 ∧
      ((MakeGeometry gen sqrt s).faces j1).p k1 = ((MakeGeometry gen sqrt s).faces j2).p k2) ∧
    (s.geometrydirty = REALDIRTY → ∀ rs : List (Request R),
      ((rs.foldl (redisplay gen sqrt) (MakeGeometry gen sqrt s)).faces j1).c k1 =
        ((rs.foldl (redisplay gen sqrt) (MakeGeometry gen sqrt s)).faces j2).c k2 ∧
      ((rs.foldl (redisplay gen sqrt) (MakeGeometry gen sqrt s)).faces j1).p k1 =
        ((rs.foldl (redisplay gen sqrt) (MakeGeometry gen sqrt s)).faces j2).p k2) := by
  refine ⟨fun hs => ?_, fun hs hc => ?_, fun hs rs => ?_⟩
  · have h := SameCorner_realdirty gen sqrt s hs j1 k1 j2 k2 hj1 hj2 hp
    exact ⟨h.2, h.1⟩
  · have h := SameCorner_addone gen sqrt s hs j1 k1 j2 k2 hj1 hj2 ⟨hp, hc⟩
    exact ⟨h.2, h.1⟩
  · have h := SameCorner_run gen sqrt rs (MakeGeometry gen sqrt s) j1 k1 j2 k2 hj1 hj2
      (SameCorner_realdirty gen sqrt s hs j1 k1 j2 k2 hj1 hj2 hp)
    exact ⟨h.2, h.1⟩

/-- Witness for C6: corner 0 of face 0 and corner 0 of face 1 of the depth 0
mesh are both the vertex `p[0]` of the octahedron. -/
theorem MakeGeometry_crack_free_witness :
    (((freshPlanet Real.sqrt 0 : Planet ℝ Unit).faces 0).p 0 =
      ((freshPlanet Real.sqrt 0 : Planet ℝ Unit).faces 1).p 0) ∧
    (((MakeGeometry (constGen (0 : ℝ)) Real.sqrt
        { freshPlanet Real.sqrt 0 with iterationdepth := 3 }).faces 0).c 0 =
      ((MakeGeometry (constGen (0 : ℝ)) Real.sqrt
        { freshPlanet Real.sqrt 0 with iterationdepth := 3 }).faces 1).c 0 ∧
     ((MakeGeometry (constGen (0 : ℝ)) Real.sqrt
        { freshPlanet Real.sqrt 0 with iterationdepth := 3 }).faces 0).p 0 =
      ((MakeGeometry (constGen (0 : ℝ)) Real.sqrt
        { freshPlanet Real.sqrt 0 with iterationdepth := 3 }).faces 1).p 0) :=
  have hp : ((freshPlanet Real.sqrt 0 : Planet ℝ Unit).faces 0).p 0 =
      ((freshPlanet Real.sqrt 0 : Planet ℝ Unit).faces 1).p 0 := by
    simp [freshPlanet, MakeNSphere, levelZero, setFace_p, tri]
  ⟨hp, (MakeGeometry_crack_free (constGen (0 : ℝ)) Real.sqrt
    { freshPlanet Real.sqrt 0 with iterationdepth := 3 } 0 0 1 0 (by decide) (by decide)
    hp).1 rfl⟩

/-! ### The radius range -/

theorem rangeLoop_congr (sqrt : R → R) (n : Nat) (f g : Nat → TF R)
    (h : ∀ j, j < n → ∀ k, (f j).p k = (g j).p k) :
    rangeLoop sqrt n f = rangeLoop sqrt n g := by
  unfold rangeLoop
  apply List.foldl_ext
  intro a b hb
  have hb' : b < n := List.mem_range.mp hb
  simp only [corners, List.foldl_cons, List.foldl_nil, h b hb']

theorem findRange_congr (sqrt : R → R) (deltaheight : R) (n : Nat) (f g : Nat → TF R)
    (h : ∀ j, j < n → ∀ k, (f j).p k = (g j).p k) :
    findRange sqrt deltaheight n f = findRange sqrt deltaheight n g := by
  unfold findRange
  rw [rangeLoop_congr sqrt n f g h]

theorem MIN_eq_min (x y : R) : MIN x y = min x y := by
  unfold MIN
  by_cases h : x < y
  · rw [if_pos h, min_eq_left h.le]
  · rw [if_neg h, min_eq_right (not_lt.mp h)]

theorem MAX_eq_max (x y : R) : MAX x y = max x y := by
  unfold MAX
  by_cases h : x > y
  · rw [if_pos h, max_eq_left h.le]
  · rw [if_neg h, max_eq_right (not_lt.mp h)]

theorem rangeLoop_succ (sqrt : R → R) (n : Nat) (faces : Nat → TF R) :
    rangeLoop sqrt (n + 1) faces =
      (min (min (min (rangeLoop sqrt n faces).1 (Modulus sqrt ((faces n).p 0)))
          (Modulus sqrt ((faces n).p 1))) (Modulus sqrt ((faces n).p 2)),
       max (max (max (rangeLoop sqrt n faces).2 (Modulus sqrt ((faces n).p 0)))
          (Modulus sqrt ((faces n).p 1))) (Modulus sqrt ((faces n).p 2))) := by
  unfold rangeLoop
  rw [List.range_succ, List.foldl_append]
  simp only [List.foldl_cons, List.foldl_nil, corners, MIN_eq_min, MAX_eq_max]

/-- What the loop of "Find the range" computes: the least and the greatest of
1 and the corner radii. -/
theorem rangeLoop_spec (sqrt : R → R) (n : Nat) (faces : Nat → TF R) :
    (rangeLoop sqrt n faces).1 ≤ 1 ∧ 1 ≤ (rangeLoop sqrt n faces).2 ∧
    (∀ j, j < n → ∀ k, (rangeLoop sqrt n faces).1 ≤ Modulus sqrt ((faces j).p k) ∧
      Modulus sqrt ((faces j).p k) ≤ (rangeLoop sqrt n faces).2) ∧
    ((rangeLoop sqrt n faces).1 = 1 ∨
      ∃ j, j < n ∧ ∃ k, (rangeLoop sqrt n faces).1 = Modulus sqrt ((faces j).p k)) ∧
    ((rangeLoop sqrt n faces).2 = 1 ∨
      ∃ j, j < n ∧ ∃ k, (rangeLoop sqrt n faces).2 = Modulus sqrt ((faces j).p k)) := by
  induction n with
  | zero =>
    refine ⟨le_rfl, le_rfl, fun j hj => absurd hj (Nat.not_lt_zero j), Or.inl rfl, Or.inl rfl⟩
  | succ n ih =>
    obtain ⟨h1, h2, h3, h4, h5⟩ := ih
    rw [rangeLoop_succ]
    generalize rangeLoop sqrt n faces = r at h1 h2 h3 h4 h5
    generalize ha0 : Modulus sqrt ((faces n).p 0) = a0
    generalize ha1 : Modulus sqrt ((faces n).p 1) = a1
    generalize ha2 : Modulus sqrt ((faces n).p 2) = a2
    have hlo : min (min (min r.1 a0) a1) a2 ≤ r.1 :=
      le_trans (min_le_left _ _) (le_trans (min_le_left _ _) (min_le_left _ _))
    have hhi : r.2 ≤ max (max (max r.2 a0) a1) a2 :=
      le_trans (le_trans (le_max_left _ _) (le_max_left _ _)) (le_max_left _ _)
    have hfin : ∀ k : Fin 3, min (min (min r.1 a0) a1) a2 ≤ Modulus sqrt ((faces n).p k) ∧
        Modulus sqrt ((faces n).p k) ≤ max (max (max r.2 a0) a1) a2 := by
      intro k
      fin_cases k
      · simp only [Fin.zero_eta, ha0]
        exact ⟨le_trans (min_le_left _ _) (le_trans (min_le_left _ _) (min_le_right _ _)),
          le_trans (le_trans (le_max_right _ _) (le_max_left _ _)) (le_max_left _ _)⟩
      · simp only [Fin.mk_one, ha1]
        exact ⟨le_trans (min_le_left _ _) (min_le_right _ _),
          le_trans (le_max_right _ _) (le_max_left _ _)⟩
      · show _ ≤ Modulus sqrt ((faces n).p 2) ∧ Modulus sqrt ((faces n).p 2) ≤ _
        rw [ha2]
        exact ⟨min_le_right _ _, le_max_right _ _⟩
    refine ⟨le_trans hlo h1, le_trans h2 hhi, ?_, ?_, ?_⟩
    · intro j hj k
      by_cases e : j = n
      · subst e; exact hfin k
      · have := h3 j (by omega) k
        exact ⟨le_trans hlo this.1, le_trans this.2 hhi⟩
    · have hch : min (min (min r.1 a0) a1) a2 = r.1 ∨ min (min (min r.1 a0) a1) a2 = a0 ∨
          min (min (min r.1 a0) a1) a2 = a1 ∨ min (min (min r.1 a0) a1) a2 = a2 := by
        rcases min_choice (min (min r.1 a0) a1) a2 with h | h
        · rcases min_choice (min r.1 a0) a1 with h' | h'
          · rcases min_choice r.1 a0 with h'' | h''
            · left; rw [h, h', h'']
            · right; left; rw [h, h', h'']
          · right; right; left; rw [h, h']
        · right; right; right; exact h
      rcases hch with h | h | h | h
      · rw [h]
        rcases h4 with h4 | ⟨j, hj, k, hk⟩
        · exact Or.inl h4
        · exact Or.inr ⟨j, by omega, k, hk⟩
      · exact Or.inr ⟨n, by omega, 0, by rw [h, ha0]⟩
      · exact Or.inr ⟨n, by omega, 1, by rw [h, ha1]⟩
      · exact Or.inr ⟨n, by omega, 2, by rw [h, ha2]⟩
    · have hch : max (max (max r.2 a0) a1) a2 = r.2 ∨ max (max (max r.2 a0) a1) a2 = a0 ∨
          max (max (max r.2 a0) a1) a2 = a1 ∨ max (max (max r.2 a0) a1) a2 = a2 := by
        rcases max_choice (max (max r.2 a0) a1) a2 with h | h
        · rcases max_choice (max r.2 a0) a1 with h' | h'
          · rcases max_choice r.2 a0 with h'' | h''
            · left; rw [h, h', h'']
            · right; left; rw [h, h', h'']
          · right; right; left; rw [h, h']
        · right; right; right; exact h
      rcases hch with h | h | h | h
      · rw [h]
        rcases h5 with h5 | ⟨j, hj, k, hk⟩
        · exact Or.inl h5
        · exact Or.inr ⟨j, by omega, k, hk⟩
      · exact Or.inr ⟨n, by omega, 0, by rw [h, ha0]⟩
      · exact Or.inr ⟨n, by omega, 1, by rw [h, ha1]⟩
      · exact Or.inr ⟨n, by omega, 2, by rw [h, ha2]⟩

theorem MakeGeometry_range (gen : Rand48 R G) (sqrt : R → R) (s : Planet R G) :
    (MakeGeometry gen sqrt s).radiusmax =
      (findRange sqrt s.deltaheight s.nface (MakeGeometry gen sqrt s).faces).2 ∧
    (MakeGeometry gen sqrt s).radiusmin =
      (if s.showocean then
        (findRange sqrt s.deltaheight s.nface (MakeGeometry gen sqrt s).faces).1
          + ((findRange sqrt s.deltaheight s.nface (MakeGeometry gen sqrt s).faces).2
            - (findRange sqrt s.deltaheight s.nface (MakeGeometry gen sqrt s).faces).1) / 2
       else (findRange sqrt s.deltaheight s.nface (MakeGeometry gen sqrt s).faces).1) := by
  refine ⟨rfl, ?_⟩
  show (if s.showocean then seaLevel s.showocean _ else _) = _
  by_cases h : s.showocean
  · simp [seaLevel, h]; rfl
  · simp [h]; rfl

theorem realdirty_same_faces (gen : Rand48 R G) (sqrt : R → R) (s1 s2 : Planet R G)
    (h1 : s1.geometrydirty = REALDIRTY) (h2 : s2.geometrydirty = REALDIRTY)
    (hseed : s1.seedvalue = s2.seedvalue) (hiter : s1.iterationdepth = s2.iterationdepth)
    (hdelta : s1.deltaheight = s2.deltaheight) (hwm : s1.whichmethod = s2.whichmethod)
    (hn : s1.nface = s2.nface)
    (j : Nat) (hj : j < s1.nface) (k : Fin 3)
    (hp : Normalise sqrt ((s1.faces j).p k) = Normalise sqrt ((s2.faces j).p k)) :
    ((MakeGeometry gen sqrt s1).faces j).c k = ((MakeGeometry gen sqrt s2).faces j).c k ∧
    ((MakeGeometry gen sqrt s1).faces j).p k = ((MakeGeometry gen sqrt s2).faces j).p k := by
  have a := MakeGeometry_realdirty gen sqrt s1 h1 j k hj
  have b := MakeGeometry_realdirty gen sqrt s2 h2 j k (hn ▸ hj)
  have hc : ((MakeGeometry gen sqrt s1).faces j).c k =
      ((MakeGeometry gen sqrt s2).faces j).c k := by
    rw [a.1, b.1, hp, hseed, hiter, hwm]
  exact ⟨hc, by rw [a.2.1, b.2.1, hc, hp, hdelta]⟩

theorem realdirty_same_range (gen : Rand48 R G) (sqrt : R → R) (s1 s2 : Planet R G)
    (h1 : s1.geometrydirty = REALDIRTY) (h2 : s2.geometrydirty = REALDIRTY)
    (hseed : s1.seedvalue = s2.seedvalue) (hiter : s1.iterationdepth = s2.iterationdepth)
    (hdelta : s1.deltaheight = s2.deltaheight) (hwm : s1.whichmethod = s2.whichmethod)
    (hn : s1.nface = s2.nface)
    (hp : ∀ j, j < s1.nface → ∀ k,
      Normalise sqrt ((s1.faces j).p k) = Normalise sqrt ((s2.faces j).p k)) :
    findRange sqrt s1.deltaheight s1.nface (MakeGeometry gen sqrt s1).faces =
      findRange sqrt s2.deltaheight s2.nface (MakeGeometry gen sqrt s2).faces := by
  rw [← hn, ← hdelta]
  exact findRange_congr sqrt _ _ _ _ (fun j hj k =>
    (realdirty_same_faces gen sqrt s1 s2 h1 h2 hseed hiter hdelta hwm hn j hj k (hp j hj k)).2)

/-- C7 (as amended): two runs of `MakeGeometry` in the `REALDIRTY` state with the
same `seedvalue`, `iterationdepth`, `deltaheight`, `whichmethod` and `showocean`
on two meshes with the same corner positions give the same counts, positions,
`radiusmin`, `radiusmax` and generator state, whatever the counts and the
generator state were before.  Without the condition on `showocean` everything
but `radiusmin` is still the same. -/
theorem MakeGeometry_deterministic (gen : Rand48 R G) (sqrt : R → R) (s1 s2 : Planet R G)
    (h1 : s1.geometrydirty = REALDIRTY) (h2 : s2.geometrydirty = REALDIRTY)
    (hseed : s1.seedvalue = s2.seedvalue) (hiter : s1.iterationdepth = s2.iterationdepth)
    (hdelta : s1.deltaheight = s2.deltaheight) (hwm : s1.whichmethod = s2.whichmethod)
    (hn : s1.nface = s2.nface)
    (hp : ∀ j, j < s1.nface → ∀ k, (s1.faces j).p k = (s2.faces j).p k) :
    (∀ j, j < s1.nface → ∀ k,
      ((MakeGeometry gen sqrt s1).faces j).c k = ((MakeGeometry gen sqrt s2).faces j).c k ∧
      ((MakeGeometry gen sqrt s1).faces j).p k = ((MakeGeometry gen sqrt s2).faces j).p k) ∧
    (MakeGeometry gen sqrt s1).radiusmax = (MakeGeometry gen sqrt s2).radiusmax ∧
    (MakeGeometry gen sqrt s1).rng = (MakeGeometry gen sqrt s2).rng ∧
    (s1.showocean = s2.showocean →
      (MakeGeometry gen sqrt s1).radiusmin = (MakeGeometry gen sqrt s2).radiusmin) := by
  have hp' : ∀ j, j < s1.nface → ∀ k,
      Normalise sqrt ((s1.faces j).p k) = Normalise sqrt ((s2.faces j).p k) :=
    fun j hj k => by rw [hp j hj k]
  have hr := realdirty_same_range gen sqrt s1 s2 h1 h2 hseed hiter hdelta hwm hn hp'
  refine ⟨fun j hj k =>
    realdirty_same_faces gen sqrt s1 s2 h1 h2 hseed hiter hdelta hwm hn j hj k (hp' j hj k),
    ?_, ?_, ?_⟩
  · rw [(MakeGeometry_range gen sqrt s1).1, (MakeGeometry_range gen sqrt s2).1, hr]
  · by_cases hz : 0 < s1.nface
    · rw [(MakeGeometry_realdirty gen sqrt s1 h1 0 0 hz).2.2,
        (MakeGeometry_realdirty gen sqrt s2 h2 0 0 (hn ▸ hz)).2.2, hseed, hiter]
    · have e1 : (MakeGeometry gen sqrt s1).rng =
          (formSurface gen sqrt s1.whichmethod s1.nface s1.iterationdepth
            (zeroPlanet sqrt s1.nface s1.faces, gen.srand48 s1.seedvalue)).2 := by
        show (afterSurface gen sqrt s1).2 = _
        simp [afterSurface, afterZero, h1]
      have e2 : (MakeGeometry gen sqrt s2).rng =
          (formSurface gen sqrt s2.whichmethod s2.nface s2.iterationdepth
            (zeroPlanet sqrt s2.nface s2.faces, gen.srand48 s2.seedvalue)).2 := by
        show (afterSurface gen sqrt s2).2 = _
        simp [afterSurface, afterZero, h2]
      rw [e1, e2, (formSurface_spec gen sqrt _ _ _ _ _ 0 0).2.2,
        (formSurface_spec gen sqrt _ _ _ _ _ 0 0).2.2, hseed, hiter]
  · intro ho
    rw [(MakeGeometry_range gen sqrt s1).2, (MakeGeometry_range gen sqrt s2).2, hr, ho]

theorem findRange_gap (sqrt : R → R) (deltaheight : R) (n : Nat) (faces : Nat → TF R) :
    2 * deltaheight ≤
      (findRange sqrt deltaheight n faces).2 - (findRange sqrt deltaheight n faces).1 := by
  obtain ⟨h1, h2, -⟩ := rangeLoop_spec sqrt n faces
  simp only [findRange]
  linarith

/-- C7, counterexample: the depth 0 mesh rebuilt twice with the same seed,
iteration depth, height step and plane mode, once with the ocean off and once
with it on, ends with two different values of `radiusmin`. -/
theorem MakeGeometry_deterministic_counterexample :
    (freshPlanet Real.sqrt 0 : Planet ℝ Unit).geometrydirty = REALDIRTY ∧
    ({ freshPlanet Real.sqrt 0 with showocean := true } : Planet ℝ Unit).geometrydirty
      = REALDIRTY ∧
    ({ freshPlanet Real.sqrt 0 with showocean := true } : Planet ℝ Unit).faces
      = (freshPlanet Real.sqrt 0 : Planet ℝ Unit).faces ∧
    (MakeGeometry (constGen (0 : ℝ)) Real.sqrt (freshPlanet Real.sqrt 0)).radiusmin ≠
      (MakeGeometry (constGen (0 : ℝ)) Real.sqrt
        { freshPlanet Real.sqrt 0 with showocean := true }).radiusmin := by
  refine ⟨rfl, rfl, rfl, ?_⟩
  have hr := realdirty_same_range (constGen (0 : ℝ)) Real.sqrt (freshPlanet Real.sqrt 0)
    { freshPlanet Real.sqrt 0 with showocean := true } rfl rfl rfl rfl rfl rfl rfl
    (fun _ _ _ => rfl)
  have a := (MakeGeometry_range (constGen (0 : ℝ)) Real.sqrt (freshPlanet Real.sqrt 0)).2
  have b := (MakeGeometry_range (constGen (0 : ℝ)) Real.sqrt
    { freshPlanet Real.sqrt 0 with showocean := true }).2
  have ha : (freshPlanet Real.sqrt 0 : Planet ℝ Unit).showocean = false := rfl
  have hb : ({ freshPlanet Real.sqrt 0 with showocean := true } : Planet ℝ Unit).showocean
      = true := rfl
  rw [ha] at a
  rw [hb] at b
  simp only [if_true, Bool.false_eq_true, if_false] at a b
  rw [a, b, ← hr]
  have g := findRange_gap Real.sqrt (freshPlanet Real.sqrt 0 : Planet ℝ Unit).deltaheight
    (freshPlanet Real.sqrt 0 : Planet ℝ Unit).nface
    (MakeGeometry (constGen (0 : ℝ)) Real.sqrt (freshPlanet Real.sqrt 0)).faces
  have hd : (freshPlanet Real.sqrt 0 : Planet ℝ Unit).deltaheight = 1 / 100000 := rfl
  rw [hd] at g ⊢
  intro h
  linarith

/-- Witness for C7: the depth 0 mesh against the same mesh with other counts. -/
theorem MakeGeometry_deterministic_witness :
    (∀ j, j < (freshPlanet Real.sqrt 0 : Planet ℝ Unit).nface → ∀ k,
      ((freshPlanet Real.sqrt 0 : Planet ℝ Unit).faces j).p k =
        (({ freshPlanet Real.sqrt 0 with
            faces := fun j => ⟨((freshPlanet Real.sqrt 0 : Planet ℝ Unit).faces j).p,
              fun _ => 7⟩ } : Planet ℝ Unit).faces j).p k) ∧
    (MakeGeometry (constGen (0 : ℝ)) Real.sqrt (freshPlanet Real.sqrt 0)).radiusmax =
      (MakeGeometry (constGen (0 : ℝ)) Real.sqrt
        { freshPlanet Real.sqrt 0 with
          faces := fun j => ⟨((freshPlanet Real.sqrt 0 : Planet ℝ Unit).faces j).p,
            fun _ => 7⟩ }).radiusmax :=
  ⟨fun _ _ _ => rfl,
   (MakeGeometry_deterministic (constGen (0 : ℝ)) Real.sqrt (freshPlanet Real.sqrt 0)
    { freshPlanet Real.sqrt 0 with
      faces := fun j => ⟨((freshPlanet Real.sqrt 0 : Planet ℝ Unit).faces j).p, fun _ => 7⟩ }
    rfl rfl rfl rfl rfl rfl rfl (fun _ _ _ => rfl)).2.1⟩

/-- C9: in the `ADDONE` state `MakeGeometry` draws exactly one plane, four
calls of `drand48` continuing from the generator state it finds (no `srand48`),
changes the count of every corner by exactly `+1` or `-1`, by `+1` exactly when
`n . p > 0` for the corner's current position (shifted by `- offset * n` when
`whichmethod != 1`), and the faces it leaves do not depend on `iterationdepth`. -/
theorem MakeGeometry_addone_step (gen : Rand48 R G) (sqrt : R → R) (s : Planet R G)
    (hs : s.geometrydirty = ADDONE) (j : Nat) (k : Fin 3) (hj : j < s.nface) :
    (MakeGeometry gen sqrt s).rng =
      (gen.drand48 (gen.drand48 (gen.drand48 (gen.drand48 s.rng).2).2).2).2 ∧
    (chooseNormal gen sqrt s.rng).1 =
      (Normalise sqrt ⟨(gen.drand48 s.rng).1 - 1 / 2,
          (gen.drand48 (gen.drand48 s.rng).2).1 - 1 / 2,
          (gen.drand48 (gen.drand48 (gen.drand48 s.rng).2).2).1 - 1 / 2⟩,
        (gen.drand48 (gen.drand48 (gen.drand48 (gen.drand48 s.rng).2).2).2).1 - 1 / 2) ∧
    (((MakeGeometry gen sqrt s).faces j).c k = (s.faces j).c k + 1 ∨
      ((MakeGeometry gen sqrt s).faces j).c k = (s.faces j).c k - 1) ∧
    (((MakeGeometry gen sqrt s).faces j).c k = (s.faces j).c k + 1 ↔
      DotProduct (chooseNormal gen sqrt s.rng).1.1
        (testPoint s.whichmethod (chooseNormal gen sqrt s.rng).1 ((s.faces j).p k)) > 0) ∧
    (s.whichmethod = 1 →
      testPoint s.whichmethod (chooseNormal gen sqrt s.rng).1 ((s.faces j).p k)
        = (s.faces j).p k) ∧
    (s.whichmethod ≠ 1 →
      testPoint s.whichmethod (chooseNormal gen sqrt s.rng).1 ((s.faces j).p k) =
        ⟨((s.faces j).p k).x
            - (chooseNormal gen sqrt s.rng).1.2 * (chooseNormal gen sqrt s.rng).1.1.x,
          ((s.faces j).p k).y
            - (chooseNormal gen sqrt s.rng).1.2 * (chooseNormal gen sqrt s.rng).1.1.y,
          ((s.faces j).p k).z
            - (chooseNormal gen sqrt s.rng).1.2 * (chooseNormal gen sqrt s.rng).1.1.z⟩) ∧
    (∀ d : Int, (MakeGeometry gen sqrt { s with iterationdepth := d }).faces =
      (MakeGeometry gen sqrt s).faces) := by
  have h := MakeGeometry_addone gen sqrt s hs j k hj
  refine ⟨h.2.2, rfl, ?_, ?_, ?_, ?_, ?_⟩
  · rw [h.1]; exact passCount_cases _ _ _ _
  · rw [h.1]; unfold passCount
    by_cases hd : DotProduct (chooseNormal gen sqrt s.rng).1.1
        (testPoint s.whichmethod (chooseNormal gen sqrt s.rng).1 ((s.faces j).p k)) > 0
    · simp [hd]
    · simp only [hd, if_false, iff_false]; omega
  · intro hw; unfold testPoint; rw [if_pos hw]
  · intro hw; unfold testPoint; rw [if_neg hw]
  · intro d
    have hne : ¬ (ADDONE = REALDIRTY) := by decide
    show (afterSurface gen sqrt { s with iterationdepth := d }).1 = (afterSurface gen sqrt s).1
    simp [afterSurface, afterZero, hs, hne]

/-- Witness for C9: one incremental step on the depth 0 mesh. -/
theorem MakeGeometry_addone_step_witness :
    ({ freshPlanet Real.sqrt 0 with geometrydirty := ADDONE } : Planet ℝ Unit).geometrydirty
      = ADDONE ∧
    (((MakeGeometry (constGen (0 : ℝ)) Real.sqrt
        { freshPlanet Real.sqrt 0 with geometrydirty := ADDONE }).faces 0).c 0 =
        (({ freshPlanet Real.sqrt 0 with geometrydirty := ADDONE } :
          Planet ℝ Unit).faces 0).c 0 + 1 ∨
      ((MakeGeometry (constGen (0 : ℝ)) Real.sqrt
        { freshPlanet Real.sqrt 0 with geometrydirty := ADDONE }).faces 0).c 0 =
        (({ freshPlanet Real.sqrt 0 with geometrydirty := ADDONE } :
          Planet ℝ Unit).faces 0).c 0 - 1) :=
  ⟨rfl, (MakeGeometry_addone_step (constGen (0 : ℝ)) Real.sqrt
    { freshPlanet Real.sqrt 0 with geometrydirty := ADDONE } rfl 0 0 (by decide)).2.2.1⟩

/-- C10 (as amended): with the ocean off, after the range computation of
`MakeGeometry` on a non-empty mesh with least corner radius `m` and greatest
corner radius `M`, `radiusmin` is `min(1, m) - deltaheight` and `radiusmax` is
`max(1, M) + deltaheight`: both start from 1, so the range always contains the
radius 1 of the undisplaced sphere. -/
theorem MakeGeometry_range_minmax (gen : Rand48 R G) (sqrt : R → R) (s : Planet R G)
    (ho : s.showocean = false) (m M : R)
    (hm : IsMinRadius sqrt s.nface (MakeGeometry gen sqrt s).faces m)
    (hM : IsMaxRadius sqrt s.nface (MakeGeometry gen sqrt s).faces M) :
    (MakeGeometry gen sqrt s).radiusmin = min 1 m - s.deltaheight ∧
    (MakeGeometry gen sqrt s).radiusmax = max 1 M + s.deltaheight := by
  obtain ⟨h1, h2, h3, h4, h5⟩ := rangeLoop_spec sqrt s.nface (MakeGeometry gen sqrt s).faces
  obtain ⟨⟨jm, hjm, km, hkm⟩, hmle⟩ := hm
  obtain ⟨⟨jM, hjM, kM, hkM⟩, hMge⟩ := hM
  have hr := MakeGeometry_range gen sqrt s
  rw [ho] at hr
  simp only [Bool.false_eq_true, if_false, findRange] at hr
  rw [hr.1, hr.2]
  constructor
  · have e : (rangeLoop sqrt s.nface (MakeGeometry gen sqrt s).faces).1 = min 1 m := by
      apply le_antisymm
      · exact le_min h1 (hkm ▸ (h3 jm hjm km).1)
      · rcases h4 with h | ⟨j, hj, k, hk⟩
        · rw [h]; exact min_le_left _ _
        · rw [hk]; exact le_trans (min_le_right _ _) (hmle j hj k)
    rw [e]
  · have e : (rangeLoop sqrt s.nface (MakeGeometry gen sqrt s).faces).2 = max 1 M := by
      apply le_antisymm
      · rcases h5 with h | ⟨j, hj, k, hk⟩
        · rw [h]; exact le_max_left _ _
        · rw [hk]; exact le_trans (hMge j hj k) (le_max_right _ _)
      · exact max_le h2 (hkM ▸ (h3 jM hjM kM).2)
    rw [e]

/-! ### A rebuild in which every corner is lowered -/

theorem chooseNormal_half (g : Unit) :
    (chooseNormal (constGen (1 / 2 : ℝ)) Real.sqrt g).1 = (⟨0, 0, 0⟩, 0) := by
  simp [chooseNormal, constGen, Normalise]

theorem DotProduct_zero_left (q : XYZ ℝ) : DotProduct ⟨0, 0, 0⟩ q = 0 := by
  simp [DotProduct]

theorem lowered_count (j : Nat)
    (hj : j < ({ freshPlanet Real.sqrt 0 with iterationdepth := 1 } : Planet ℝ Unit).nface)
    (k : Fin 3) :
    ((MakeGeometry (constGen (1 / 2 : ℝ)) Real.sqrt
      { freshPlanet Real.sqrt 0 with iterationdepth := 1 }).faces j).c k = -1 := by
  rw [(MakeGeometry_realdirty (constGen (1 / 2 : ℝ)) Real.sqrt _ rfl j k hj).1]
  have h1 : ({ freshPlanet Real.sqrt 0 with iterationdepth := 1 } :
      Planet ℝ Unit).iterationdepth.toNat = 1 := rfl
  rw [h1]
  simp only [planesOf, passesCount, List.foldl_cons, List.foldl_nil, passCount,
    chooseNormal_half, DotProduct_zero_left]
  simp

theorem lowered_radius (j : Nat)
    (hj : j < ({ freshPlanet Real.sqrt 0 with iterationdepth := 1 } : Planet ℝ Unit).nface)
    (k : Fin 3) :
    Modulus Real.sqrt (((MakeGeometry (constGen (1 / 2 : ℝ)) Real.sqrt
      { freshPlanet Real.sqrt 0 with iterationdepth := 1 }).faces j).p k) = 1 - 1 / 100000 := by
  have hj' : j < 8 * 4 ^ (0 : Int).toNat := hj
  have hgood : normSq ((({ freshPlanet Real.sqrt 0 with iterationdepth := 1 } :
      Planet ℝ Unit).faces j).p k) = 1 := by
    have := (rounds_good zeroBuffer (0 : Int).toNat j hj').1 k
    rw [← MakeNSphere_eq_rounds] at this
    exact this
  rw [position_after_call _ _ (Or.inl rfl) j k hj, lowered_count j hj k,
    Modulus_scaled _ _ _ (by rw [Normalise_unit _ hgood]; exact hgood)]
  have hd : ({ freshPlanet Real.sqrt 0 with iterationdepth := 1 } : Planet ℝ Unit).deltaheight
      = 1 / 100000 := rfl
  rw [hd]
  norm_num [abs_of_pos]

theorem lowered_max :
    IsMaxRadius Real.sqrt
      ({ freshPlanet Real.sqrt 0 with iterationdepth := 1 } : Planet ℝ Unit).nface
      (MakeGeometry (constGen (1 / 2 : ℝ)) Real.sqrt
        { freshPlanet Real.sqrt 0 with iterationdepth := 1 }).faces (1 - 1 / 100000) :=
  ⟨⟨0, by decide, 0, lowered_radius 0 (by decide) 0⟩,
    fun j hj k => le_of_eq (lowered_radius j hj k)⟩

theorem lowered_min :
    IsMinRadius Real.sqrt
      ({ freshPlanet Real.sqrt 0 with iterationdepth := 1 } : Planet ℝ Unit).nface
      (MakeGeometry (constGen (1 / 2 : ℝ)) Real.sqrt
        { freshPlanet Real.sqrt 0 with iterationdepth := 1 }).faces (1 - 1 / 100000) :=
  ⟨⟨0, by decide, 0, lowered_radius 0 (by decide) 0⟩,
    fun j hj k => le_of_eq (lowered_radius j hj k).symm⟩

theorem lowered_radiusmax :
    (MakeGeometry (constGen (1 / 2 : ℝ)) Real.sqrt
      { freshPlanet Real.sqrt 0 with iterationdepth := 1 }).radiusmax = 1 + 1 / 100000 := by
  obtain ⟨-, h2, -, -, h5⟩ := rangeLoop_spec Real.sqrt
    ({ freshPlanet Real.sqrt 0 with iterationdepth := 1 } : Planet ℝ Unit).nface
    (MakeGeometry (constGen (1 / 2 : ℝ)) Real.sqrt
      { freshPlanet Real.sqrt 0 with iterationdepth := 1 }).faces
  have e : (rangeLoop Real.sqrt
      ({ freshPlanet Real.sqrt 0 with iterationdepth := 1 } : Planet ℝ Unit).nface
      (MakeGeometry (constGen (1 / 2 : ℝ)) Real.sqrt
        { freshPlanet Real.sqrt 0 with iterationdepth := 1 }).faces).2 = 1 := by
    rcases h5 with h | ⟨j, hj, k, hk⟩
    · exact h
    · rw [lowered_radius j hj k] at hk
      rw [hk] at h2
      norm_num at h2
  rw [(MakeGeometry_range _ _ _).1]
  simp only [findRange]
  rw [e]; rfl

/-- C10, counterexample: rebuild the depth 0 mesh with one pass whose three
draws for the normal are all 0.5, so that `n` is the zero vector and every
corner is lowered.  The greatest corner radius is then `1 - 0.00001`, but
`radiusmax` is `1 + 0.00001`, not that radius plus `deltaheight`. -/
theorem MakeGeometry_range_counterexample :
    ({ freshPlanet Real.sqrt 0 with iterationdepth := 1 } : Planet ℝ Unit).showocean = false ∧
    IsMaxRadius Real.sqrt
      ({ freshPlanet Real.sqrt 0 with iterationdepth := 1 } : Planet ℝ Unit).nface
      (MakeGeometry (constGen (1 / 2 : ℝ)) Real.sqrt
        { freshPlanet Real.sqrt 0 with iterationdepth := 1 }).faces (1 - 1 / 100000) ∧
    (MakeGeometry (constGen (1 / 2 : ℝ)) Real.sqrt
      { freshPlanet Real.sqrt 0 with iterationdepth := 1 }).radiusmax ≠
      (1 - 1 / 100000) +
        ({ freshPlanet Real.sqrt 0 with iterationdepth := 1 } : Planet ℝ Unit).deltaheight := by
  refine ⟨rfl, lowered_max, ?_⟩
  rw [lowered_radiusmax]
  have hd : ({ freshPlanet Real.sqrt 0 with iterationdepth := 1 } : Planet ℝ Unit).deltaheight
      = 1 / 100000 := rfl
  rw [hd]
  norm_num

/-- Witness for C10: the rebuild in which every corner is lowered. -/
theorem MakeGeometry_range_minmax_witness :
    (MakeGeometry (constGen (1 / 2 : ℝ)) Real.sqrt
      { freshPlanet Real.sqrt 0 with iterationdepth := 1 }).radiusmin =
      min 1 (1 - 1 / 100000) -
        ({ freshPlanet Real.sqrt 0 with iterationdepth := 1 } : Planet ℝ Unit).deltaheight ∧
    (MakeGeometry (constGen (1 / 2 : ℝ)) Real.sqrt
      { freshPlanet Real.sqrt 0 with iterationdepth := 1 }).radiusmax =
      max 1 (1 - 1 / 100000) +
        ({ freshPlanet Real.sqrt 0 with iterationdepth := 1 } : Planet ℝ Unit).deltaheight :=
  MakeGeometry_range_minmax (constGen (1 / 2 : ℝ)) Real.sqrt
    { freshPlanet Real.sqrt 0 with iterationdepth := 1 } rfl (1 - 1 / 100000) (1 - 1 / 100000)
    lowered_min lowered_max

/-! ### Undoing the displacement -/

end GeometryLemmas

/-! ## The colour ramps -/

section ColourLemmas

variable {R : Type} [LinearOrderedField R]

theorem fdiv_of_ne (x y : R) (h : y ≠ 0) : fdiv x y = some (x / y) := by
  unfold fdiv; rw [if_neg h]

theorem fdiv_zero (x : R) : fdiv x 0 = none := by
  unfold fdiv; rw [if_pos rfl]

theorem ramp1_unit (v vmin dv : R) (hdv : 0 < dv) (h1 : vmin ≤ v) (h2 : v ≤ vmin + dv) :
    ∃ c, ramp1 v vmin dv = some c ∧ InUnit c := by
  have hne := hdv.ne'
  unfold ramp1
  simp only [fdiv_of_ne _ _ hne, Option.pure_def, Option.bind_eq_bind, Option.some_bind]
  split_ifs <;> refine ⟨_, rfl, ?_⟩ <;> simp only [InUnit] <;>
    refine ⟨?_, ?_, ?_, ?_, ?_, ?_⟩ <;>
    (apply le_of_mul_le_mul_right _ hdv
     simp only [add_mul, sub_mul, div_mul_cancel₀ _ hne, one_mul, zero_mul]
     linarith)

theorem ramp4_unit (v vmin dv : R) (hdv : 0 < dv) (h1 : vmin ≤ v) (h2 : v ≤ vmin + dv) :
    ∃ c, ramp4 v vmin dv = some c ∧ InUnit c := by
  have hne := hdv.ne'
  unfold ramp4
  simp only [fdiv_of_ne _ _ hne, Option.pure_def, Option.bind_eq_bind, Option.some_bind]
  split_ifs <;> refine ⟨_, rfl, ?_⟩ <;> simp only [InUnit] <;>
    refine ⟨?_, ?_, ?_, ?_, ?_, ?_⟩ <;>
    (apply le_of_mul_le_mul_right _ hdv
     simp only [add_mul, sub_mul, div_mul_cancel₀ _ hne, one_mul, zero_mul]
     linarith)

theorem ramp7_unit (v vmin dv : R) (hdv : 0 < dv) (h1 : vmin ≤ v) (h2 : v ≤ vmin + dv) :
    ∃ c, ramp7 v vmin dv = some c ∧ InUnit c := by
  have hne := hdv.ne'
  unfold ramp7
  simp only [fdiv_of_ne _ _ hne, Option.pure_def, Option.bind_eq_bind, Option.some_bind]
  split_ifs <;> refine ⟨_, rfl, ?_⟩ <;> simp only [InUnit] <;>
    refine ⟨?_, ?_, ?_, ?_, ?_, ?_⟩ <;>
    (apply le_of_mul_le_mul_right _ hdv
     simp only [add_mul, sub_mul, div_mul_cancel₀ _ hne, one_mul, zero_mul]
     linarith)

theorem ramp8_unit (v vmin dv : R) (hdv : 0 < dv) (h1 : vmin ≤ v) (h2 : v ≤ vmin + dv) :
    ∃ c, ramp8 v vmin dv = some c ∧ InUnit c := by
  have hne := hdv.ne'
  unfold ramp8
  simp only [fdiv_of_ne _ _ hne, Option.pure_def, Option.bind_eq_bind, Option.some_bind]
  split_ifs <;> refine ⟨_, rfl, ?_⟩ <;> simp only [InUnit] <;>
    refine ⟨?_, ?_, ?_, ?_, ?_, ?_⟩ <;>
    (apply le_of_mul_le_mul_right _ hdv
     simp only [add_mul, sub_mul, div_mul_cancel₀ _ hne, one_mul, zero_mul]
     linarith)

theorem ramp9_unit (v vmin dv : R) (hdv : 0 < dv) (h1 : vmin ≤ v) (h2 : v ≤ vmin + dv) :
    ∃ c, ramp9 v vmin dv = some c ∧ InUnit c := by
  have hne := hdv.ne'
  unfold ramp9
  simp only [fdiv_of_ne _ _ hne, Option.pure_def, Option.bind_eq_bind, Option.some_bind]
  split_ifs <;> refine ⟨_, rfl, ?_⟩ <;> simp only [InUnit] <;>
    refine ⟨?_, ?_, ?_, ?_, ?_, ?_⟩ <;>
    (apply le_of_mul_le_mul_right _ hdv
     simp only [add_mul, sub_mul, div_mul_cancel₀ _ hne, one_mul, zero_mul]
     linarith)

theorem ramp10_unit (v vmin dv : R) (hdv : 0 < dv) (h1 : vmin ≤ v) (h2 : v ≤ vmin + dv) :
    ∃ c, ramp10 v vmin dv = some c ∧ InUnit c := by
  have hne := hdv.ne'
  unfold ramp10
  simp only [fdiv_of_ne _ _ hne, Option.pure_def, Option.bind_eq_bind, Option.some_bind]
  split_ifs <;> refine ⟨_, rfl, ?_⟩ <;> simp only [InUnit] <;>
    refine ⟨?_, ?_, ?_, ?_, ?_, ?_⟩ <;>
    (apply le_of_mul_le_mul_right _ hdv
     simp only [add_mul, sub_mul, div_mul_cancel₀ _ hne, one_mul, zero_mul]
     linarith)

theorem ramp15_unit (v vmin dv : R) (hdv : 0 < dv) (h1 : vmin ≤ v) (h2 : v ≤ vmin + dv) :
    ∃ c, ramp15 v vmin dv = some c ∧ InUnit c := by
  have hne := hdv.ne'
  unfold ramp15
  simp only [fdiv_of_ne _ _ hne, Option.pure_def, Option.bind_eq_bind, Option.some_bind]
  split_ifs <;> refine ⟨_, rfl, ?_⟩ <;> simp only [InUnit] <;>
    refine ⟨?_, ?_, ?_, ?_, ?_, ?_⟩ <;>
    (apply le_of_mul_le_mul_right _ hdv
     simp only [add_mul, sub_mul, div_mul_cancel₀ _ hne, one_mul, zero_mul]
     linarith)

theorem ramp3_unit (v vmin dv : R) (hdv : 0 < dv) (h1 : vmin ≤ v) (h2 : v ≤ vmin + dv) :
    ∃ c, ramp3 v vmin dv = some c ∧ InUnit c := by
  have hne := hdv.ne'
  unfold ramp3
  simp only [fdiv_of_ne _ _ hne, Option.pure_def, Option.bind_eq_bind, Option.some_bind]
  refine ⟨_, rfl, ?_⟩
  simp only [InUnit]
  refine ⟨?_, ?_, ?_, ?_, ?_, ?_⟩ <;>
    (apply le_of_mul_le_mul_right _ hdv
     simp only [add_mul, sub_mul, div_mul_cancel₀ _ hne, one_mul, zero_mul]
     linarith)

theorem ramp14_unit (v vmin dv : R) (hdv : 0 < dv) (h1 : vmin ≤ v) (h2 : v ≤ vmin + dv) :
    ∃ c, ramp14 v vmin dv = some c ∧ InUnit c := by
  have hne := hdv.ne'
  unfold ramp14
  simp only [fdiv_of_ne _ _ hne, Option.pure_def, Option.bind_eq_bind, Option.some_bind]
  refine ⟨_, rfl, ?_⟩
  simp only [InUnit]
  refine ⟨?_, ?_, ?_, ?_, ?_, ?_⟩ <;>
    (apply le_of_mul_le_mul_right _ hdv
     simp only [add_mul, sub_mul, div_mul_cancel₀ _ hne, one_mul, zero_mul]
     linarith)

theorem ramp2_unit (v vmin vmax dv : R) (hdv : 0 < dv) (hmax : vmax = vmin + dv)
    (h1 : vmin ≤ v) (h2 : v ≤ vmin + dv) :
    ∃ c, ramp2 v vmin vmax dv = some c ∧ InUnit c := by
  have hne := hdv.ne'
  unfold ramp2
  simp only [fdiv_of_ne _ _ hne, Option.pure_def, Option.bind_eq_bind, Option.some_bind]
  refine ⟨_, rfl, ?_⟩
  simp only [InUnit]
  refine ⟨?_, ?_, ?_, ?_, ?_, ?_⟩ <;>
    (apply le_of_mul_le_mul_right _ hdv
     simp only [add_mul, sub_mul, div_mul_cancel₀ _ hne, one_mul, zero_mul]
     linarith)

theorem ramp5_unit (v vmin vmax : R) (hdv : 0 < vmax - vmin) (h1 : vmin ≤ v) (h2 : v ≤ vmax) :
    ∃ c, ramp5 v vmin vmax = some c ∧ InUnit c := by
  have hne := hdv.ne'
  unfold ramp5
  simp only [fdiv_of_ne _ _ hne, Option.pure_def, Option.bind_eq_bind, Option.some_bind]
  refine ⟨_, rfl, ?_⟩
  simp only [InUnit]
  refine ⟨?_, ?_, ?_, ?_, ?_, ?_⟩ <;>
    (apply le_of_mul_le_mul_right _ hdv
     simp only [add_mul, sub_mul, div_mul_cancel₀ _ hne, one_mul, zero_mul]
     linarith)

theorem ramp6_unit (v vmin vmax : R) (hdv : 0 < vmax - vmin) (h1 : vmin ≤ v) (h2 : v ≤ vmax) :
    ∃ c, ramp6 v vmin vmax = some c ∧ InUnit c := by
  have hne := hdv.ne'
  unfold ramp6
  simp only [fdiv_of_ne _ _ hne, Option.pure_def, Option.bind_eq_bind, Option.some_bind]
  refine ⟨_, rfl, ?_⟩
  simp only [InUnit]
  refine ⟨?_, ?_, ?_, ?_, ?_, ?_⟩ <;>
    (apply le_of_mul_le_mul_right _ hdv
     simp only [add_mul, sub_mul, div_mul_cancel₀ _ hne, one_mul, zero_mul]
     linarith)

end ColourLemmas

section ColourEnds

variable {R : Type} [LinearOrderedField R]

theorem clip_le (v vmin vmax : R) (h : vmin < vmax) (hv : v ≤ vmin) :
    clip v vmin vmax = vmin := by
  unfold clip
  by_cases c : v < vmin
  · simp only [c, if_true]
    rw [if_neg (not_lt.mpr h.le)]
  · have e : v = vmin := le_antisymm hv (not_lt.mp c)
    simp only [c, if_false]
    rw [if_neg (by rw [e]; exact not_lt.mpr h.le), e]

theorem clip_ge (v vmin vmax : R) (h : vmin < vmax) (hv : vmax ≤ v) :
    clip v vmin vmax = vmax := by
  unfold clip
  have c : ¬ v < vmin := not_lt.mpr (le_trans h.le hv)
  simp only [c, if_false]
  by_cases c2 : v > vmax
  · rw [if_pos c2]
  · rw [if_neg c2]; exact le_antisymm (not_lt.mp c2) hv

theorem clip_mem (v vmin vmax : R) (h : vmin ≤ vmax) :
    vmin ≤ clip v vmin vmax ∧ clip v vmin vmax ≤ vmax := by
  unfold clip
  by_cases c : v < vmin
  · simp only [c, if_true]
    rw [if_neg (not_lt.mpr h)]
    exact ⟨le_rfl, h⟩
  · simp only [c, if_false]
    by_cases c2 : v > vmax
    · rw [if_pos c2]; exact ⟨h, le_rfl⟩
    · rw [if_neg c2]; exact ⟨not_lt.mp c, not_lt.mp c2⟩

theorem ramp1_lo (vmin dv : R) (hdv : 0 < dv) : ramp1 vmin vmin dv = some ⟨0, 0, 1⟩ := by
  have hne := hdv.ne'
  unfold ramp1
  simp only [fdiv_of_ne _ _ hne, Option.pure_def, Option.bind_eq_bind, Option.some_bind]
  split_ifs <;> first
    | (exfalso; linarith)
    | (simp only [Option.some.injEq, COLOUR.mk.injEq]
       refine ⟨?_, ?_, ?_⟩ <;> first | rfl | (field_simp; ring) | field_simp | norm_num)

theorem ramp1_hi (v vmin dv : R) (hdv : 0 < dv) (hv : v = vmin + dv) :
    ramp1 v vmin dv = some ⟨1, 0, 0⟩ := by
  have hne := hdv.ne'
  subst hv
  unfold ramp1
  simp only [fdiv_of_ne _ _ hne, Option.pure_def, Option.bind_eq_bind, Option.some_bind]
  split_ifs <;> first
    | (exfalso; linarith)
    | (simp only [Option.some.injEq, COLOUR.mk.injEq]
       refine ⟨?_, ?_, ?_⟩ <;> first | rfl | (field_simp; ring) | field_simp | norm_num)

theorem ramp3_lo (vmin dv : R) (hdv : 0 < dv) : ramp3 vmin vmin dv = some ⟨0, 0, 0⟩ := by
  have hne := hdv.ne'
  unfold ramp3
  simp only [fdiv_of_ne _ _ hne, Option.pure_def, Option.bind_eq_bind, Option.some_bind]
  simp only [Option.some.injEq, COLOUR.mk.injEq]
  refine ⟨?_, ?_, ?_⟩ <;> first | rfl | (field_simp; ring) | field_simp | norm_num

theorem ramp3_hi (v vmin dv : R) (hdv : 0 < dv) (hv : v = vmin + dv) :
    ramp3 v vmin dv = some ⟨1, 1, 1⟩ := by
  have hne := hdv.ne'
  subst hv
  unfold ramp3
  simp only [fdiv_of_ne _ _ hne, Option.pure_def, Option.bind_eq_bind, Option.some_bind]
  simp only [Option.some.injEq, COLOUR.mk.injEq]
  refine ⟨?_, ?_, ?_⟩ <;> first | rfl | (field_simp; ring) | field_simp | norm_num

theorem ramp10_lo (vmin dv : R) (hdv : 0 < dv) : ramp10 vmin vmin dv = some ⟨0, 0, 1⟩ := by
  have hne := hdv.ne'
  unfold ramp10
  simp only [fdiv_of_ne _ _ hne, Option.pure_def, Option.bind_eq_bind, Option.some_bind]
  split_ifs <;> first
    | (exfalso; linarith)
    | (simp only [Option.some.injEq, COLOUR.mk.injEq]
       refine ⟨?_, ?_, ?_⟩ <;> first | rfl | (field_simp; ring) | field_simp | norm_num)

theorem ramp10_hi (v vmin dv : R) (hdv : 0 < dv) (hv : v = vmin + dv) :
    ramp10 v vmin dv = some ⟨1, 1, 1⟩ := by
  have hne := hdv.ne'
  subst hv
  unfold ramp10
  simp only [fdiv_of_ne _ _ hne, Option.pure_def, Option.bind_eq_bind, Option.some_bind]
  split_ifs <;> first
    | (exfalso; linarith)
    | (simp only [Option.some.injEq, COLOUR.mk.injEq]
       refine ⟨?_, ?_, ?_⟩ <;> first | rfl | (field_simp; ring) | field_simp | norm_num)

theorem ramp15_lo (vmin dv : R) (hdv : 0 < dv) : ramp15 vmin vmin dv = some ⟨0, 0, 1⟩ := by
  have hne := hdv.ne'
  unfold ramp15
  simp only [fdiv_of_ne _ _ hne, Option.pure_def, Option.bind_eq_bind, Option.some_bind]
  split_ifs <;> first
    | (exfalso; linarith)
    | (simp only [Option.some.injEq, COLOUR.mk.injEq]
       refine ⟨?_, ?_, ?_⟩ <;> first | rfl | (field_simp; ring) | field_simp | norm_num)

theorem ramp15_hi (v vmin dv : R) (hdv : 0 < dv) (hv : v = vmin + dv) :
    ramp15 v vmin dv = some ⟨1, 1, 1⟩ := by
  have hne := hdv.ne'
  subst hv
  unfold ramp15
  simp only [fdiv_of_ne _ _ hne, Option.pure_def, Option.bind_eq_bind, Option.some_bind]
  split_ifs <;> first
    | (exfalso; linarith)
    | (simp only [Option.some.injEq, COLOUR.mk.injEq]
       refine ⟨?_, ?_, ?_⟩ <;> first | rfl | (field_simp; ring) | field_simp | norm_num)

theorem ramp11_unit (v vmin dv : R) (hdv : 0 < dv) (h1 : vmin ≤ v) (h2 : v ≤ vmin + dv) :
    ∃ c, ramp11 v vmin dv = some c ∧ InUnit c := by
  have hne := hdv.ne'
  unfold ramp11
  simp only [blend, fdiv_of_ne _ _ hne, Option.pure_def, Option.bind_eq_bind, Option.some_bind]
  refine ⟨_, rfl, ?_⟩
  simp only [InUnit]
  refine ⟨?_, ?_, ?_, ?_, ?_, ?_⟩ <;>
    (apply le_of_mul_le_mul_right _ hdv
     simp only [add_mul, sub_mul, div_mul_cancel₀ _ hne, one_mul, zero_mul]
     linarith)

theorem ramp11_lo (vmin dv : R) (hdv : 0 < dv) : ramp11 vmin vmin dv = some ⟨200 / 255, 60 / 255, 0⟩ := by
  have hne := hdv.ne'
  unfold ramp11
  simp only [blend, fdiv_of_ne _ _ hne, Option.pure_def, Option.bind_eq_bind, Option.some_bind]
  simp only [Option.some.injEq, COLOUR.mk.injEq]
  refine ⟨?_, ?_, ?_⟩ <;> first | rfl | (field_simp; ring) | field_simp | norm_num

theorem ramp11_hi (v vmin dv : R) (hdv : 0 < dv) (hv : v = vmin + dv) :
    ramp11 v vmin dv = some ⟨250 / 255, 160 / 255, 110 / 255⟩ := by
  have hne := hdv.ne'
  subst hv
  unfold ramp11
  simp only [blend, fdiv_of_ne _ _ hne, Option.pure_def, Option.bind_eq_bind, Option.some_bind]
  simp only [Option.some.injEq, COLOUR.mk.injEq]
  refine ⟨?_, ?_, ?_⟩ <;> first | rfl | (field_simp; ring) | field_simp | norm_num

theorem ramp12_unit (v vmin dv : R) (hdv : 0 < dv) (h1 : vmin ≤ v) (h2 : v ≤ vmin + dv) :
    ∃ c, ramp12 v vmin dv = some c ∧ InUnit c := by
  have ha : (0 : R) < 0.4 * dv := by norm_num; exact hdv
  have hb : (0 : R) < (1 - 0.4) * dv := by norm_num; exact hdv
  have hab : (0.4 : R) * dv + (1 - 0.4) * dv = dv := by ring
  simp only [ramp12, blend]
  generalize (0.4 : R) * dv = da at ha hab ⊢
  generalize (1 - 0.4 : R) * dv = db at hb hab ⊢
  have hna := ha.ne'
  have hnb := hb.ne'
  simp only [fdiv_of_ne _ _ hna, fdiv_of_ne _ _ hnb, Option.pure_def, Option.bind_eq_bind,
    Option.some_bind]
  split_ifs <;> refine ⟨_, rfl, ?_⟩ <;> simp only [InUnit] <;>
    refine ⟨?_, ?_, ?_, ?_, ?_, ?_⟩ <;> first
    | (apply le_of_mul_le_mul_right _ ha
       simp only [add_mul, sub_mul, div_mul_cancel₀ _ hna, one_mul, zero_mul]
       linarith)
    | (apply le_of_mul_le_mul_right _ hb
       simp only [add_mul, sub_mul, div_mul_cancel₀ _ hnb, one_mul, zero_mul]
       linarith)

theorem ramp12_lo (vmin dv : R) (hdv : 0 < dv) : ramp12 vmin vmin dv = some ⟨55 / 255, 55 / 255, 45 / 255⟩ := by
  have ha : (0 : R) < 0.4 * dv := by norm_num; exact hdv
  have hb : (0 : R) < (1 - 0.4) * dv := by norm_num; exact hdv
  have hna := ha.ne'
  have hnb := hb.ne'
  unfold ramp12
  simp only [blend, fdiv_of_ne _ _ hna, fdiv_of_ne _ _ hnb, Option.pure_def, Option.bind_eq_bind,
    Option.some_bind]
  split_ifs <;> first
    | (exfalso; linarith)
    | (simp only [Option.some.injEq, COLOUR.mk.injEq]
       refine ⟨?_, ?_, ?_⟩ <;> first | rfl | (field_simp; ring) | field_simp | norm_num)

theorem ramp12_hi (v vmin dv : R) (hdv : 0 < dv) (hv : v = vmin + dv) :
    ramp12 v vmin dv = some ⟨250 / 255, 160 / 255, 110 / 255⟩ := by
  have ha : (0 : R) < 0.4 * dv := by norm_num; exact hdv
  have hb : (0 : R) < (1 - 0.4) * dv := by norm_num; exact hdv
  have hna := ha.ne'
  have hnb := hb.ne'
  subst hv
  unfold ramp12
  simp only [blend, fdiv_of_ne _ _ hna, fdiv_of_ne _ _ hnb, Option.pure_def, Option.bind_eq_bind,
    Option.some_bind]
  split_ifs <;> first
    | (exfalso; linarith)
    | (simp only [Option.some.injEq, COLOUR.mk.injEq]
       refine ⟨?_, ?_, ?_⟩ <;> first | rfl | (field_simp; ring) | field_simp | norm_num)

theorem ramp13_unit (v vmin dv : R) (hdv : 0 < dv) (h1 : vmin ≤ v) (h2 : v ≤ vmin + dv) :
    ∃ c, ramp13 v vmin dv = some c ∧ InUnit c := by
  have ha : (0 : R) < 0.3 * dv := by norm_num; exact hdv
  have hb : (0 : R) < (1 - 0.3) * dv := by norm_num; exact hdv
  have hab : (0.3 : R) * dv + (1 - 0.3) * dv = dv := by ring
  simp only [ramp13, blend]
  generalize (0.3 : R) * dv = da at ha hab ⊢
  generalize (1 - 0.3 : R) * dv = db at hb hab ⊢
  have hna := ha.ne'
  have hnb := hb.ne'
  simp only [fdiv_of_ne _ _ hna, fdiv_of_ne _ _ hnb, Option.pure_def, Option.bind_eq_bind,
    Option.some_bind]
  split_ifs <;> refine ⟨_, rfl, ?_⟩ <;> simp only [InUnit] <;>
    refine ⟨?_, ?_, ?_, ?_, ?_, ?_⟩ <;> first
    | (apply le_of_mul_le_mul_right _ ha
       simp only [add_mul, sub_mul, div_mul_cancel₀ _ hna, one_mul, zero_mul]
       linarith)
    | (apply le_of_mul_le_mul_right _ hb
       simp only [add_mul, sub_mul, div_mul_cancel₀ _ hnb, one_mul, zero_mul]
       linarith)

theorem ramp13_lo (vmin dv : R) (hdv : 0 < dv) : ramp13 vmin vmin dv = some ⟨0, 255 / 255, 0⟩ := by
  have ha : (0 : R) < 0.3 * dv := by norm_num; exact hdv
  have hb : (0 : R) < (1 - 0.3) * dv := by norm_num; exact hdv
  have hna := ha.ne'
  have hnb := hb.ne'
  unfold ramp13
  simp only [blend, fdiv_of_ne _ _ hna, fdiv_of_ne _ _ hnb, Option.pure_def, Option.bind_eq_bind,
    Option.some_bind]
  split_ifs <;> first
    | (exfalso; linarith)
    | (simp only [Option.some.injEq, COLOUR.mk.injEq]
       refine ⟨?_, ?_, ?_⟩ <;> first | rfl | (field_simp; ring) | field_simp | norm_num)

theorem ramp13_hi (v vmin dv : R) (hdv : 0 < dv) (hv : v = vmin + dv) :
    ramp13 v vmin dv = some ⟨255 / 255, 250 / 255, 240 / 255⟩ := by
  have ha : (0 : R) < 0.3 * dv := by norm_num; exact hdv
  have hb : (0 : R) < (1 - 0.3) * dv := by norm_num; exact hdv
  have hna := ha.ne'
  have hnb := hb.ne'
  subst hv
  unfold ramp13
  simp only [blend, fdiv_of_ne _ _ hna, fdiv_of_ne _ _ hnb, Option.pure_def, Option.bind_eq_bind,
    Option.some_bind]
  split_ifs <;> first
    | (exfalso; linarith)
    | (simp only [Option.some.injEq, COLOUR.mk.injEq]
       refine ⟨?_, ?_, ?_⟩ <;> first | rfl | (field_simp; ring) | field_simp | norm_num)

end ColourEnds

section ColourTheorems

variable {R : Type} [LinearOrderedField R]

theorem white_unit : InUnit (⟨1.0, 1.0, 1.0⟩ : COLOUR R) := by
  simp only [InUnit]; norm_num

theorem GetColour_other (v vmin vmax : R) (type : Int) (h : type < 1 ∨ 15 < type) :
    GetColour v vmin vmax type = some ⟨1.0, 1.0, 1.0⟩ := by
  unfold GetColour
  have n1 : type ≠ 1 := by omega
  have n2 : type ≠ 2 := by omega
  have n3 : type ≠ 3 := by omega
  have n4 : type ≠ 4 := by omega
  have n5 : type ≠ 5 := by omega
  have n6 : type ≠ 6 := by omega
  have n7 : type ≠ 7 := by omega
  have n8 : type ≠ 8 := by omega
  have n9 : type ≠ 9 := by omega
  have n10 : type ≠ 10 := by omega
  have n11 : type ≠ 11 := by omega
  have n12 : type ≠ 12 := by omega
  have n13 : type ≠ 13 := by omega
  have n14 : type ≠ 14 := by omega
  have n15 : type ≠ 15 := by omega
  simp only [n1, n2, n3, n4, n5, n6, n7, n8, n9, n10, n11, n12, n13, n14, n15, if_false]

theorem type_cases (type : Int) :
    (type < 1 ∨ 15 < type) ∨ type = 1 ∨ type = 2 ∨ type = 3 ∨ type = 4 ∨ type = 5 ∨ type = 6 ∨
      type = 7 ∨ type = 8 ∨ type = 9 ∨ type = 10 ∨ type = 11 ∨ type = 12 ∨ type = 13 ∨
      type = 14 ∨ type = 15 := by omega

/-- For a non-empty range every ramp gives a colour with components in `[0, 1]`. -/
theorem GetColour_some_unit (v vmin vmax : R) (type : Int) (h : vmin < vmax) :
    ∃ c, GetColour v vmin vmax type = some c ∧ InUnit c := by
  have hdv : 0 < vmax - vmin := sub_pos.mpr h
  obtain ⟨h1, h2⟩ := clip_mem v vmin vmax h.le
  have h2' : clip v vmin vmax ≤ vmin + (vmax - vmin) := by linarith
  rcases type_cases type with h | h | h | h | h | h | h | h | h | h | h | h | h | h | h | h
  · rw [GetColour_other v vmin vmax type h]; exact ⟨_, rfl, white_unit⟩
  · subst h; exact ramp1_unit _ _ _ hdv h1 h2'
  · subst h; exact ramp2_unit _ _ _ _ hdv (by ring) h1 h2'
  · subst h; exact ramp3_unit _ _ _ hdv h1 h2'
  · subst h; exact ramp4_unit _ _ _ hdv h1 h2'
  · subst h; exact ramp5_unit _ _ _ hdv h1 h2
  · subst h; exact ramp6_unit _ _ _ hdv h1 h2
  · subst h; exact ramp7_unit _ _ _ hdv h1 h2'
  · subst h; exact ramp8_unit _ _ _ hdv h1 h2'
  · subst h; exact ramp9_unit _ _ _ hdv h1 h2'
  · subst h; exact ramp10_unit _ _ _ hdv h1 h2'
  · subst h; exact ramp11_unit _ _ _ hdv h1 h2'
  · subst h; exact ramp12_unit _ _ _ hdv h1 h2'
  · subst h; exact ramp13_unit _ _ _ hdv h1 h2'
  · subst h; exact ramp14_unit _ _ _ hdv h1 h2'
  · subst h; exact ramp15_unit _ _ _ hdv h1 h2'

theorem GetColour_lo (v vmin vmax : R) (h : vmin < vmax) (hv : v ≤ vmin) :
    GetColour v vmin vmax 1 = some ⟨0, 0, 1⟩ ∧
    GetColour v vmin vmax 3 = some ⟨0, 0, 0⟩ ∧
    GetColour v vmin vmax 10 = some ⟨0, 0, 1⟩ ∧
    GetColour v vmin vmax 15 = some ⟨0, 0, 1⟩ ∧
    GetColour v vmin vmax 11 = some ⟨200 / 255, 60 / 255, 0⟩ ∧
    GetColour v vmin vmax 12 = some ⟨55 / 255, 55 / 255, 45 / 255⟩ ∧
    GetColour v vmin vmax 13 = some ⟨0, 255 / 255, 0⟩ := by
  have hdv : 0 < vmax - vmin := sub_pos.mpr h
  have hc := clip_le v vmin vmax h hv
  refine ⟨?_, ?_, ?_, ?_, ?_, ?_, ?_⟩
  · show ramp1 (clip v vmin vmax) vmin (vmax - vmin) = _
    rw [hc]; exact ramp1_lo _ _ hdv
  · show ramp3 (clip v vmin vmax) vmin (vmax - vmin) = _
    rw [hc]; exact ramp3_lo _ _ hdv
  · show ramp10 (clip v vmin vmax) vmin (vmax - vmin) = _
    rw [hc]; exact ramp10_lo _ _ hdv
  · show ramp15 (clip v vmin vmax) vmin (vmax - vmin) = _
    rw [hc]; exact ramp15_lo _ _ hdv
  · show ramp11 (clip v vmin vmax) vmin (vmax - vmin) = _
    rw [hc]; exact ramp11_lo _ _ hdv
  · show ramp12 (clip v vmin vmax) vmin (vmax - vmin) = _
    rw [hc]; exact ramp12_lo _ _ hdv
  · show ramp13 (clip v vmin vmax) vmin (vmax - vmin) = _
    rw [hc]; exact ramp13_lo _ _ hdv

theorem GetColour_hi (v vmin vmax : R) (h : vmin < vmax) (hv : vmax ≤ v) :
    GetColour v vmin vmax 1 = some ⟨1, 0, 0⟩ ∧
    GetColour v vmin vmax 3 = some ⟨1, 1, 1⟩ ∧
    GetColour v vmin vmax 10 = some ⟨1, 1, 1⟩ ∧
    GetColour v vmin vmax 15 = some ⟨1, 1, 1⟩ ∧
    GetColour v vmin vmax 11 = some ⟨250 / 255, 160 / 255, 110 / 255⟩ ∧
    GetColour v vmin vmax 12 = some ⟨250 / 255, 160 / 255, 110 / 255⟩ ∧
    GetColour v vmin vmax 13 = some ⟨255 / 255, 250 / 255, 240 / 255⟩ := by
  have hdv : 0 < vmax - vmin := sub_pos.mpr h
  have hc := clip_ge v vmin vmax h hv
  have e : vmax = vmin + (vmax - vmin) := by ring
  refine ⟨?_, ?_, ?_, ?_, ?_, ?_, ?_⟩
  · show ramp1 (clip v vmin vmax) vmin (vmax - vmin) = _
    rw [hc]; exact ramp1_hi _ _ _ hdv e
  · show ramp3 (clip v vmin vmax) vmin (vmax - vmin) = _
    rw [hc]; exact ramp3_hi _ _ _ hdv e
  · show ramp10 (clip v vmin vmax) vmin (vmax - vmin) = _
    rw [hc]; exact ramp10_hi _ _ _ hdv e
  · show ramp15 (clip v vmin vmax) vmin (vmax - vmin) = _
    rw [hc]; exact ramp15_hi _ _ _ hdv e
  · show ramp11 (clip v vmin vmax) vmin (vmax - vmin) = _
    rw [hc]; exact ramp11_hi _ _ _ hdv e
  · show ramp12 (clip v vmin vmax) vmin (vmax - vmin) = _
    rw [hc]; exact ramp12_hi _ _ _ hdv e
  · show ramp13 (clip v vmin vmax) vmin (vmax - vmin) = _
    rw [hc]; exact ramp13_hi _ _ _ hdv e

/-- With an empty range every ramp 1..15 divides by zero. -/
theorem GetColour_degenerate (v vmin : R) (type : Int) (h1 : 1 ≤ type) (h15 : type ≤ 15) :
    GetColour v vmin vmin type = none := by
  rcases type_cases type with h | h | h | h | h | h | h | h | h | h | h | h | h | h | h | h
  · omega
  · subst h; show ramp1 _ vmin (vmin - vmin) = none
    simp [ramp1, fdiv_zero]
  · subst h; show ramp2 _ vmin vmin (vmin - vmin) = none
    simp [ramp2, fdiv_zero]
  · subst h; show ramp3 _ vmin (vmin - vmin) = none
    simp [ramp3, fdiv_zero]
  · subst h; show ramp4 _ vmin (vmin - vmin) = none
    simp [ramp4, fdiv_zero]
  · subst h; show ramp5 _ vmin vmin = none
    simp [ramp5, fdiv_zero]
  · subst h; show ramp6 _ vmin vmin = none
    simp [ramp6, fdiv_zero]
  · subst h; show ramp7 _ vmin (vmin - vmin) = none
    simp [ramp7, fdiv_zero]
  · subst h; show ramp8 _ vmin (vmin - vmin) = none
    simp [ramp8, fdiv_zero]
  · subst h; show ramp9 _ vmin (vmin - vmin) = none
    simp [ramp9, fdiv_zero]
  · subst h; show ramp10 _ vmin (vmin - vmin) = none
    simp [ramp10, fdiv_zero]
  · subst h; show ramp11 _ vmin (vmin - vmin) = none
    simp [ramp11, blend, fdiv_zero]
  · subst h; show ramp12 _ vmin (vmin - vmin) = none
    simp [ramp12, blend, fdiv_zero]
  · subst h; show ramp13 _ vmin (vmin - vmin) = none
    simp [ramp13, blend, fdiv_zero]
  · subst h; show ramp14 _ vmin (vmin - vmin) = none
    simp [ramp14, fdiv_zero]
  · subst h; show ramp15 _ vmin (vmin - vmin) = none
    simp [ramp15, fdiv_zero]

end ColourTheorems

section ColourClaims

variable {R : Type} [LinearOrderedField R]

/-- C12: for `vmin < vmax` and each colour map of the menu (types 1, 3, 10, 11,
12, 13, 15), `GetColour(v, vmin, vmax, type)` is the first keyframe colour of
the ramp for every `v <= vmin` and the last one for every `v >= vmax`: type 1
gives `(0,0,1)` and `(1,0,0)`, type 3 `(0,0,0)` and `(1,1,1)`, types 10 and 15
`(0,0,1)` and `(1,1,1)`, type 11 `(200,60,0)/255` and `(250,160,110)/255`,
type 12 `(55,55,45)/255` and `(250,160,110)/255`, type 13 `(0,255,0)/255` and
`(255,250,240)/255`. -/
theorem GetColour_boundary (v vmin vmax : R) (h : vmin < vmax) :
    (v ≤ vmin →
      GetColour v vmin vmax 1 = some ⟨0, 0, 1⟩ ∧
      GetColour v vmin vmax 3 = some ⟨0, 0, 0⟩ ∧
      GetColour v vmin vmax 10 = some ⟨0, 0, 1⟩ ∧
      GetColour v vmin vmax 15 = some ⟨0, 0, 1⟩ ∧
      GetColour v vmin vmax 11 = some ⟨200 / 255, 60 / 255, 0⟩ ∧
      GetColour v vmin vmax 12 = some ⟨55 / 255, 55 / 255, 45 / 255⟩ ∧
      GetColour v vmin vmax 13 = some ⟨0, 255 / 255, 0⟩) ∧
    (vmax ≤ v →
      GetColour v vmin vmax 1 = some ⟨1, 0, 0⟩ ∧
      GetColour v vmin vmax 3 = some ⟨1, 1, 1⟩ ∧
      GetColour v vmin vmax 10 = some ⟨1, 1, 1⟩ ∧
      GetColour v vmin vmax 15 = some ⟨1, 1, 1⟩ ∧
      GetColour v vmin vmax 11 = some ⟨250 / 255, 160 / 255, 110 / 255⟩ ∧
      GetColour v vmin vmax 12 = some ⟨250 / 255, 160 / 255, 110 / 255⟩ ∧
      GetColour v vmin vmax 13 = some ⟨255 / 255, 250 / 255, 240 / 255⟩) :=
  ⟨GetColour_lo v vmin vmax h, GetColour_hi v vmin vmax h⟩

/-- Witness for C12: the range from 0 to 1 over the reals, at `v = 0`. -/
theorem GetColour_boundary_witness :
    (0 : ℝ) < 1 ∧ GetColour (0 : ℝ) 0 1 12 = some ⟨55 / 255, 55 / 255, 45 / 255⟩ :=
  ⟨one_pos, ((GetColour_boundary (0 : ℝ) 0 1 one_pos).1 le_rfl).2.2.2.2.2.1⟩

/-- C14 (as amended): `GetColour` has no special case for an empty range.  For
`vmin = vmax` and every ramp 1..15 the path it takes divides by zero (by
`dv = vmax - vmin`, or by `ratio * dv`), for every `v`, so no colour is
defined; only a `type` outside 1..15 gives a fixed colour, white, since it
divides by nothing.  For `vmin < vmax` no divisor is zero. -/
theorem GetColour_empty_range (v vmin : R) (type : Int) (h1 : 1 ≤ type) (h15 : type ≤ 15) :
    GetColour v vmin vmin type = none ∧
    (∀ w vmax : R, ∀ other : Int, other < 1 ∨ 15 < other →
      GetColour w vmin vmax other = some ⟨1, 1, 1⟩) ∧
    (∀ vmax : R, vmin < vmax → ∃ c, GetColour v vmin vmax type = some c) := by
  refine ⟨GetColour_degenerate v vmin type h1 h15, fun w vmax other ho => ?_,
    fun vmax hlt => ?_⟩
  · rw [GetColour_other w vmin vmax other ho]
    norm_num
  · obtain ⟨c, hc, -⟩ := GetColour_some_unit v vmin vmax type hlt
    exact ⟨c, hc⟩

/-- Witness for C14: the empty range at 1 with the grey ramp. -/
theorem GetColour_empty_range_witness :
    ((1 : Int) ≤ 3 ∧ (3 : Int) ≤ 15) ∧ GetColour (2 : ℝ) 1 1 3 = none :=
  ⟨⟨by decide, by decide⟩, (GetColour_empty_range (2 : ℝ) 1 3 (by decide) (by decide)).1⟩

/-- C14, counterexample: `GetColour(1, 1, 1, 1)`.  After the clipping `v = 1`
and `dv = 0`; none of `v < vmin + 0.25 * dv`, `v < vmin + 0.5 * dv`,
`v < vmin + 0.75 * dv` holds, so the last branch computes
`1 + 4 * (vmin + 0.75 * dv - v) / dv` with divisor 0 and no colour results. -/
theorem GetColour_empty_range_counterexample :
    ¬ ∃ c, GetColour (1 : ℝ) 1 1 1 = some c := by
  rw [GetColour_degenerate (1 : ℝ) 1 1 (by decide) (by decide)]
  rintro ⟨c, hc⟩
  cases hc

end ColourClaims

/-! ## The display list -/

section DisplayListLemmas

variable {R G : Type} [LinearOrderedField R]

theorem triangleLoop_eq (sqrt : R → R) (colourmap : Int) (radiusmin radiusmax sealevel : R)
    (nface : Nat) (faces : Nat → TF R) :
    triangleLoop sqrt colourmap radiusmin radiusmax sealevel nface faces =
      ((List.range nface).filter (fun i => decide (aboveSea sqrt sealevel faces i))).map
        (drawnFace sqrt colourmap radiusmin radiusmax faces) := by
  unfold triangleLoop
  induction nface with
  | zero => rfl
  | succ n ih =>
    rw [List.range_succ, List.foldl_append, ih, List.filter_append, List.map_append]
    simp only [List.foldl_cons, List.foldl_nil]
    by_cases h : Modulus sqrt ((faces n).p 0) < sealevel ∧
        Modulus sqrt ((faces n).p 1) < sealevel ∧ Modulus sqrt ((faces n).p 2) < sealevel
    · have hn : ¬ aboveSea sqrt sealevel faces n := by
        unfold aboveSea
        rintro (h' | h' | h')
        · exact absurd h.1 (not_lt.mpr h')
        · exact absurd h.2.1 (not_lt.mpr h')
        · exact absurd h.2.2 (not_lt.mpr h')
      rw [if_pos h]
      simp [hn]
    · have hn : aboveSea sqrt sealevel faces n := by
        unfold aboveSea
        by_contra hc
        push_neg at hc
        exact h hc
      rw [if_neg h]
      simp [hn, drawnFace]

theorem displayList_eq (gen : Rand48 R G) (sqrt : R → R) (s : Planet R G) :
    displayList gen sqrt s =
      triangleLoop sqrt s.colourmap (MakeGeometry gen sqrt s).radiusmin
        (MakeGeometry gen sqrt s).radiusmax
        (seaLevel s.showocean (findRange sqrt s.deltaheight s.nface
          (MakeGeometry gen sqrt s).faces))
        s.nface (MakeGeometry gen sqrt s).faces := rfl

end DisplayListLemmas

section DisplayListClaims

variable {R G : Type} [LinearOrderedField R]

theorem filter_range_none (n : Nat) (q : Nat → Prop) [DecidablePred q]
    (h : ∀ i, i < n → ¬ q i) : (List.range n).filter (fun i => decide (q i)) = [] := by
  rw [List.filter_eq_nil_iff]
  intro i hi
  simp [h i (List.mem_range.mp hi)]

theorem filter_range_all (n : Nat) (q : Nat → Prop) [DecidablePred q]
    (h : ∀ i, i < n → q i) : (List.range n).filter (fun i => decide (q i)) = List.range n := by
  rw [List.filter_eq_self]
  intro i hi
  simp [h i (List.mem_range.mp hi)]

theorem corners_drawnFace (sqrt : R → R) (colourmap : Int) (radiusmin radiusmax : R)
    (faces : Nat → TF R) (l : List Nat) :
    (l.map (drawnFace sqrt colourmap radiusmin radiusmax faces)).map GLTriangle.corners =
      l.map (faceCorners faces) := by
  rw [List.map_map]
  rfl

theorem Modulus_nonneg (q : XYZ ℝ) : 0 ≤ Modulus Real.sqrt q := Real.sqrt_nonneg _

/-- C15: the triangle loop of `MakeGeometry` emits exactly the faces, in mesh
order, that have at least one corner with radius at least `sealevel`.  If
`sealevel` is above every corner radius it emits nothing; if `sealevel` is at
or below every corner radius it emits every face; and with the ocean off
(`sealevel = 0`) it emits every face. -/
theorem triangleLoop_ocean (colourmap : Int) (radiusmin radiusmax sealevel : ℝ)
    (nface : Nat) (faces : Nat → TF ℝ) :
    (triangleLoop Real.sqrt colourmap radiusmin radiusmax sealevel nface faces).map
        GLTriangle.corners =
      ((List.range nface).filter
        (fun i => decide (aboveSea Real.sqrt sealevel faces i))).map (faceCorners faces) ∧
    ((∀ i, i < nface → ∀ k, Modulus Real.sqrt ((faces i).p k) < sealevel) →
      triangleLoop Real.sqrt colourmap radiusmin radiusmax sealevel nface faces = []) ∧
    ((∀ i, i < nface → ∀ k, sealevel ≤ Modulus Real.sqrt ((faces i).p k)) →
      (triangleLoop Real.sqrt colourmap radiusmin radiusmax sealevel nface faces).map
          GLTriangle.corners = (List.range nface).map (faceCorners faces)) ∧
    (triangleLoop Real.sqrt colourmap radiusmin radiusmax 0 nface faces).map
        GLTriangle.corners = (List.range nface).map (faceCorners faces) ∧
    (∀ (gen : Rand48 ℝ G) (s : Planet ℝ G), s.showocean = false →
      (displayList gen Real.sqrt s).map GLTriangle.corners =
        (List.range s.nface).map (faceCorners (MakeGeometry gen Real.sqrt s).faces)) := by
  have hall : ∀ (cm : Int) (lo hi : ℝ) (n : Nat) (fs : Nat → TF ℝ),
      (triangleLoop Real.sqrt cm lo hi 0 n fs).map GLTriangle.corners =
        (List.range n).map (faceCorners fs) := by
    intro cm lo hi n fs
    rw [triangleLoop_eq, corners_drawnFace,
      filter_range_all n (aboveSea Real.sqrt 0 fs) (fun i _ => Or.inl (Modulus_nonneg _))]
  refine ⟨?_, ?_, ?_, hall _ _ _ _ _, ?_⟩
  · rw [triangleLoop_eq, corners_drawnFace]
  · intro h
    rw [triangleLoop_eq, filter_range_none nface (aboveSea Real.sqrt sealevel faces)]
    · rfl
    · intro i hi
      unfold aboveSea
      rintro (h' | h' | h')
      · exact absurd (h i hi 0) (not_lt.mpr h')
      · exact absurd (h i hi 1) (not_lt.mpr h')
      · exact absurd (h i hi 2) (not_lt.mpr h')
  · intro h
    rw [triangleLoop_eq, corners_drawnFace,
      filter_range_all nface (aboveSea Real.sqrt sealevel faces) (fun i hi => Or.inl (h i hi 0))]
  · intro gen s ho
    rw [displayList_eq]
    have e : seaLevel s.showocean (findRange Real.sqrt s.deltaheight s.nface
        (MakeGeometry gen Real.sqrt s).faces) = 0 := by
      simp [seaLevel, ho]
    rw [e]
    exact hall _ _ _ _ _

theorem MakeGeometry_gap (gen : Rand48 R G) (sqrt : R → R) (s : Planet R G) :
    (s.showocean = true →
      s.deltaheight ≤ (MakeGeometry gen sqrt s).radiusmax - (MakeGeometry gen sqrt s).radiusmin) ∧
    (s.showocean = false →
      2 * s.deltaheight ≤
        (MakeGeometry gen sqrt s).radiusmax - (MakeGeometry gen sqrt s).radiusmin) := by
  have g := findRange_gap sqrt s.deltaheight s.nface (MakeGeometry gen sqrt s).faces
  have hr := MakeGeometry_range gen sqrt s
  constructor
  · intro ho
    rw [ho] at hr
    simp only [if_true] at hr
    rw [hr.1, hr.2]
    linarith
  · intro ho
    rw [ho] at hr
    simp only [Bool.false_eq_true, if_false] at hr
    rw [hr.1, hr.2]
    exact g

theorem MakeGeometry_gap_pos (gen : Rand48 R G) (sqrt : R → R) (s : Planet R G)
    (hd : 0 < s.deltaheight) :
    (MakeGeometry gen sqrt s).radiusmin < (MakeGeometry gen sqrt s).radiusmax := by
  have h := MakeGeometry_gap gen sqrt s
  cases ho : s.showocean
  · have := h.2 ho; linarith
  · have := h.1 ho; linarith

/-- C19: for `deltaheight > 0` the colour range that `MakeGeometry` hands to
`GetColour` is never empty.  After the range computation
`radiusmax - radiusmin >= 2 * deltaheight`; with the ocean shown `radiusmin` is
replaced by `sealevel = radiusmin + (radiusmax - radiusmin) / 2` and
`radiusmax - radiusmin >= deltaheight`.  Every colour of the display list is
`GetColour(r, radiusmin, radiusmax, colourmap)` for the radius `r` of its
vertex and these final `radiusmin < radiusmax`, so no call divides by zero. -/
theorem MakeGeometry_colour_range (gen : Rand48 R G) (sqrt : R → R) (s : Planet R G)
    (hd : 0 < s.deltaheight) :
    2 * s.deltaheight ≤
      (findRange sqrt s.deltaheight s.nface (MakeGeometry gen sqrt s).faces).2
        - (findRange sqrt s.deltaheight s.nface (MakeGeometry gen sqrt s).faces).1 ∧
    (s.showocean = false →
      (MakeGeometry gen sqrt s).radiusmin =
        (findRange sqrt s.deltaheight s.nface (MakeGeometry gen sqrt s).faces).1 ∧
      2 * s.deltaheight ≤
        (MakeGeometry gen sqrt s).radiusmax - (MakeGeometry gen sqrt s).radiusmin) ∧
    (s.showocean = true →
      (MakeGeometry gen sqrt s).radiusmin =
        (findRange sqrt s.deltaheight s.nface (MakeGeometry gen sqrt s).faces).1
          + ((findRange sqrt s.deltaheight s.nface (MakeGeometry gen sqrt s).faces).2
            - (findRange sqrt s.deltaheight s.nface (MakeGeometry gen sqrt s).faces).1) / 2 ∧
      s.deltaheight ≤
        (MakeGeometry gen sqrt s).radiusmax - (MakeGeometry gen sqrt s).radiusmin) ∧
    0 < (MakeGeometry gen sqrt s).radiusmax - (MakeGeometry gen sqrt s).radiusmin ∧
    (∀ t, t ∈ displayList gen sqrt s → ∀ v, v = t.v1 ∨ v = t.v2 ∨ v = t.v3 →
      v.colour = GetColour (Modulus sqrt v.p) (MakeGeometry gen sqrt s).radiusmin
        (MakeGeometry gen sqrt s).radiusmax s.colourmap ∧
      ∃ c, v.colour = some c) := by
  have hgap := MakeGeometry_gap gen sqrt s
  have hpos := MakeGeometry_gap_pos gen sqrt s hd
  have hr := MakeGeometry_range gen sqrt s
  refine ⟨findRange_gap _ _ _ _, fun ho => ⟨?_, hgap.2 ho⟩, fun ho => ⟨?_, hgap.1 ho⟩,
    sub_pos.mpr hpos, ?_⟩
  · rw [hr.2, ho]; simp
  · rw [hr.2, ho]; simp
  · intro t ht v hv
    rw [displayList_eq, triangleLoop_eq, List.mem_map] at ht
    obtain ⟨i, -, rfl⟩ := ht
    have hsome := fun r => GetColour_some_unit r (MakeGeometry gen sqrt s).radiusmin
      (MakeGeometry gen sqrt s).radiusmax s.colourmap hpos
    rcases hv with rfl | rfl | rfl
    · obtain ⟨c, hc, -⟩ := hsome (Modulus sqrt (((MakeGeometry gen sqrt s).faces i).p 0))
      exact ⟨rfl, c, hc⟩
    · obtain ⟨c, hc, -⟩ := hsome (Modulus sqrt (((MakeGeometry gen sqrt s).faces i).p 1))
      exact ⟨rfl, c, hc⟩
    · obtain ⟨c, hc, -⟩ := hsome (Modulus sqrt (((MakeGeometry gen sqrt s).faces i).p 2))
      exact ⟨rfl, c, hc⟩

/-- Witness for C19: the depth 0 mesh as the program first displays it. -/
theorem MakeGeometry_colour_range_witness :
    (0 : ℝ) < (freshPlanet Real.sqrt 0 : Planet ℝ Unit).deltaheight ∧
    0 < (MakeGeometry (constGen (0 : ℝ)) Real.sqrt (freshPlanet Real.sqrt 0)).radiusmax
      - (MakeGeometry (constGen (0 : ℝ)) Real.sqrt (freshPlanet Real.sqrt 0)).radiusmin :=
  have hd : (0 : ℝ) < (freshPlanet Real.sqrt 0 : Planet ℝ Unit).deltaheight := by
    show (0 : ℝ) < 1 / 100000
    norm_num
  ⟨hd, (MakeGeometry_colour_range (constGen (0 : ℝ)) Real.sqrt (freshPlanet Real.sqrt 0)
    hd).2.2.2.1⟩

end DisplayListClaims

section OceanWitness

/-- Witness for C15: the depth 0 mesh, whose corners all have radius 1, with
the sea level at 2. -/
theorem triangleLoop_ocean_witness :
    (∀ i, i < 8 → ∀ k,
      Modulus Real.sqrt (((freshPlanet Real.sqrt 0 : Planet ℝ Unit).faces i).p k) < 2) ∧
    triangleLoop Real.sqrt 12 1 2 2 8 (freshPlanet Real.sqrt 0 : Planet ℝ Unit).faces = [] :=
  have h : ∀ i, i < 8 → ∀ k,
      Modulus Real.sqrt (((freshPlanet Real.sqrt 0 : Planet ℝ Unit).faces i).p k) < 2 := by
    intro i hi k
    have hu : normSq (((freshPlanet Real.sqrt 0 : Planet ℝ Unit).faces i).p k) = 1 :=
      (rounds_good zeroBuffer 0 i hi).1 k
    unfold Modulus
    unfold normSq at hu
    rw [hu, Real.sqrt_one]
    norm_num
  ⟨h, (@triangleLoop_ocean Unit 12 1 2 2 8 (freshPlanet Real.sqrt 0 : Planet ℝ Unit).faces).2.1 h⟩

end OceanWitness

/-! ## The handlers and `Display` -/

section HandlerLemmas

variable {R G : Type} [LinearOrderedField R]

theorem MakeGeometry_light (gen : Rand48 R G) (sqrt : R → R) (s : Planet R G)
    (h1 : s.geometrydirty ≠ REALDIRTY) (h2 : s.geometrydirty ≠ ADDONE) :
    MakeGeometry gen sqrt s =
      { s with radiusmin := (MakeGeometry gen sqrt s).radiusmin,
               radiusmax := (MakeGeometry gen sqrt s).radiusmax } := by
  have e := MakeGeometry_other gen sqrt s h1 h2
  have hf : (MakeGeometry gen sqrt s).faces = (afterSurface gen sqrt s).1 := rfl
  have hg : (MakeGeometry gen sqrt s).rng = (afterSurface gen sqrt s).2 := rfl
  rw [hf] at e
  rw [hg] at e
  unfold MakeGeometry
  simp only [e.1, e.2]

theorem HandleMainMenu_visual (whichone randValue : Int) (s : Planet R G)
    (h1 : 1 ≤ whichone) (h5 : whichone ≤ 5) :
    ∃ t, HandleMainMenu whichone randValue s = some t ∧
      t.geometrydirty = SLIGHTLYDIRTY ∧ t.seedvalue = s.seedvalue ∧
      t.iterationdepth = s.iterationdepth ∧ t.deltaheight = s.deltaheight ∧
      t.whichmethod = s.whichmethod ∧ t.spheredepth = s.spheredepth ∧
      t.faces = s.faces ∧ t.nface = s.nface := by
  have hc : whichone = 1 ∨ whichone = 2 ∨ whichone = 3 ∨ whichone = 4 ∨ whichone = 5 := by
    omega
  rcases hc with h | h | h | h | h <;> subst h <;>
    exact ⟨_, rfl, rfl, rfl, rfl, rfl, rfl, rfl, rfl, rfl⟩

theorem handle_iterationdepth (sqrt : R → R) (e : Event) (s t : Planet R G)
    (h : 0 ≤ s.iterationdepth) (ht : handle sqrt e s = some t) : 0 ≤ t.iterationdepth := by
  cases e with
  | keyboard key =>
    simp only [handle, HandleKeyboard] at ht
    split_ifs at ht <;> first
      | (simp only [Option.some.injEq] at ht; subst ht; first | exact h | (dsimp only; omega))
  | specialKeyboard key =>
    simp only [handle, HandleSpecialKeyboard, Option.some.injEq] at ht
    subst ht; exact h
  | mainMenu whichone randValue =>
    simp only [handle, HandleMainMenu] at ht
    split_ifs at ht <;> first
      | (simp only [Option.some.injEq] at ht; subst ht; exact h)
  | iterMenu whichone =>
    simp only [handle, HandleIterMenu] at ht
    split_ifs at ht <;> first
      | (simp only [Option.some.injEq] at ht; subst ht; first | exact h | (dsimp only; omega))
  | methodMenu whichone =>
    simp only [handle, HandleMethodMenu, Option.some.injEq] at ht
    subst ht; exact h
  | resolMenu whichone =>
    simp only [handle, HandleResolMenu, Option.some.injEq] at ht
    subst ht; exact h
  | heightMenu whichone =>
    simp only [handle, HandleHeightMenu, Option.some.injEq] at ht
    subst ht; exact h
  | colourMenu whichone =>
    simp only [handle, HandleColourMenu, Option.some.injEq] at ht
    subst ht; exact h

theorem Display_iterationdepth_cases (gen : Rand48 R G) (sqrt : R → R) (s : Planet R G) :
    (Display gen sqrt s).iterationdepth = s.iterationdepth ∨
    (Display gen sqrt s).iterationdepth = s.iterationdepth + 1 := by
  unfold Display
  simp only []
  split_ifs <;> first | (left; rfl) | (right; rfl)

theorem Display_iterationdepth (gen : Rand48 R G) (sqrt : R → R) (s : Planet R G)
    (h : 0 ≤ s.iterationdepth) : 0 ≤ (Display gen sqrt s).iterationdepth := by
  rcases Display_iterationdepth_cases gen sqrt s with e | e <;> rw [e] <;> omega

theorem run_iterationdepth (gen : Rand48 R G) (sqrt : R → R) (xs : List (Option Event))
    (s t : Planet R G) (h : 0 ≤ s.iterationdepth) (ht : run gen sqrt xs s = some t) :
    0 ≤ t.iterationdepth := by
  induction xs generalizing s with
  | nil =>
    simp only [run, Option.some.injEq] at ht
    subst ht; exact h
  | cons x xs ih =>
    simp only [run] at ht
    cases x with
    | none =>
      simp only [step, Option.some_bind] at ht
      exact ih _ (Display_iterationdepth gen sqrt s h) ht
    | some e =>
      simp only [step] at ht
      cases he : handle sqrt e s with
      | none => rw [he] at ht; cases ht
      | some u =>
        rw [he] at ht
        exact ih u (handle_iterationdepth sqrt e s u h he) ht

end HandlerLemmas

section HandlerClaims

variable {R G : Type} [LinearOrderedField R]

/-- C16: in the `SLIGHTLYDIRTY` state `MakeGeometry` leaves every position and
every count of every face as it was, draws no random number (the generator
state is unchanged) and changes no global but `radiusmin` and `radiusmax`,
which it recomputes from the unchanged mesh.  Entries 1 to 5 of the main menu
and the colour menu set `geometrydirty` to `SLIGHTLYDIRTY` and leave
`seedvalue`, `iterationdepth`, `deltaheight`, `whichmethod`, `spheredepth` and
the mesh alone. -/
theorem MakeGeometry_light_refresh (gen : Rand48 R G) (sqrt : R → R) (s : Planet R G)
    (hs : s.geometrydirty = SLIGHTLYDIRTY) :
    (MakeGeometry gen sqrt s).faces = s.faces ∧
    (MakeGeometry gen sqrt s).rng = s.rng ∧
    MakeGeometry gen sqrt s =
      { s with radiusmin := (MakeGeometry gen sqrt s).radiusmin,
               radiusmax := (MakeGeometry gen sqrt s).radiusmax } ∧
    (MakeGeometry gen sqrt s).radiusmax = (findRange sqrt s.deltaheight s.nface s.faces).2 ∧
    (MakeGeometry gen sqrt s).radiusmin =
      (if s.showocean then
        (findRange sqrt s.deltaheight s.nface s.faces).1
          + ((findRange sqrt s.deltaheight s.nface s.faces).2
            - (findRange sqrt s.deltaheight s.nface s.faces).1) / 2
       else (findRange sqrt s.deltaheight s.nface s.faces).1) ∧
    (∀ (t : Planet R G) (whichone randValue : Int), 1 ≤ whichone → whichone ≤ 5 →
      ∃ u, HandleMainMenu whichone randValue t = some u ∧
        u.geometrydirty = SLIGHTLYDIRTY ∧ u.seedvalue = t.seedvalue ∧
        u.iterationdepth = t.iterationdepth ∧ u.deltaheight = t.deltaheight ∧
        u.whichmethod = t.whichmethod ∧ u.spheredepth = t.spheredepth ∧
        u.faces = t.faces ∧ u.nface = t.nface) ∧
    (∀ (t : Planet R G) (whichone : Int),
      ∃ u, HandleColourMenu whichone t = some u ∧
        u.geometrydirty = SLIGHTLYDIRTY ∧ u.seedvalue = t.seedvalue ∧
        u.iterationdepth = t.iterationdepth ∧ u.deltaheight = t.deltaheight ∧
        u.whichmethod = t.whichmethod ∧ u.spheredepth = t.spheredepth ∧
        u.faces = t.faces ∧ u.nface = t.nface) := by
  have h1 : s.geometrydirty ≠ REALDIRTY := by rw [hs]; decide
  have h2 : s.geometrydirty ≠ ADDONE := by rw [hs]; decide
  have e := MakeGeometry_other gen sqrt s h1 h2
  have hr := MakeGeometry_range gen sqrt s
  rw [e.1] at hr
  exact ⟨e.1, e.2, MakeGeometry_light gen sqrt s h1 h2, hr.1, hr.2,
    fun t w rv hw1 hw5 => HandleMainMenu_visual w rv t hw1 hw5,
    fun t w => ⟨_, rfl, rfl, rfl, rfl, rfl, rfl, rfl, rfl, rfl⟩⟩

/-- Witness for C16: the depth 0 mesh after a toggle of the lights. -/
theorem MakeGeometry_light_refresh_witness :
    ({ freshPlanet Real.sqrt 0 with geometrydirty := SLIGHTLYDIRTY } :
      Planet ℝ Unit).geometrydirty = SLIGHTLYDIRTY ∧
    (MakeGeometry (constGen (0 : ℝ)) Real.sqrt
      { freshPlanet Real.sqrt 0 with geometrydirty := SLIGHTLYDIRTY }).faces =
      ({ freshPlanet Real.sqrt 0 with geometrydirty := SLIGHTLYDIRTY } : Planet ℝ Unit).faces :=
  ⟨rfl, (MakeGeometry_light_refresh (constGen (0 : ℝ)) Real.sqrt
    { freshPlanet Real.sqrt 0 with geometrydirty := SLIGHTLYDIRTY } rfl).1⟩

/-- C17: with unbounded integers, `iterationdepth >= 0` is kept by the callback
of every keyboard and menu event, by `Display` (its demo-mode increment
included) and so by every run of callbacks and `Display` calls; the keys `<`
and `,` and entry 1 of the iteration menu leave an `iterationdepth` of 0 at 0. -/
theorem iterationdepth_floor (gen : Rand48 R G) (sqrt : R → R) (s : Planet R G)
    (h : 0 ≤ s.iterationdepth) :
    (∀ e t, handle sqrt e s = some t → 0 ≤ t.iterationdepth) ∧
    0 ≤ (Display gen sqrt s).iterationdepth ∧
    (∀ xs t, run gen sqrt xs s = some t → 0 ≤ t.iterationdepth) ∧
    (s.iterationdepth = 0 →
      (∃ t, HandleKeyboard '<' s = some t ∧ t.iterationdepth = 0) ∧
      (∃ t, HandleKeyboard ',' s = some t ∧ t.iterationdepth = 0) ∧
      (∃ t, HandleIterMenu 1 s = some t ∧ t.iterationdepth = 0)) := by
  refine ⟨fun e t ht => handle_iterationdepth sqrt e s t h ht,
    Display_iterationdepth gen sqrt s h,
    fun xs t ht => run_iterationdepth gen sqrt xs s t h ht, fun h0 => ?_⟩
  have hneg : s.iterationdepth - 1 < 0 := by omega
  refine ⟨⟨_, rfl, ?_⟩, ⟨_, rfl, ?_⟩, ⟨_, rfl, ?_⟩⟩
  · show (if s.iterationdepth - 1 < 0 then 0 else s.iterationdepth - 1) = 0
    rw [if_pos hneg]
  · show (if s.iterationdepth - 1 < 0 then 0 else s.iterationdepth - 1) = 0
    rw [if_pos hneg]
  · show (if s.iterationdepth - 1 < 0 then 0 else s.iterationdepth - 1) = 0
    rw [if_pos hneg]

/-- Witness for C17: the initial globals, where `iterationdepth` is 0, and the
key `<`. -/
theorem iterationdepth_floor_witness :
    (0 : Int) ≤ (freshPlanet Real.sqrt 0 : Planet ℝ Unit).iterationdepth ∧
    ∃ t, HandleKeyboard '<' (freshPlanet Real.sqrt 0 : Planet ℝ Unit) = some t ∧
      t.iterationdepth = 0 :=
  ⟨le_refl _, ((iterationdepth_floor (constGen (0 : ℝ)) Real.sqrt (freshPlanet Real.sqrt 0)
    (le_refl _)).2.2.2 rfl).1⟩

end HandlerClaims

/-! ## An incremental step against a full rebuild -/

section Incremental

variable {R G : Type} [LinearOrderedField R]

end Incremental

section IncrementalClaim

variable {G : Type}

end IncrementalClaim

/-! ## The spread of the radius range -/

section SpreadLemmas

variable {G : Type}

theorem scaled_none (deltaheight : ℝ) (u : XYZ ℝ) : scaled deltaheight u 0 = u := by
  cases u
  simp [scaled]

theorem Modulus_zero : Modulus Real.sqrt (⟨0, 0, 0⟩ : XYZ ℝ) = 0 := by
  simp [Modulus]

theorem scaled_origin (deltaheight : ℝ) (c : Int) :
    scaled deltaheight (⟨0, 0, 0⟩ : XYZ ℝ) c = ⟨0, 0, 0⟩ := by
  simp [scaled]

theorem Modulus_unit (u : XYZ ℝ) (h : normSq u = 1) : Modulus Real.sqrt u = 1 := by
  unfold Modulus
  unfold normSq at h
  rw [h, Real.sqrt_one]

/-- The corner `(j, k)` after a full rebuild with no pass: the normalised
corner. -/
theorem rebuild_none (gen : Rand48 ℝ G) (s : Planet ℝ G) (hs : s.geometrydirty = REALDIRTY)
    (j : Nat) (hj : j < s.nface) (k : Fin 3) :
    ((MakeGeometry gen Real.sqrt { s with iterationdepth := 0 }).faces j).p k =
      Normalise Real.sqrt ((s.faces j).p k) := by
  have h := MakeGeometry_realdirty gen Real.sqrt { s with iterationdepth := 0 } hs j k hj
  have hc : ((MakeGeometry gen Real.sqrt { s with iterationdepth := 0 }).faces j).c k = 0 :=
    h.1
  rw [h.2.1, hc, scaled_none]
  exact Normalise_idem _

/-- The range loop after a full rebuild with no pass against the range loop
after a full rebuild with `n` passes. -/
theorem rangeLoop_from_zero (gen : Rand48 ℝ G) (s : Planet ℝ G)
    (hs : s.geometrydirty = REALDIRTY) (n : Int) :
    (rangeLoop Real.sqrt s.nface
        (MakeGeometry gen Real.sqrt { s with iterationdepth := 0 }).faces).2 = 1 ∧
    1 ≤ (rangeLoop Real.sqrt s.nface
        (MakeGeometry gen Real.sqrt { s with iterationdepth := n }).faces).2 ∧
    (rangeLoop Real.sqrt s.nface
        (MakeGeometry gen Real.sqrt { s with iterationdepth := n }).faces).1 ≤
      (rangeLoop Real.sqrt s.nface
        (MakeGeometry gen Real.sqrt { s with iterationdepth := 0 }).faces).1 := by
  have h0 := rangeLoop_spec Real.sqrt s.nface
    (MakeGeometry gen Real.sqrt { s with iterationdepth := 0 }).faces
  have hn := rangeLoop_spec Real.sqrt s.nface
    (MakeGeometry gen Real.sqrt { s with iterationdepth := n }).faces
  have hrad : ∀ j, j < s.nface → ∀ k,
      (normSq ((s.faces j).p k) = 0 ∧ Modulus Real.sqrt
        (((MakeGeometry gen Real.sqrt { s with iterationdepth := 0 }).faces j).p k) = 0 ∧
        Modulus Real.sqrt
        (((MakeGeometry gen Real.sqrt { s with iterationdepth := n }).faces j).p k) = 0) ∨
      Modulus Real.sqrt
        (((MakeGeometry gen Real.sqrt { s with iterationdepth := 0 }).faces j).p k) = 1 := by
    intro j hj k
    rw [rebuild_none gen s hs j hj k]
    rcases (normSq_nonneg ((s.faces j).p k)).eq_or_lt with hz | hp
    · left
      have hN := Normalise_zero _ hz.symm
      refine ⟨hz.symm, by rw [hN]; exact Modulus_zero, ?_⟩
      have h := (MakeGeometry_realdirty gen Real.sqrt { s with iterationdepth := n }
        hs j k hj).2.1
      rw [h]
      show Modulus Real.sqrt (scaled s.deltaheight
        (Normalise Real.sqrt (Normalise Real.sqrt ((s.faces j).p k))) _) = 0
      rw [Normalise_idem, hN, scaled_origin]
      exact Modulus_zero
    · right
      exact Modulus_unit _ (normSq_Normalise _ hp)
  refine ⟨?_, hn.2.1, ?_⟩
  · rcases h0.2.2.2.2 with h | ⟨j, hj, k, hk⟩
    · exact h
    · rcases hrad j hj k with ⟨_, hz, _⟩ | h1
      · have := h0.2.1
        rw [hk, hz] at this
        linarith
      · rw [hk, h1]
  · rcases h0.2.2.2.1 with h | ⟨j, hj, k, hk⟩
    · rw [h]; exact hn.1
    · rcases hrad j hj k with ⟨_, hz, hzn⟩ | h1
      · rw [hk, hz, ← hzn]
        exact ((hn.2.2.1 j hj k).1)
      · rw [hk, h1]; exact hn.1

theorem spread_eq (gen : Rand48 ℝ G) (s : Planet ℝ G) :
    spread (MakeGeometry gen Real.sqrt s) =
      (if s.showocean then
        ((rangeLoop Real.sqrt s.nface (MakeGeometry gen Real.sqrt s).faces).2
          - (rangeLoop Real.sqrt s.nface (MakeGeometry gen Real.sqrt s).faces).1
          + 2 * s.deltaheight) / 2
      else
        (rangeLoop Real.sqrt s.nface (MakeGeometry gen Real.sqrt s).faces).2
          - (rangeLoop Real.sqrt s.nface (MakeGeometry gen Real.sqrt s).faces).1
          + 2 * s.deltaheight) := by
  have h := MakeGeometry_range gen Real.sqrt s
  unfold spread
  rw [h.1, h.2]
  unfold findRange
  by_cases ho : s.showocean
  · simp only [ho, if_true]; ring
  · simp only [ho, if_false, Bool.false_eq_true]; ring

end SpreadLemmas

section SpreadCancel

theorem Normalise_dot (v u : XYZ ℝ) (h : 0 < normSq v) :
    DotProduct (Normalise Real.sqrt v) u = DotProduct v u / Real.sqrt (normSq v) := by
  rw [Normalise_of_pos v h]
  simp only [DotProduct]
  ring

theorem cancel_first :
    (chooseNormal (tableGen (cancelTable : List ℝ)) Real.sqrt 0) =
      ((Normalise Real.sqrt ⟨9 / 10 - 1 / 2, 4 / 5 - 1 / 2, 7 / 10 - 1 / 2⟩, 1 / 2 - 1 / 2), 4) :=
  rfl

theorem cancel_second :
    (chooseNormal (tableGen (cancelTable : List ℝ)) Real.sqrt 4) =
      ((Normalise Real.sqrt ⟨1 / 10 - 1 / 2, 1 / 5 - 1 / 2, 3 / 10 - 1 / 2⟩, 1 / 2 - 1 / 2), 8) :=
  rfl

theorem cancel_normSq1 :
    0 < normSq (⟨9 / 10 - 1 / 2, 4 / 5 - 1 / 2, 7 / 10 - 1 / 2⟩ : XYZ ℝ) := by
  simp only [normSq]; norm_num

theorem cancel_normSq2 :
    0 < normSq (⟨1 / 10 - 1 / 2, 1 / 5 - 1 / 2, 3 / 10 - 1 / 2⟩ : XYZ ℝ) := by
  simp only [normSq]; norm_num

theorem octa_a_pos : (0 : ℝ) < 1 / Real.sqrt 2 :=
  one_div_pos.mpr (Real.sqrt_pos.mpr (by norm_num))

/-- The sign of `n . p` for the first plane of `cancelTable` at the six
vertices of the octahedron, and for the second plane the opposite sign. -/
theorem cancel_signs (i : Fin 6) :
    (DotProduct (chooseNormal (tableGen (cancelTable : List ℝ)) Real.sqrt 0).1.1
        (octaVertex Real.sqrt i) > 0 ∧
      ¬ DotProduct (chooseNormal (tableGen (cancelTable : List ℝ)) Real.sqrt 4).1.1
        (octaVertex Real.sqrt i) > 0) ∨
    (¬ DotProduct (chooseNormal (tableGen (cancelTable : List ℝ)) Real.sqrt 0).1.1
        (octaVertex Real.sqrt i) > 0 ∧
      DotProduct (chooseNormal (tableGen (cancelTable : List ℝ)) Real.sqrt 4).1.1
        (octaVertex Real.sqrt i) > 0) := by
  rw [cancel_first, cancel_second]
  simp only [Normalise_dot _ _ cancel_normSq1, Normalise_dot _ _ cancel_normSq2]
  have h1 := Real.sqrt_pos.mpr cancel_normSq1
  have h2 := Real.sqrt_pos.mpr cancel_normSq2
  have ha := octa_a_pos
  have pos : ∀ (x d : ℝ), 0 < d → 0 < x → x / d > 0 := fun x d hd hx => div_pos hx hd
  have neg : ∀ (x d : ℝ), 0 < d → x < 0 → ¬ x / d > 0 := fun x d hd hx =>
    not_lt.mpr (div_nonpos_of_nonpos_of_nonneg hx.le hd.le)
  fin_cases i
  · left
    exact ⟨pos _ _ h1 (by simp only [DotProduct, octaVertex]; norm_num),
      neg _ _ h2 (by simp only [DotProduct, octaVertex]; norm_num)⟩
  · right
    exact ⟨neg _ _ h1 (by simp only [DotProduct, octaVertex]; norm_num),
      pos _ _ h2 (by simp only [DotProduct, octaVertex]; norm_num)⟩
  · right
    exact ⟨neg _ _ h1 (by simp only [DotProduct, octaVertex]; nlinarith),
      pos _ _ h2 (by simp only [DotProduct, octaVertex]; nlinarith)⟩
  · left
    exact ⟨pos _ _ h1 (by simp only [DotProduct, octaVertex]; nlinarith),
      neg _ _ h2 (by simp only [DotProduct, octaVertex]; nlinarith)⟩
  · left
    exact ⟨pos _ _ h1 (by simp only [DotProduct, octaVertex]; nlinarith),
      neg _ _ h2 (by simp only [DotProduct, octaVertex]; nlinarith)⟩
  · right
    exact ⟨neg _ _ h1 (by simp only [DotProduct, octaVertex]; nlinarith),
      pos _ _ h2 (by simp only [DotProduct, octaVertex]; nlinarith)⟩

/-- Every corner of the depth 0 mesh is one of the six vertices of the
octahedron. -/
theorem tablePlanet_corner (j : Nat) (hj : j < 8) (k : Fin 3) :
    ∃ i, ((tablePlanet Real.sqrt 0 : Planet ℝ Nat).faces j).p k = octaVertex Real.sqrt i := by
  have e : (tablePlanet Real.sqrt 0 : Planet ℝ Nat).faces = levelZero Real.sqrt zeroBuffer :=
    rfl
  rw [e]
  interval_cases j <;> fin_cases k <;> simp only [levelZero, setFace_p] <;> norm_num <;>
    first
      | exact ⟨0, rfl⟩ | exact ⟨1, rfl⟩ | exact ⟨2, rfl⟩
      | exact ⟨3, rfl⟩ | exact ⟨4, rfl⟩ | exact ⟨5, rfl⟩

end SpreadCancel

section SpreadClaim

variable {G : Type}

/-- The count of a corner of the depth 0 mesh after the two passes of
`cancelTable`: the second pass undoes the first. -/
theorem cancel_count (j : Nat) (hj : j < 8) (k : Fin 3) :
    ((MakeGeometry (tableGen (cancelTable : List ℝ)) Real.sqrt
      { tablePlanet Real.sqrt 0 with iterationdepth := 2 }).faces j).c k = 0 := by
  have h := (MakeGeometry_realdirty (tableGen (cancelTable : List ℝ)) Real.sqrt
    { tablePlanet Real.sqrt 0 with iterationdepth := 2 } rfl j k hj).1
  obtain ⟨i, hi⟩ := tablePlanet_corner j hj k
  have hc : ((MakeGeometry (tableGen (cancelTable : List ℝ)) Real.sqrt
      { tablePlanet Real.sqrt 0 with iterationdepth := 2 }).faces j).c k =
      passCount 1 (chooseNormal (tableGen (cancelTable : List ℝ)) Real.sqrt 4).1
        (Normalise Real.sqrt (((tablePlanet Real.sqrt 0 : Planet ℝ Nat).faces j).p k))
        (passCount 1 (chooseNormal (tableGen (cancelTable : List ℝ)) Real.sqrt 0).1
          (Normalise Real.sqrt (((tablePlanet Real.sqrt 0 : Planet ℝ Nat).faces j).p k)) 0) :=
    h
  rw [hc, hi, Normalise_unit _ (octa_normSq i)]
  unfold passCount testPoint
  simp only [if_true]
  rcases cancel_signs i with ⟨h1, h2⟩ | ⟨h1, h2⟩
  · rw [if_pos h1, if_neg h2]; norm_num
  · rw [if_neg h1, if_pos h2]; norm_num

theorem cancel_radius (j : Nat) (hj : j < 8) (k : Fin 3) :
    Modulus Real.sqrt (((MakeGeometry (tableGen (cancelTable : List ℝ)) Real.sqrt
      { tablePlanet Real.sqrt 0 with iterationdepth := 2 }).faces j).p k) = 1 := by
  have h := (MakeGeometry_realdirty (tableGen (cancelTable : List ℝ)) Real.sqrt
    { tablePlanet Real.sqrt 0 with iterationdepth := 2 } rfl j k hj).2.1
  obtain ⟨i, hi⟩ := tablePlanet_corner j hj k
  rw [h, cancel_count j hj k, scaled_none]
  show Modulus Real.sqrt (Normalise Real.sqrt (Normalise Real.sqrt
    (((tablePlanet Real.sqrt 0 : Planet ℝ Nat).faces j).p k))) = 1
  rw [hi, Normalise_unit _ (octa_normSq i), Normalise_unit _ (octa_normSq i)]
  exact Modulus_unit _ (octa_normSq i)

theorem cancel_spread :
    spread (MakeGeometry (tableGen (cancelTable : List ℝ)) Real.sqrt
      { tablePlanet Real.sqrt 0 with iterationdepth := 2 }) = 2 / 100000 := by
  have hsp := rangeLoop_spec Real.sqrt 8
    (MakeGeometry (tableGen (cancelTable : List ℝ)) Real.sqrt
      { tablePlanet Real.sqrt 0 with iterationdepth := 2 }).faces
  have h1 : (rangeLoop Real.sqrt 8
      (MakeGeometry (tableGen (cancelTable : List ℝ)) Real.sqrt
        { tablePlanet Real.sqrt 0 with iterationdepth := 2 }).faces).1 = 1 := by
    rcases hsp.2.2.2.1 with h | ⟨j, hj, k, hk⟩
    · exact h
    · rw [hk]; exact cancel_radius j hj k
  have h2 : (rangeLoop Real.sqrt 8
      (MakeGeometry (tableGen (cancelTable : List ℝ)) Real.sqrt
        { tablePlanet Real.sqrt 0 with iterationdepth := 2 }).faces).2 = 1 := by
    rcases hsp.2.2.2.2 with h | ⟨j, hj, k, hk⟩
    · exact h
    · rw [hk]; exact cancel_radius j hj k
  rw [spread_eq]
  show (if false = true then _ else
    (rangeLoop Real.sqrt 8 _).2 - (rangeLoop Real.sqrt 8 _).1 + 2 * (1 / 100000 : ℝ)) = _
  rw [if_neg (by decide), h1, h2]
  norm_num

theorem single_spread :
    3 / 100000 ≤ spread (MakeGeometry (tableGen (cancelTable : List ℝ)) Real.sqrt
      { tablePlanet Real.sqrt 0 with iterationdepth := 1 }) := by
  have hsp := rangeLoop_spec Real.sqrt 8
    (MakeGeometry (tableGen (cancelTable : List ℝ)) Real.sqrt
      { tablePlanet Real.sqrt 0 with iterationdepth := 1 }).faces
  have h := MakeGeometry_realdirty (tableGen (cancelTable : List ℝ)) Real.sqrt
    { tablePlanet Real.sqrt 0 with iterationdepth := 1 } rfl 0 0 (by decide)
  have hp : ((tablePlanet Real.sqrt 0 : Planet ℝ Nat).faces 0).p 0 = octaVertex Real.sqrt 0 := by
    have e : (tablePlanet Real.sqrt 0 : Planet ℝ Nat).faces = levelZero Real.sqrt zeroBuffer :=
      rfl
    rw [e]
    simp only [levelZero, setFace_p]
    norm_num
    rfl
  have hc : ((MakeGeometry (tableGen (cancelTable : List ℝ)) Real.sqrt
      { tablePlanet Real.sqrt 0 with iterationdepth := 1 }).faces 0).c 0 = 1 := by
    have hc' : ((MakeGeometry (tableGen (cancelTable : List ℝ)) Real.sqrt
        { tablePlanet Real.sqrt 0 with iterationdepth := 1 }).faces 0).c 0 =
        passCount 1 (chooseNormal (tableGen (cancelTable : List ℝ)) Real.sqrt 0).1
          (Normalise Real.sqrt (((tablePlanet Real.sqrt 0 : Planet ℝ Nat).faces 0).p 0)) 0 :=
      h.1
    rw [hc', hp, Normalise_unit _ (octa_normSq 0)]
    unfold passCount testPoint
    simp only [if_true]
    rcases cancel_signs 0 with ⟨h1, _⟩ | ⟨h1, h2⟩
    · rw [if_pos h1]; norm_num
    · exfalso
      rw [cancel_first, Normalise_dot _ _ cancel_normSq1] at h1
      apply h1
      apply div_pos _ (Real.sqrt_pos.mpr cancel_normSq1)
      simp only [DotProduct, octaVertex]; norm_num
  have hr : Modulus Real.sqrt (((MakeGeometry (tableGen (cancelTable : List ℝ)) Real.sqrt
      { tablePlanet Real.sqrt 0 with iterationdepth := 1 }).faces 0).p 0) = 1 + 1 / 100000 := by
    rw [h.2.1, hc]
    show Modulus Real.sqrt (scaled (1 / 100000) (Normalise Real.sqrt (Normalise Real.sqrt
      (((tablePlanet Real.sqrt 0 : Planet ℝ Nat).faces 0).p 0))) 1) = _
    rw [hp, Normalise_unit _ (octa_normSq 0), Normalise_unit _ (octa_normSq 0),
      Modulus_scaled _ _ _ (octa_normSq 0)]
    norm_num [abs_of_pos]
  have hmax := (hsp.2.2.1 0 (by decide) 0).2
  rw [hr] at hmax
  have hmin := hsp.1
  rw [spread_eq]
  show _ ≤ (if false = true then _ else
    (rangeLoop Real.sqrt 8 _).2 - (rangeLoop Real.sqrt 8 _).1 + 2 * (1 / 100000 : ℝ))
  rw [if_neg (by decide)]
  linarith

/-- C11 (as amended): for a fixed mesh, seed, plane mode, `deltaheight` and
sea setting, the spread `radiusmax - radiusmin` computed by a full rebuild
with `iterationdepth = 0` is less than or equal to the spread computed by a
full rebuild with any `iterationdepth = n`: with no pass every radius is 1 (0
for a corner at the origin), and the range always contains 1. -/
theorem MakeGeometry_spread_from_zero (gen : Rand48 ℝ G) (s : Planet ℝ G)
    (hs : s.geometrydirty = REALDIRTY) (n : Int) :
    spread (MakeGeometry gen Real.sqrt { s with iterationdepth := 0 }) ≤
      spread (MakeGeometry gen Real.sqrt { s with iterationdepth := n }) := by
  have h := rangeLoop_from_zero gen s hs n
  rw [spread_eq, spread_eq]
  show (if s.showocean then
      ((rangeLoop Real.sqrt s.nface _).2 - (rangeLoop Real.sqrt s.nface _).1
        + 2 * s.deltaheight) / 2
    else (rangeLoop Real.sqrt s.nface _).2 - (rangeLoop Real.sqrt s.nface _).1
        + 2 * s.deltaheight) ≤
    (if s.showocean then
      ((rangeLoop Real.sqrt s.nface _).2 - (rangeLoop Real.sqrt s.nface _).1
        + 2 * s.deltaheight) / 2
    else (rangeLoop Real.sqrt s.nface _).2 - (rangeLoop Real.sqrt s.nface _).1
        + 2 * s.deltaheight)
  generalize rangeLoop Real.sqrt s.nface
    (MakeGeometry gen Real.sqrt { s with iterationdepth := 0 }).faces = r0 at h ⊢
  generalize rangeLoop Real.sqrt s.nface
    (MakeGeometry gen Real.sqrt { s with iterationdepth := n }).faces = rn at h ⊢
  by_cases ho : s.showocean = true
  · rw [if_pos ho, if_pos ho]; linarith [h.1, h.2.1, h.2.2]
  · rw [if_neg ho, if_neg ho]; linarith [h.1, h.2.1, h.2.2]

/-- Witness for C11: the depth 0 mesh, no pass against ten passes. -/
theorem MakeGeometry_spread_from_zero_witness :
    (freshPlanet Real.sqrt 0 : Planet ℝ Unit).geometrydirty = REALDIRTY ∧
    spread (MakeGeometry (constGen (0 : ℝ)) Real.sqrt
        { freshPlanet Real.sqrt 0 with iterationdepth := 0 }) ≤
      spread (MakeGeometry (constGen (0 : ℝ)) Real.sqrt
        { freshPlanet Real.sqrt 0 with iterationdepth := 10 }) :=
  ⟨rfl, MakeGeometry_spread_from_zero (constGen (0 : ℝ)) (freshPlanet Real.sqrt 0) rfl 10⟩

/-- C11, counterexample: the depth 0 mesh, `whichmethod = 1`,
`deltaheight = 0.00001`, and a seeded sequence whose first plane has the normal
`(0.4, 0.3, 0.2)` normalised and whose second plane has the opposite normal,
both through the origin.  No vertex of the octahedron lies on the plane, so the
second pass undoes the first at every corner: with `iterationdepth = 2` every
count is 0, every radius is 1 and the spread is `2 * deltaheight`, while with
`iterationdepth = 1` the pole `(0, 0, 1)` is raised to `1 + deltaheight` and
the spread is at least `3 * deltaheight`. -/
theorem MakeGeometry_spread_counterexample :
    spread (MakeGeometry (tableGen (cancelTable : List ℝ)) Real.sqrt
      { tablePlanet Real.sqrt 0 with iterationdepth := 2 }) = 2 / 100000 ∧
    3 / 100000 ≤ spread (MakeGeometry (tableGen (cancelTable : List ℝ)) Real.sqrt
      { tablePlanet Real.sqrt 0 with iterationdepth := 1 }) ∧
    ¬ (spread (MakeGeometry (tableGen (cancelTable : List ℝ)) Real.sqrt
        { tablePlanet Real.sqrt 0 with iterationdepth := 1 }) ≤
      spread (MakeGeometry (tableGen (cancelTable : List ℝ)) Real.sqrt
        { tablePlanet Real.sqrt 0 with iterationdepth := 2 })) := by
  refine ⟨cancel_spread, single_spread, ?_⟩
  rw [cancel_spread]
  have h := single_spread
  intro hle
  linarith

end SpreadClaim

end PlanarPlanet
